import Mathlib

/-!
# EAMxx MAM4 aerosol microphysics: process interface

A shallow embedding of
`components/eamxx/src/physics/mam/eamxx_mam_microphysics_process_interface.cpp`.

Conventions of the embedding:

* `Real` (a C++ `double`) is modelled by exact rational arithmetic.
* C++ `int` values are modelled by `Int`; signed overflow is undefined
  behaviour in the source and is not modelled, conversions from `size_t`
  are modelled explicitly (`static_cast_int`).
* Fixed-size work arrays `Real x[gas_pcnst]` are functions on `Fin gas_pcnst`.
* Kokkos views are flat lists (the `.data()` buffer).
* Library kernels that the interface calls (mam4xx, `mam_coupling`, `impl::`)
  and compile-time constants of the chemical mechanism (`gas_pcnst`,
  `phtcnt`, `extcnt`) are parameters.
* Locals that the source reads without having set them are parameters too
  (`Indeterminate`).
* The two nested `Kokkos::parallel_for` loops are run in index order.
-/

namespace scream

/-- The floating-point type `Real` of the source, over exact arithmetic. -/
abbrev Real := ℚ

/-- A work array `Real x[n]`. -/
abbrev WorkArray (n : Nat) := Fin n → Real

/-! ## Configuration (`MAMMicrophysics::Config`) -/

/-- The record `config_.amicphys.nucleation`. -/
structure NucleationConfig where
  dens_so4a_host : Real
  mw_so4a_host : Real
  newnuc_method_user_choice : Int
  pbl_nuc_wang2008_user_choice : Int
  adjust_factor_pbl_ratenucl : Real
  accom_coef_h2so4 : Real
  newnuc_adjust_factor_dnaitdt : Real
deriving DecidableEq, Repr

/-- The record `config_.amicphys`. -/
structure AmicPhysConfig where
  do_cond : Bool
  do_rename : Bool
  do_newnuc : Bool
  do_coag : Bool
  nucleation : NucleationConfig
  gaexch_h2so4_uptake_optaa : Int
  newnuc_h2so4_conc_optaa : Int
deriving DecidableEq, Repr

/-- The record `config_.photolysis`. -/
structure PhotolysisConfig where
  rsf_file : String
  xs_long_file : String
deriving DecidableEq, Repr

/-- The record `config_.linoz`. -/
structure LinozConfig where
  o3_lbl : Int
  o3_sfc : Real
  o3_tau : Real
  psc_T : Real
  chlorine_loading_file : String
deriving DecidableEq, Repr

/-- The member `config_`; `SetsoxCfg` is the type of `config_.setsox`. -/
structure Config (SetsoxCfg : Type) where
  amicphys : AmicPhysConfig
  photolysis : PhotolysisConfig
  linoz : LinozConfig
  setsox : SetsoxCfg

/-! ## The photolysis table (`mam4::mo_photo::PhotoTableData`) -/

/-- The views of `mam4::mo_photo::PhotoTableData` that `read_photo_table`
fills, each as its flat buffer, with the table dimensions. -/
structure PhotoTableData where
  nw : Int
  nt : Int
  np_xs : Int
  numj : Int
  nump : Int
  numsza : Int
  numcolo3 : Int
  numalb : Int
  rsf_tab : List Real
  xsqy : List Real
  sza : List Real
  alb : List Real
  press : List Real
  colo3 : List Real
  o3rat : List Real
  etfphot : List Real
  prs : List Real
  pht_alias_mult_1 : List Real
  lng_indexer : List Int
  del_p : List Real
  del_sza : List Real
  del_alb : List Real
  del_o3rat : List Real
  dprs : List Real
deriving DecidableEq, Repr

/-! ## Serial NetCDF reads on the MPI root and the broadcast -/

/-- A NetCDF file as partial maps from names to values. -/
structure NcFile where
  /-- `nc_inq_dimid` followed by `nc_inq_dimlen`: the length of a dimension -/
  dims : String → Option Nat
  /-- `nc_inq_varid`: the ID of a variable -/
  varid : String → Option Int
  /-- `nc_get_var`: the values of the variable with the given ID -/
  vardata : Int → Option (List Real)

/-- The conversion `static_cast<int>(dim)` of a 64-bit `size_t`. -/
def static_cast_int (dim : Nat) : Int :=
  if dim % 2 ^ 32 < 2 ^ 31 then ((dim % 2 ^ 32 : Nat) : Int)
  else ((dim % 2 ^ 32 : Nat) : Int) - 2 ^ 32

/-- The function `nc_dimension(file, nc_id, dim_name)`. -/
def nc_dimension (file : String) (nc : NcFile) (dim_name : String) : Except String Int :=
  match nc.dims dim_name with
  | none => .error ("Error! Couldn't fetch " ++ dim_name ++
      " dimension ID from NetCDF file " ++ file)
  | some dim => .ok (static_cast_int dim)

/-- The effect of `nc_get_var(nc_id, var_id, ptr)` on the buffer `buf` that
holds `ptr` at offset `off`: the values of the variable are stored from `off`
on. Values that would fall behind the end of the buffer are dropped. -/
def write_at (buf : List Real) (off : Nat) (data : List Real) : List Real :=
  (List.range buf.length).map
    (fun p => if off ≤ p then data.getD (p - off) (buf.getD p 0) else buf.getD p 0)

/-- The function `read_nc_var(file, nc_id, var_name, host_view)`. -/
def read_nc_var (file : String) (nc : NcFile) (var_name : String)
    (host_view : List Real) : Except String (List Real) :=
  match nc.varid var_name with
  | none => .error ("Error! Couldn't fetch ID for variable " ++ var_name ++
      " from NetCDF file " ++ file)
  | some var_id =>
    match nc.vardata var_id with
    | none => .error ("Error! Couldn't read data for variable " ++ var_name ++
        " from NetCDF file " ++ file)
    | some data => .ok (write_at host_view 0 data)

/-- The overload `read_nc_var(file, nc_id, var_id, host_view)`, where
`host_view` is the part of `buf` that starts at offset `off`. -/
def read_nc_var_id (file : String) (nc : NcFile) (var_id : Int)
    (buf : List Real) (off : Nat) : Except String (List Real) :=
  match nc.vardata var_id with
  | none => .error ("Error! Couldn't read data for variable with ID " ++
      toString var_id ++ " from NetCDF file " ++ file)
  | some data => .ok (write_at buf off data)

/-- The table `var_names` of `set_lng_indexer_and_pht_alias_mult_1`. -/
def var_names : List String := ["jh2o2", "usr_HO2_HO2", "usr_SO2_OH", "usr_DMS_OH"]

/-- The loop of `set_lng_indexer_and_pht_alias_mult_1` over the indices `ms`.
Reading `var_names[m]` behind the end of the table is reported as an error. -/
def set_lng_indexer_loop (file : String) (nc : NcFile) :
    List Nat → List Int → Except String (List Int)
  | [], lng_indexer => .ok lng_indexer
  | m :: ms, lng_indexer =>
    match var_names[m]? with
    | none => .error "var_names read out of bounds"
    | some var_name =>
      match nc.varid var_name with
      | none => .error ("Error! Couldn't fetch ID for variable " ++ var_name ++
          " from NetCDF file " ++ file)
      | some var_id => set_lng_indexer_loop file nc ms (lng_indexer.set m var_id)

/-- The function `Kokkos::deep_copy(view, value)`. -/
def deep_copy_scalar {α : Type} (view : List α) (value : α) : List α :=
  view.map (fun _ => value)

/-- The function `set_lng_indexer_and_pht_alias_mult_1(file, nc_id,
lng_indexer, pht_alias_mult_1)`; `phtcnt` is `mam4::mo_photo::phtcnt`. -/
def set_lng_indexer_and_pht_alias_mult_1 (phtcnt : Nat) (file : String) (nc : NcFile)
    (lng_indexer : List Int) (pht_alias_mult_1 : List Real) :
    Except String (List Int × List Real) :=
  match set_lng_indexer_loop file nc (List.range phtcnt) lng_indexer with
  | .error e => .error e
  | .ok lng => .ok (lng, deep_copy_scalar pht_alias_mult_1 1)

/-- The function `populate_etfphot(we, etfphot)`. -/
def populate_etfphot (_we : List Real) (etfphot : List Real) : List Real :=
  deep_copy_scalar etfphot 0

/-- The seven table dimensions of `read_photo_table`. -/
structure TableDims where
  nw : Int
  nump : Int
  numsza : Int
  numcolo3 : Int
  numalb : Int
  nt : Int
  np_xs : Int
deriving DecidableEq, Repr

/-- The initializer `int dim_data[7] = {nump, numsza, numcolo3, numalb, nt,
nw, np_xs}` on the root. -/
def pack_dim_data (d : TableDims) : List Int :=
  [d.nump, d.numsza, d.numcolo3, d.numalb, d.nt, d.nw, d.np_xs]

/-- The assignments `nump = dim_data[0]; ... np_xs = dim_data[6]` on the
other ranks. -/
def unpack_dim_data (dim_data : List Int) : TableDims :=
  { nump := dim_data.getD 0 0
    numsza := dim_data.getD 1 0
    numcolo3 := dim_data.getD 2 0
    numalb := dim_data.getD 3 0
    nt := dim_data.getD 4 0
    nw := dim_data.getD 5 0
    np_xs := dim_data.getD 6 0 }

/-- The buffers a rank hands to the successive `comm.broadcast` calls of
`read_photo_table`. -/
structure Broadcasts where
  dim_data : List Int
  lng_indexer : List Int
  pht_alias_mult_1 : List Real
  rsf_tab : List Real
  xsqy : List Real
  sza : List Real
  alb : List Real
  press : List Real
  o3rat : List Real
  colo3 : List Real
  etfphot : List Real
  prs : List Real
deriving DecidableEq, Repr

/-- The rank `mpi_root`. -/
def mpi_root : Nat := 0

/-- The communicator as one rank sees it: its rank, and the buffers the root
rank hands to the broadcasts. -/
structure Comm where
  rank : Nat
  root_sends : Broadcasts

/-- The call `comm.broadcast(buf, count, mpi_root)`: the root keeps its
buffer, every other rank receives the first `count` entries of the root. -/
def Comm.broadcast {α : Type} (comm : Comm) (root_buf buf : List α) (count : Int) :
    List α :=
  if comm.rank = mpi_root then buf
  else root_buf.take count.toNat ++ buf.drop count.toNat

/-- The number of entries of a freshly allocated view with the given
extents. -/
def view_size (extents : List Int) : Nat := (extents.map Int.toNat).prod

/-- A freshly allocated (zero-initialised) Kokkos view. -/
def new_view {α : Type} [Zero α] (extents : List Int) : List α :=
  List.replicate (view_size extents) 0

/-- Unchecked element access `view(i)` with an `int` index. -/
def view_at (view : List Real) (i : Int) : Real :=
  if 0 ≤ i then view.getD i.toNat 0 else 0

/-- The first block of `read_photo_table`: the root opens the two files,
reads the seven dimensions and broadcasts them, the other ranks receive them.
`fs` maps a path to the file `nc_open` finds there. -/
def read_dim_data (comm : Comm) (fs : String → Option NcFile)
    (rsf_file xs_long_file : String) (dim_data_uninit : Fin 7 → Int) :
    Except String (Option (NcFile × NcFile) × TableDims × List Int) :=
  if comm.rank = mpi_root then
    match fs rsf_file with
    | none => .error ("Error! Couldn't open rsf_file " ++ rsf_file)
    | some rsf =>
      match fs xs_long_file with
      | none => .error ("Error! Couldn't open xs_long_file " ++ xs_long_file)
      | some xs_long => do
        let nump ← nc_dimension rsf_file rsf "numz"
        let numsza ← nc_dimension rsf_file rsf "numsza"
        let numalb ← nc_dimension rsf_file rsf "numalb"
        let numcolo3 ← nc_dimension rsf_file rsf "numcolo3fact"
        let nt ← nc_dimension xs_long_file xs_long "numtemp"
        let nw ← nc_dimension xs_long_file xs_long "numwl"
        let np_xs ← nc_dimension xs_long_file xs_long "numprs"
        let d : TableDims :=
          { nw := nw, nump := nump, numsza := numsza, numcolo3 := numcolo3,
            numalb := numalb, nt := nt, np_xs := np_xs }
        let dim_data := comm.broadcast comm.root_sends.dim_data (pack_dim_data d) 7
        pure (some (rsf, xs_long), d, dim_data)
  else
    let dim_data :=
      comm.broadcast comm.root_sends.dim_data (List.ofFn dim_data_uninit) 7
    pure (none, unpack_dim_data dim_data, dim_data)

/-- The inner loop of the computation of `numj`, over the indices `mms`. -/
def numj_inner (lng_indexer : List Int) (m : Nat) : List Nat → Int → Int
  | [], numj => numj
  | mm :: mms, numj =>
    if lng_indexer.getD mm 0 = lng_indexer.getD m 0 then numj
    else numj_inner lng_indexer m mms (numj + 1)

/-- The outer loop of the computation of `numj`, over the indices `ms`. -/
def numj_outer (lng_indexer : List Int) : List Nat → Int → Int
  | [], numj => numj
  | m :: ms, numj =>
    if lng_indexer.getD m 0 > 0 then
      numj_outer lng_indexer ms (numj_inner lng_indexer m (List.range m) numj)
    else numj_outer lng_indexer ms numj

/-- The size `numj` of the foremost dimension of `xsqy`. -/
def compute_numj (phtcnt : Nat) (lng_indexer : List Int) : Int :=
  numj_outer lng_indexer (List.range phtcnt) 0

/-- The loop that reads the `xsqy` data on the root, over the indices `ms`,
with the running row `ndx`; `row` is the number of entries of one row
`ekat::subview(xsqy_h, ndx)`. -/
def read_xsqy_loop (xs_long_file : String) (xs_long : NcFile) (lng_indexer : List Int)
    (row : Nat) : List Nat → Nat → List Real → Except String (List Real)
  | [], _, xsqy_h => .ok xsqy_h
  | m :: ms, ndx, xsqy_h =>
    if lng_indexer.getD m 0 > 0 then
      match read_nc_var_id xs_long_file xs_long (lng_indexer.getD m 0) xsqy_h
          (ndx * row) with
      | .error e => .error e
      | .ok xsqy_h1 =>
        read_xsqy_loop xs_long_file xs_long lng_indexer row ms (ndx + 1) xsqy_h1
    else read_xsqy_loop xs_long_file xs_long lng_indexer row ms ndx xsqy_h

/-- The wavelength-bin edges `we_h` built from `wc_h` and `wlintv_h`. -/
def compute_we (nw : Int) (wc_h wlintv_h : List Real) : List Real :=
  let we0 : List Real := new_view [nw + 1]
  let we1 := (List.range nw.toNat).foldl
    (fun we i => we.set i (wc_h.getD i 0 - (1 / 2) * wlintv_h.getD i 0)) we0
  we1.set nw.toNat (view_at wc_h (nw - 1) - (1 / 2) * view_at wlintv_h (nw - 1))

/-- The host mirror views of the table data. -/
structure HostViews where
  rsf_tab_h : List Real
  xsqy_h : List Real
  sza_h : List Real
  alb_h : List Real
  press_h : List Real
  colo3_h : List Real
  o3rat_h : List Real
  etfphot_h : List Real
  prs_h : List Real
deriving DecidableEq, Repr

/-- The allocation of the host mirror views; the extents are those
`mam4::mo_photo::create_photo_table_data` gives the table views, which are
the entry counts of the broadcasts in `read_photo_table`. -/
def create_mirror_views (d : TableDims) (numj : Int) : HostViews :=
  { rsf_tab_h := new_view [d.nw, d.nump, d.numsza, d.numcolo3, d.numalb]
    xsqy_h := new_view [numj, d.nw, d.nt, d.np_xs]
    sza_h := new_view [d.numsza]
    alb_h := new_view [d.numalb]
    press_h := new_view [d.nump]
    colo3_h := new_view [d.nump]
    o3rat_h := new_view [d.numcolo3]
    etfphot_h := new_view [d.nw]
    prs_h := new_view [d.np_xs] }

/-- The block of `read_photo_table` in which the root reads the file data
into the host views. -/
def read_file_data (phtcnt : Nat) (rsf_file xs_long_file : String)
    (rsf xs_long : NcFile) (d : TableDims) (lng_indexer_h : List Int)
    (h : HostViews) : Except String HostViews := do
  let press_h ← read_nc_var rsf_file rsf "pm" h.press_h
  let sza_h ← read_nc_var rsf_file rsf "sza" h.sza_h
  let alb_h ← read_nc_var rsf_file rsf "alb" h.alb_h
  let o3rat_h ← read_nc_var rsf_file rsf "colo3fact" h.o3rat_h
  let colo3_h ← read_nc_var rsf_file rsf "colo3" h.colo3_h
  let rsf_tab_h ← read_nc_var rsf_file rsf "RSF" h.rsf_tab_h
  let prs_h ← read_nc_var xs_long_file xs_long "pressure" h.prs_h
  -- read xsqy data (using lng_indexer_h for the first index)
  let xsqy_h ← read_xsqy_loop xs_long_file xs_long lng_indexer_h
    (view_size [d.nw, d.nt, d.np_xs]) (List.range phtcnt) 0 h.xsqy_h
  -- populate etfphot by rebinning solar data
  let wc_h ← read_nc_var rsf_file rsf "wc" (new_view [d.nw])
  let wlintv_h ← read_nc_var rsf_file rsf "wlintv" (new_view [d.nw])
  let we_h := compute_we d.nw wc_h wlintv_h
  let etfphot_h := populate_etfphot we_h h.etfphot_h
  pure { rsf_tab_h := rsf_tab_h, xsqy_h := xsqy_h, sza_h := sza_h, alb_h := alb_h,
         press_h := press_h, colo3_h := colo3_h, o3rat_h := o3rat_h,
         etfphot_h := etfphot_h, prs_h := prs_h }

/-- The nine broadcasts of the host views from the root to the others. -/
def broadcast_host_views (comm : Comm) (d : TableDims) (numj : Int) (h : HostViews) :
    HostViews :=
  { rsf_tab_h := comm.broadcast comm.root_sends.rsf_tab h.rsf_tab_h
      (d.nw * d.numalb * d.numcolo3 * d.numsza * d.nump)
    xsqy_h := comm.broadcast comm.root_sends.xsqy h.xsqy_h (numj * d.nw * d.nt * d.np_xs)
    sza_h := comm.broadcast comm.root_sends.sza h.sza_h d.numsza
    alb_h := comm.broadcast comm.root_sends.alb h.alb_h d.numalb
    press_h := comm.broadcast comm.root_sends.press h.press_h d.nump
    o3rat_h := comm.broadcast comm.root_sends.o3rat h.o3rat_h d.numcolo3
    colo3_h := comm.broadcast comm.root_sends.colo3 h.colo3_h d.nump
    etfphot_h := comm.broadcast comm.root_sends.etfphot h.etfphot_h d.nw
    prs_h := comm.broadcast comm.root_sends.prs h.prs_h d.np_xs }

/-- The last block of `read_photo_table`: the host views are copied into the
table and the five inverse-spacing arrays are computed. -/
def fill_table (d : TableDims) (numj : Int) (h : HostViews)
    (pht_alias_mult_1_h : List Real) (lng_indexer_h : List Int) : PhotoTableData :=
  { nw := d.nw, nt := d.nt, np_xs := d.np_xs, numj := numj, nump := d.nump,
    numsza := d.numsza, numcolo3 := d.numcolo3, numalb := d.numalb
    rsf_tab := h.rsf_tab_h
    xsqy := h.xsqy_h
    sza := h.sza_h
    alb := h.alb_h
    press := h.press_h
    colo3 := h.colo3_h
    o3rat := h.o3rat_h
    etfphot := h.etfphot_h
    prs := h.prs_h
    pht_alias_mult_1 := pht_alias_mult_1_h
    lng_indexer := lng_indexer_h
    del_p := (List.range (d.nump - 1).toNat).map
      (fun i => 1 / |h.press_h.getD i 0 - h.press_h.getD (i + 1) 0|)
    del_sza := (List.range (d.numsza - 1).toNat).map
      (fun i => 1 / (h.sza_h.getD (i + 1) 0 - h.sza_h.getD i 0))
    del_alb := (List.range (d.numalb - 1).toNat).map
      (fun i => 1 / (h.alb_h.getD (i + 1) 0 - h.alb_h.getD i 0))
    del_o3rat := (List.range (d.numcolo3 - 1).toNat).map
      (fun i => 1 / (h.o3rat_h.getD (i + 1) 0 - h.o3rat_h.getD i 0))
    dprs := (List.range (d.np_xs - 1).toNat).map
      (fun i => 1 / (h.prs_h.getD i 0 - h.prs_h.getD (i + 1) 0)) }

/-- The function `read_photo_table(comm, rsf_file, xs_long_file)` as one rank
runs it. Besides the table it returns the buffers this rank handed to the
broadcasts. -/
def read_photo_table (phtcnt : Nat) (comm : Comm) (fs : String → Option NcFile)
    (rsf_file xs_long_file : String) (dim_data_uninit : Fin 7 → Int) :
    Except String (PhotoTableData × Broadcasts) := do
  let (files, d, dim_data) ← read_dim_data comm fs rsf_file xs_long_file dim_data_uninit
  -- set up the lng_indexer and pht_alias_mult_1 views
  let lng0 : List Int := new_view [(phtcnt : Int)]
  let pht0 : List Real := new_view [2]
  -- if (comm.rank() == mpi_root): the ranks that hold the file handles
  let (lng1, pht1) ←
    match files with
    | some (_, xs_long) =>
      set_lng_indexer_and_pht_alias_mult_1 phtcnt xs_long_file xs_long lng0 pht0
    | none => pure (lng0, pht0)
  let lng_indexer_h := comm.broadcast comm.root_sends.lng_indexer lng1 (phtcnt : Int)
  let pht_alias_mult_1_h := comm.broadcast comm.root_sends.pht_alias_mult_1 pht1 2
  -- compute the size of the foremost dimension of xsqy using lng_indexer
  let numj := compute_numj phtcnt lng_indexer_h
  -- allocate the photolysis table and host views for table data
  let h0 := create_mirror_views d numj
  -- if (comm.rank() == mpi_root)
  let h1 ←
    match files with
    | some (rsf, xs_long) =>
      read_file_data phtcnt rsf_file xs_long_file rsf xs_long d lng_indexer_h h0
    | none => pure h0
  -- broadcast host views from MPI root to others
  let h2 := broadcast_host_views comm d numj h1
  pure (fill_table d numj h2 pht_alias_mult_1_h lng_indexer_h,
    { dim_data := dim_data, lng_indexer := lng1, pht_alias_mult_1 := pht1,
      rsf_tab := h1.rsf_tab_h, xsqy := h1.xsqy_h, sza := h1.sza_h, alb := h1.alb_h,
      press := h1.press_h, o3rat := h1.o3rat_h, colo3 := h1.colo3_h,
      etfphot := h1.etfphot_h, prs := h1.prs_h })

/-! ## Column data seen by the level kernel -/

/-- The result of `mam_coupling::atmosphere_for_column(dry_atm_, icol)`. -/
structure Atmosphere where
  temperature : Nat → Real
  pressure : Nat → Real
  hydrostatic_dp : Nat → Real
  height : Nat → Real
  vapor_mixing_ratio : Nat → Real
  cloud_fraction : Nat → Real
  planetary_boundary_layer_height : Real

/-- The four per-mode outputs of `impl::compute_water_content`. -/
structure WaterContent where
  dgncur_a : List Real
  dgncur_awet : List Real
  wetdens : List Real
  qaerwat : List Real

/-- The eight LINOZ climatology scratch views, read at `(icol, k)`. -/
structure LinozClimatology where
  linoz_o3_clim : Nat → Nat → Real
  linoz_o3col_clim : Nat → Nat → Real
  linoz_t_clim : Nat → Nat → Real
  linoz_PmL_clim : Nat → Nat → Real
  linoz_dPmL_dO3 : Nat → Nat → Real
  linoz_dPmL_dT : Nat → Nat → Real
  linoz_dPmL_dO3col : Nat → Nat → Real
  linoz_cariolle_psc : Nat → Nat → Real

/-- The fields and buffers bound in `initialize_impl`: the dry atmosphere
and dry aerosol state by column (`dry_atm_`, `dry_aero_`), and the wet state
that only the pre- and postprocessing functors touch. -/
structure Fields (Progs Wet : Type) where
  /-- `mam_coupling::atmosphere_for_column(dry_atm_, icol)` -/
  atmosphere_for_column : Nat → Atmosphere
  /-- `dry_atm_.z_iface(icol, k)` -/
  z_iface : Nat → Nat → Real
  /-- `dry_atm_.z_surf` -/
  z_surf : Real
  /-- `dry_atm_.phis(icol)` -/
  phis : Nat → Real
  /-- `mam_coupling::interstitial_aerosols_for_column(dry_aero_, icol)` -/
  interstitial_aerosols_for_column : Nat → Progs
  wet : Wet

/-- Values the level kernel reads although the source never sets them:
the local `int o3_ndx`, and the elements of the default-constructed views
`lwc` and `extfrc`. -/
structure Indeterminate where
  /-- the value of `o3_ndx` in the evaluation of level `k` of column `icol` -/
  o3_ndx : Nat → Nat → Int
  /-- what `lwc(k)` yields in column `icol` -/
  lwc : Nat → Nat → Real
  /-- what `extfrc(k, i)` yields in column `icol`, after `extfrc_set` -/
  extfrc : Nat → Nat → Nat → Real

/-- The record of the kernels a level evaluation calls, in call order. -/
inductive Call
  | transfer_prognostics_to_work_arrays
  | convert_work_arrays_to_vmr
  | gas_phase_chemistry
  | setsox_single_level
  | compute_water_content
  | modal_aero_amicphys_intr
  | lin_strat_chem_solve_kk
  | lin_strat_sfcsink_kk
  | convert_work_arrays_to_mmr
  | transfer_work_arrays_to_prognostics
deriving DecidableEq, Repr

/-- The library kernels and constants used by `run_impl`. `Progs` is
`mam4::Prognostics` for one column, `n` is `gas_pcnst`. In-out arguments are
returned; pure outputs that the caller discards (tendencies, diagnostics) are
left out. -/
structure Externals (Progs SetsoxCfg Wet : Type) (n : Nat) where
  /-- `mam4::mo_photo::phtcnt` -/
  phtcnt : Nat
  /-- `mam4::gas_chemistry::extcnt` -/
  extcnt : Nat
  /-- `haero::Constants::molec_weight_dry_air` -/
  molec_weight_dry_air : Real
  /-- `M_PI` -/
  M_PI : Real
  /-- The functor `preprocess_` (wet to dry conversion, heights) -/
  preprocess : Fields Progs Wet → Fields Progs Wet
  /-- The functor `postprocess_` (dry to wet conversion) -/
  postprocess : Fields Progs Wet → Fields Progs Wet
  /-- `impl::compute_o3_column_density(team, atm, progs, o3_col_dens_i)` -/
  compute_o3_column_density : Atmosphere → Progs → (Nat → Real)
  /-- `mam4::mo_photo::table_photo`, filling `photo_rates(k, i)`; the
  arguments are pressure, hydrostatic_dp, temperature, o3_col_dens_i,
  zenith_angle, surf_albedo, lwc, cloud_fraction, esfact, photo_table_. -/
  table_photo : (Nat → Real) → (Nat → Real) → (Nat → Real) → (Nat → Real) →
    Real → Real → (Nat → Real) → (Nat → Real) → Real → PhotoTableData →
    (Nat → Nat → Real)
  /-- `mam_coupling::transfer_prognostics_to_work_arrays(progs, k, q, qqcw)` -/
  transfer_prognostics_to_work_arrays :
    Progs → Nat → WorkArray n → WorkArray n → WorkArray n × WorkArray n
  /-- `mam_coupling::convert_work_arrays_to_vmr(q, qqcw, vmr, vmrcw)` -/
  convert_work_arrays_to_vmr : WorkArray n → WorkArray n → WorkArray n × WorkArray n
  /-- `impl::gas_phase_chemistry(zm, zi, phis, temp, pmid, pdel, dt,
  photo_rates_k, extfrc_k, vmr, invariants)`: new `vmr` and `invariants`. -/
  gas_phase_chemistry : Real → Real → Real → Real → Real → Real → Real →
    List Real → List Real → WorkArray n → WorkArray n × (Nat → Real)
  /-- `setsox_single_level(loffset, dt, pmid, pdel, temp, mbar, lwc, cldfrac,
  cldnum, xhnm, config, vmrcw, vmr)`: new `(vmrcw, vmr)`. -/
  setsox_single_level : Int → Real → Real → Real → Real → Real → Real → Real →
    Real → Real → SetsoxCfg → WorkArray n → WorkArray n → WorkArray n × WorkArray n
  /-- `impl::compute_water_content(progs, k, qv, temp, pmid, ...)` -/
  compute_water_content : Progs → Nat → Real → Real → Real → WaterContent
  /-- `impl::modal_aero_amicphys_intr(config, step, dt, t, pmid, pdel, zm,
  pblh, qv, cldfrac, vmr, vmrcw, vmr_pregaschem, vmr_precldchem,
  vmrcw_precldchem, ..., dgncur_a, dgncur_awet, wetdens, qaerwat)`: new
  `(vmr, vmrcw)`. -/
  modal_aero_amicphys_intr : AmicPhysConfig → Int → Real → Real → Real → Real →
    Real → Real → Real → Real → WorkArray n → WorkArray n → WorkArray n →
    WorkArray n → WorkArray n → WaterContent → WorkArray n × WorkArray n
  /-- `mam4::lin_strat_chem::lin_strat_chem_solve_kk`: the new value of the
  in-out ozone argument, from (o3_col_dens, temp, zenith_angle, pmid, dt,
  rlats), the eight climatology values at `(icol, k)`, chlorine_loading,
  psc_T and the old ozone value. -/
  lin_strat_chem_solve_kk : Real → Real → Real → Real → Real → Real →
    Real → Real → Real → Real → Real → Real → Real → Real →
    Real → Real → Real → Real
  /-- `mam4::lin_strat_chem::lin_strat_sfcsink_kk(dt, pdel, o3, o3_sfc,
  o3_tau, do3_mass)`: the new value of the in-out ozone argument. -/
  lin_strat_sfcsink_kk : Real → Real → Real → Real → Real → Real
  /-- `mam_coupling::convert_work_arrays_to_mmr(vmr, vmrcw, q, qqcw)` -/
  convert_work_arrays_to_mmr : WorkArray n → WorkArray n → WorkArray n × WorkArray n
  /-- `mam_coupling::transfer_work_arrays_to_prognostics(q, qqcw, progs, k)` -/
  transfer_work_arrays_to_prognostics : WorkArray n → WorkArray n → Progs → Nat → Progs

/-- The effect on `a` of passing `a[i]` by reference to a callee that maps
its old value to `f` of it. An index outside the array is left to the
bounds obligations; the array is then unchanged. -/
def update_ref {n : Nat} (a : WorkArray n) (i : Int) (f : Real → Real) : WorkArray n :=
  fun j => if (j : Int) = i then f (a j) else a j

/-! ## Values of the type `double`

Comparisons follow IEEE 754: a NaN compares false with everything. The
arithmetic operations return the exact result rounded to the binary64 format
(to nearest, ties to even), with subnormals and overflow to an infinity. -/

/-- A value of the C++ type `double`: a NaN, an infinity, or a number. The
two zeros, which compare equal, are both `finite 0`; the numbers a double
can hold are those that `round_to_double` leaves as they are. -/
inductive Double
  | nan
  | neg_inf
  | finite (x : ℚ)
  | pos_inf
deriving DecidableEq

/-- The operator `<` on `double`: false as soon as an operand is a NaN. -/
def Double.lt : Double → Double → Bool
  | .nan, _ => false
  | _, .nan => false
  | _, .neg_inf => false
  | .neg_inf, _ => true
  | .pos_inf, _ => false
  | .finite _, .pos_inf => true
  | .finite x, .finite y => decide (x < y)

/-- The operator `<=` on `double`: false as soon as an operand is a NaN. -/
def Double.le : Double → Double → Bool
  | .nan, _ => false
  | _, .nan => false
  | .neg_inf, _ => true
  | _, .pos_inf => true
  | .pos_inf, _ => false
  | .finite _, .neg_inf => false
  | .finite x, .finite y => decide (x ≤ y)

instance : LT Double := ⟨fun a b => Double.lt a b = true⟩

instance : LE Double := ⟨fun a b => Double.le a b = true⟩

instance : Zero Double := ⟨Double.finite 0⟩

instance (a b : Double) : Decidable (a < b) :=
  if h : Double.lt a b = true then isTrue h else isFalse h

instance (a b : Double) : Decidable (a ≤ b) :=
  if h : Double.le a b = true then isTrue h else isFalse h

/-- The integer nearest to `q`, the even one of the two when `q` lies half
way between them. -/
def round_half_even (q : ℚ) : Int :=
  if q - ⌊q⌋ < 1 / 2 then ⌊q⌋
  else if 1 / 2 < q - ⌊q⌋ then ⌊q⌋ + 1
  else if ⌊q⌋ % 2 = 0 then ⌊q⌋
  else ⌊q⌋ + 1

/-- The exponent of the binade of `x` in the binary64 format:
`2^e ≤ |x| < 2^(e+1)`, and `-1022` in the subnormal range. -/
def double_exponent (x : ℚ) : Int := max (Int.log 2 |x|) (-1022)

/-- The multiple of the spacing `2^(e-52)` of the doubles in the binade of `x`
that is nearest to `x`, the even one of two that are equally near. -/
def round_to_grid (x : ℚ) : ℚ :=
  (round_half_even (x / 2 ^ (double_exponent x - 52)) : ℚ) * 2 ^ (double_exponent x - 52)

/-- The result of an operation on `double` whose exact value is `x`, in the
default rounding mode of IEEE 754 (to nearest, ties to even): the multiple of
`2^(e-52)` nearest to `x`, an infinity from `2^1024` on. -/
def round_to_double (x : ℚ) : Double :=
  let r : ℚ := round_to_grid x
  if 2 ^ (1024 : Int) ≤ r then Double.pos_inf
  else if r ≤ -2 ^ (1024 : Int) then Double.neg_inf
  else Double.finite r

/-- The operator `+` on `double`. -/
def Double.add : Double → Double → Double
  | .nan, _ => .nan
  | _, .nan => .nan
  | .pos_inf, .neg_inf => .nan
  | .neg_inf, .pos_inf => .nan
  | .pos_inf, _ => .pos_inf
  | _, .pos_inf => .pos_inf
  | .neg_inf, _ => .neg_inf
  | _, .neg_inf => .neg_inf
  | .finite x, .finite y => round_to_double (x + y)

/-- The unary operator `-` on `double`. -/
def Double.neg : Double → Double
  | .nan => .nan
  | .pos_inf => .neg_inf
  | .neg_inf => .pos_inf
  | .finite x => .finite (-x)

/-- The operator `-` on `double`. -/
def Double.sub (a b : Double) : Double := Double.add a (Double.neg b)

/-- The product of an infinity of sign `s` (true: positive) and the number
`x`: a NaN for zero, an infinity otherwise. -/
def Double.mul_inf (s : Bool) (x : ℚ) : Double :=
  if x = 0 then .nan
  else if decide (0 < x) = s then .pos_inf
  else .neg_inf

/-- The operator `*` on `double`. -/
def Double.mul : Double → Double → Double
  | .nan, _ => .nan
  | _, .nan => .nan
  | .finite x, .finite y => round_to_double (x * y)
  | .finite x, .pos_inf => Double.mul_inf true x
  | .finite x, .neg_inf => Double.mul_inf false x
  | .pos_inf, .finite y => Double.mul_inf true y
  | .neg_inf, .finite y => Double.mul_inf false y
  | .pos_inf, .pos_inf => .pos_inf
  | .neg_inf, .neg_inf => .pos_inf
  | .pos_inf, .neg_inf => .neg_inf
  | .neg_inf, .pos_inf => .neg_inf

instance : Add Double := ⟨Double.add⟩

instance : Sub Double := ⟨Double.sub⟩

instance : Mul Double := ⟨Double.mul⟩

/-- A decimal literal of type `double`: the literal's value, rounded. -/
instance : OfScientific Double :=
  ⟨fun m s e => round_to_double (OfScientific.ofScientific m s e)⟩

/-! ## The level kernel -/

/-- The loop `for (i = 0; i < gas_pcnst; ++i) if (vmr[i] < 0.0) vmr[i] = 0.0;`,
on entries of type `α`: the exact numbers `Real` of the level kernel, or
`Double` with its NaN and infinities. -/
def reset_negative_values {n : Nat} {α : Type} [Zero α] [LT α]
    [∀ a b : α, Decidable (a < b)] (vmr : Fin n → α) : Fin n → α :=
  (List.finRange n).foldl
    (fun v i => if v i < 0 then Function.update v i 0 else v) vmr

/-- The guard `k > nlev_ - config_.linoz.o3_lbl - 1` of the surface sink. -/
def above_ozone_decay_threshold (nlev_ o3_lbl : Int) (k : Nat) : Bool :=
  decide ((k : Int) > nlev_ - o3_lbl - 1)

/-- A call of the kernel `c` that returns `x`: the value returned, and the
log of the calls made so far with `c` appended. The level lambda makes every
kernel call through `invoke`, so a kernel is logged where, and only where, it
is applied. -/
def invoke {α : Type} (log : List Call) (c : Call) (x : α) : α × List Call :=
  (x, log ++ [c])

/-- The kernels one evaluation of the level lambda calls, in order: the
straight-line calls, with the surface sink behind its guard. -/
def level_calls (nlev_ o3_lbl : Int) (k : Nat) : List Call :=
  [Call.transfer_prognostics_to_work_arrays, Call.convert_work_arrays_to_vmr,
   Call.gas_phase_chemistry, Call.setsox_single_level,
   Call.compute_water_content, Call.modal_aero_amicphys_intr,
   Call.lin_strat_chem_solve_kk]
  ++ (if above_ozone_decay_threshold nlev_ o3_lbl k then [Call.lin_strat_sfcsink_kk]
      else [])
  ++ [Call.convert_work_arrays_to_mmr, Call.transfer_work_arrays_to_prognostics]

/-- What one evaluation of the level lambda of `run_impl` leaves behind. -/
structure LevelResult (Progs : Type) (n : Nat) where
  /-- the column prognostics after `transfer_work_arrays_to_prognostics` -/
  progs : Progs
  /-- `vmr` as passed to `convert_work_arrays_to_mmr` -/
  vmr : WorkArray n
  /-- `vmrcw` as passed to `convert_work_arrays_to_mmr` -/
  vmrcw : WorkArray n
  /-- `vmr` right after `convert_work_arrays_to_vmr` -/
  vmr_initial : WorkArray n
  /-- `vmrcw` right after `convert_work_arrays_to_vmr` -/
  vmrcw_initial : WorkArray n
  /-- `vmr` right after `lin_strat_chem_solve_kk`, before the guarded call of
  `lin_strat_sfcsink_kk` -/
  vmr_before_sink : WorkArray n
  /-- `vmr` right before the negative-value check -/
  vmr_before_check : WorkArray n
  /-- `vmrcw` right before the negative-value check -/
  vmrcw_before_check : WorkArray n
  /-- the three snapshots handed to `modal_aero_amicphys_intr` -/
  vmr_pregaschem : WorkArray n
  vmr_precldchem : WorkArray n
  vmrcw_precldchem : WorkArray n
  /-- the kernels called, in order -/
  calls : List Call

/-- The data the column lambda of `run_impl` sets up before it dispatches to
the vertical levels. -/
structure ColumnData where
  icol : Nat
  col_lat : Real
  atm : Atmosphere
  z_iface : Nat → Real
  phis : Real
  o3_col_dens_i : Nat → Real
  zenith_angle : Real
  lwc : Nat → Real
  photo_rates : Nat → Nat → Real
  extfrc : Nat → Nat → Real

section kernel

variable {Progs SetsoxCfg Wet : Type} {n : Nat}

/-- The level lambda of `run_impl`
(`Kokkos::parallel_for(Kokkos::TeamThreadRange(team, nlev_), [&](const int k)`). -/
def level_kernel (ext : Externals Progs SetsoxCfg Wet n) (config_ : Config SetsoxCfg)
    (step_ nlev_ : Int) (dt t : Real) (o3_ndx : Int) (clim : LinozClimatology)
    (col : ColumnData) (progs : Progs) (k : Nat) : LevelResult Progs n :=
  -- extract atm state variables (input)
  let temp := col.atm.temperature k
  let pmid := col.atm.pressure k
  let pdel := col.atm.hydrostatic_dp k
  let zm := col.atm.height k
  let zi := col.z_iface k
  let pblh := col.atm.planetary_boundary_layer_height
  let qv := col.atm.vapor_mixing_ratio k
  let cldfrac := col.atm.cloud_fraction k
  -- extract aerosol state variables into "working arrays"
  let q0 : WorkArray n := fun _ => 0
  let qqcw0 : WorkArray n := fun _ => 0
  let qs := invoke [] Call.transfer_prognostics_to_work_arrays
    (ext.transfer_prognostics_to_work_arrays progs k q0 qqcw0)
  -- convert mass mixing ratios to volume mixing ratios
  let vs := invoke qs.2 Call.convert_work_arrays_to_vmr
    (ext.convert_work_arrays_to_vmr qs.1.1 qs.1.2)
  let vmr0 := vs.1.1
  let vmrcw0 := vs.1.2
  -- create work array copies to retain "pre-chemistry" values
  let vmr_pregaschem : WorkArray n := fun i => vmr0 i
  let vmr_precldchem : WorkArray n := fun i => vmr0 i
  let vmrcw_precldchem : WorkArray n := fun i => vmrcw0 i
  -- gas phase chemistry
  let photo_rates_k := (List.range ext.phtcnt).map (fun i => col.photo_rates k i)
  let extfrc_k := (List.range ext.extcnt).map (fun i => col.extfrc k i)
  let gp := invoke vs.2 Call.gas_phase_chemistry
    (ext.gas_phase_chemistry zm zi col.phis temp pmid pdel dt
      photo_rates_k extfrc_k vmr0)
  let vmr1 := gp.1.1
  let invariants := gp.1.2
  -- aqueous chemistry
  let loffset : Int := 8
  let mbar := ext.molec_weight_dry_air
  let indexm : Nat := 0
  let cldnum : Real := 0
  let sx := invoke gp.2 Call.setsox_single_level
    (ext.setsox_single_level loffset dt pmid pdel temp mbar (col.lwc k)
      cldfrac cldnum (invariants indexm) config_.setsox vmrcw0 vmr1)
  let vmrcw2 := sx.1.1
  let vmr2 := sx.1.2
  -- aerosol water content
  let wc := invoke sx.2 Call.compute_water_content
    (ext.compute_water_content progs k qv temp pmid)
  -- aerosol microphysics
  let am := invoke wc.2 Call.modal_aero_amicphys_intr
    (ext.modal_aero_amicphys_intr config_.amicphys step_ dt t pmid pdel
      zm pblh qv cldfrac vmr2 vmrcw2 vmr_pregaschem vmr_precldchem
      vmrcw_precldchem wc.1)
  let vmr3 := am.1.1
  let vmrcw3 := am.1.2
  -- LINOZ chemistry
  let chlorine_loading : Real := 0
  let rlats := col.col_lat * ext.M_PI / 180
  let solve := invoke am.2 Call.lin_strat_chem_solve_kk
    (update_ref vmr3 o3_ndx
      (ext.lin_strat_chem_solve_kk (col.o3_col_dens_i k) temp col.zenith_angle
        pmid dt rlats
        (clim.linoz_o3_clim col.icol k) (clim.linoz_t_clim col.icol k)
        (clim.linoz_o3col_clim col.icol k) (clim.linoz_PmL_clim col.icol k)
        (clim.linoz_dPmL_dO3 col.icol k) (clim.linoz_dPmL_dT col.icol k)
        (clim.linoz_dPmL_dO3col col.icol k) (clim.linoz_cariolle_psc col.icol k)
        chlorine_loading config_.linoz.psc_T))
  let vmr4 := solve.1
  -- update source terms above the ozone decay threshold
  let sfcsink :=
    if above_ozone_decay_threshold nlev_ config_.linoz.o3_lbl k then
      invoke solve.2 Call.lin_strat_sfcsink_kk
        (update_ref vmr4 o3_ndx
          (fun o3 => ext.lin_strat_sfcsink_kk dt pdel o3 config_.linoz.o3_sfc
            config_.linoz.o3_tau))
    else (vmr4, solve.2)
  let vmr5 := sfcsink.1
  -- check for negative values and reset to zero
  let vmr6 := reset_negative_values vmr5
  -- transfer updated prognostics from work arrays
  let qs' := invoke sfcsink.2 Call.convert_work_arrays_to_mmr
    (ext.convert_work_arrays_to_mmr vmr6 vmrcw3)
  let progs' := invoke qs'.2 Call.transfer_work_arrays_to_prognostics
    (ext.transfer_work_arrays_to_prognostics qs'.1.1 qs'.1.2 progs k)
  { progs := progs'.1
    vmr := vmr6
    vmrcw := vmrcw3
    vmr_initial := vmr0
    vmrcw_initial := vmrcw0
    vmr_before_sink := vmr4
    vmr_before_check := vmr5
    vmrcw_before_check := vmrcw3
    vmr_pregaschem := vmr_pregaschem
    vmr_precldchem := vmr_precldchem
    vmrcw_precldchem := vmrcw_precldchem
    calls := progs'.2 }

/-- The state of a `MAMMicrophysics` object that `initialize_impl` and
`run_impl` read or write. -/
structure MAMMicrophysics (Progs SetsoxCfg Wet : Type) where
  config_ : Config SetsoxCfg
  ncol_ : Int
  nlev_ : Int
  step_ : Int
  col_latitudes_ : Nat → Real
  fields : Fields Progs Wet
  /-- `buffer_.scratch[0..7]` -/
  scratch : LinozClimatology
  photo_table_ : PhotoTableData

/-- The method `MAMMicrophysics::initialize_impl(run_type)`; `bound` are the
field views and buffers it binds. -/
def initialize_impl (ext : Externals Progs SetsoxCfg Wet n)
    (self : MAMMicrophysics Progs SetsoxCfg Wet) (comm : Comm)
    (fs : String → Option NcFile) (dim_data_uninit : Fin 7 → Int)
    (bound : Fields Progs Wet) : Except String (MAMMicrophysics Progs SetsoxCfg Wet) :=
  match read_photo_table ext.phtcnt comm fs self.config_.photolysis.rsf_file
      self.config_.photolysis.xs_long_file dim_data_uninit with
  | .error e => .error e
  | .ok (table, _) =>
    .ok { self with step_ := 0, fields := bound, photo_table_ := table }

/-- What the column lambda of `run_impl` leaves behind: the prognostics of
the column and the kernels called, by level. -/
structure ColumnResult (Progs : Type) where
  progs : Progs
  calls : List (Nat × Call)

/-- The data the column lambda of `run_impl` sets up for column `icol` of the
preprocessed fields `f`, before the loop over the vertical levels. -/
def column_data (ext : Externals Progs SetsoxCfg Wet n)
    (self : MAMMicrophysics Progs SetsoxCfg Wet) (f : Fields Progs Wet)
    (ind : Indeterminate) (icol : Nat) : ColumnData :=
  let col_lat := self.col_latitudes_ icol
  let atm := f.atmosphere_for_column icol
  let progs := f.interstitial_aerosols_for_column icol
  let o3_col_dens_i := ext.compute_o3_column_density atm progs
  let zenith_angle : Real := 0
  let surf_albedo : Real := 0
  let esfact : Real := 0
  let lwc := ind.lwc icol
  let photo_rates := ext.table_photo atm.pressure atm.hydrostatic_dp atm.temperature
    o3_col_dens_i zenith_angle surf_albedo lwc atm.cloud_fraction esfact
    self.photo_table_
  { icol := icol, col_lat := col_lat, atm := atm, z_iface := f.z_iface icol,
    phis := f.phis icol, o3_col_dens_i := o3_col_dens_i,
    zenith_angle := zenith_angle, lwc := lwc, photo_rates := photo_rates,
    extfrc := ind.extfrc icol }

/-- The column lambda of `run_impl`
(`Kokkos::parallel_for(policy, KOKKOS_LAMBDA(const ThreadTeam& team)`), on
the preprocessed fields `f`. -/
def column_kernel (ext : Externals Progs SetsoxCfg Wet n)
    (self : MAMMicrophysics Progs SetsoxCfg Wet) (f : Fields Progs Wet)
    (dt t : Real) (ind : Indeterminate) (icol : Nat) : ColumnResult Progs :=
  let progs := f.interstitial_aerosols_for_column icol
  let col : ColumnData := column_data ext self f ind icol
  (List.range self.nlev_.toNat).foldl
    (fun (acc : ColumnResult Progs) k =>
      let r : LevelResult Progs n :=
        level_kernel ext self.config_ self.step_ self.nlev_ dt t (ind.o3_ndx icol k)
          self.scratch col acc.progs k
      { progs := r.progs, calls := acc.calls ++ r.calls.map (fun c => (k, c)) })
    { progs := progs, calls := [] }

/-- The evaluation of the level lambda at level `k` of column `icol` as
`run_impl(dt)` makes it, on the column prognostics `progs` the levels before
it have left. -/
def run_level (ext : Externals Progs SetsoxCfg Wet n)
    (self : MAMMicrophysics Progs SetsoxCfg Wet) (dt : Real) (ind : Indeterminate)
    (icol k : Nat) (progs : Progs) : LevelResult Progs n :=
  level_kernel ext self.config_ self.step_ self.nlev_ dt 0 (ind.o3_ndx icol k)
    self.scratch (column_data ext self (ext.preprocess self.fields) ind icol) progs k

/-- The method `MAMMicrophysics::run_impl(dt)`, with the kernels called by
column and level. -/
def run_impl_calls (ext : Externals Progs SetsoxCfg Wet n)
    (self : MAMMicrophysics Progs SetsoxCfg Wet) (dt : Real) (ind : Indeterminate) :
    MAMMicrophysics Progs SetsoxCfg Wet × List (Nat × Nat × Call) :=
  -- preprocess input
  let f := ext.preprocess self.fields
  let t : Real := 0
  -- loop over atmosphere columns and compute aerosol microphysics
  let f1 : Fields Progs Wet :=
    { f with
      interstitial_aerosols_for_column := fun icol =>
        if (icol : Int) < self.ncol_ then (column_kernel ext self f dt t ind icol).progs
        else f.interstitial_aerosols_for_column icol }
  let calls := (List.range self.ncol_.toNat).flatMap
    (fun icol => (column_kernel ext self f dt t ind icol).calls.map (fun c => (icol, c)))
  -- postprocess output
  ({ self with fields := ext.postprocess f1 }, calls)

/-- The method `MAMMicrophysics::run_impl(dt)`. -/
def run_impl (ext : Externals Progs SetsoxCfg Wet n)
    (self : MAMMicrophysics Progs SetsoxCfg Wet) (dt : Real) (ind : Indeterminate) :
    MAMMicrophysics Progs SetsoxCfg Wet :=
  (run_impl_calls ext self dt ind).1

/-- The object after the successive calls `run_impl(dt)` for the time steps
`dts`, the i-th call reading the indeterminate values `inds i`. -/
def run_steps (ext : Externals Progs SetsoxCfg Wet n) (inds : Nat → Indeterminate) :
    List Real → MAMMicrophysics Progs SetsoxCfg Wet → MAMMicrophysics Progs SetsoxCfg Wet
  | [], self => self
  | dt :: dts, self => run_steps ext (fun i => inds (i + 1)) dts (run_impl ext self dt (inds 0))

end kernel

/-! ## Row accesses of the `xsqy` read loop, and memory written by a column -/

/-- The rows `ndx` at which the loop that reads the `xsqy` data takes
`ekat::subview(xsqy_h, ndx)`, over the indices `ms` and from the running
row `ndx` on. -/
def xsqy_row_accesses (lng_indexer : List Int) : List Nat → Nat → List Nat
  | [], _ => []
  | m :: ms, ndx =>
    if lng_indexer.getD m 0 > 0 then ndx :: xsqy_row_accesses lng_indexer ms (ndx + 1)
    else xsqy_row_accesses lng_indexer ms ndx

/-- The reactions `m` for which the loop that reads the `xsqy` data calls
`read_nc_var`, over the indices `ms`. -/
def xsqy_reactions_read (lng_indexer : List Int) : List Nat → List Nat
  | [] => []
  | m :: ms =>
    if lng_indexer.getD m 0 > 0 then m :: xsqy_reactions_read lng_indexer ms
    else xsqy_reactions_read lng_indexer ms

/-- The number of distinct positive values among `lng_indexer(0..phtcnt-1)`:
the count the size `numj` is compared with. -/
def distinct_positive_count (phtcnt : Nat) (lng_indexer : List Int) : Int :=
  ((((List.range phtcnt).map (fun m => lng_indexer.getD m 0)).filter
    (fun v => decide (v > 0))).dedup.length : Nat)

/-- An element of a view that outlives the column lambda of `run_impl`. -/
inductive Cell
  /-- `photo_rates(k, i)` of the view `photo_rates("photo_rates", nlev_, phtcnt)`
  that `run_impl` allocates before the loop over the columns -/
  | photo_rates (k i : Nat)
  /-- `o3_col_dens(icol, k)` of `buffer_.scratch[8]` -/
  | o3_col_dens (icol k : Nat)
  /-- level `k` of the prognostics of column `icol` in `dry_aero_` -/
  | dry_aero (icol k : Nat)
deriving DecidableEq, Repr

/-- The cells the column lambda of `run_impl` writes for column `icol`:
`compute_o3_column_density` fills `o3_col_dens_i = subview(o3_col_dens, icol)`,
`table_photo` fills `photo_rates`, and each level writes its slice of the
prognostics of the column in `transfer_work_arrays_to_prognostics`. -/
def column_writes (nlev_ : Int) (phtcnt : Nat) (icol : Nat) : List Cell :=
  (List.range nlev_.toNat).map (fun k => Cell.o3_col_dens icol k)
  ++ (List.range nlev_.toNat).flatMap
      (fun k => (List.range phtcnt).map (fun i => Cell.photo_rates k i))
  ++ (List.range nlev_.toNat).map (fun k => Cell.dry_aero icol k)

/-! ## The SHOC main property test: grid construction and input checks

`TestShocMain::run_property` of
`components/scream/src/physics/shoc/tests/shoc_shoc_main_tests.cpp`, with the
constants `shcol`, `nlev` and `zi_grid` of the test as parameters. Arrays are
functions of the index; the prior content of an array is a parameter. -/

namespace shoc

/-- The loop `for (n = 0; n < nlev; ++n) zt_grid[n] = 0.5*(zi_grid[n]+zi_grid[n+1]);`,
on entries of type `α`: exact numbers, or the type `Double` of the test
(`Real` is `double` in the default build) with its rounding. -/
def compute_zt_grid {α : Type} [Add α] [Mul α] [OfScientific α] [Zero α] (nlev : Nat)
    (zi_grid : List α) (zt_grid : Nat → α) : Nat → α :=
  (List.range nlev).foldl
    (fun zt n => Function.update zt n (0.5 * (zi_grid.getD n 0 + zi_grid.getD (n + 1) 0)))
    zt_grid

/-- The loops that fill `SDS.zt_grid[n + s * nlev] = zt_grid[n]` for every
column `s` and level `n`. -/
def fill_zt_grid {α : Type} (shcol nlev : Nat) (zt_grid : Nat → α) (sds_zt_grid : Nat → α) :
    Nat → α :=
  (List.range shcol).foldl
    (fun sds s =>
      (List.range nlev).foldl
        (fun sds n => Function.update sds (n + s * nlev) (zt_grid n)) sds)
    sds_zt_grid

/-- The check `REQUIRE(SDS.zt_grid[offset + 1] - SDS.zt_grid[offset] < 0)` for
every column and every `n < nlev - 1`. -/
def check_zt_increases_upward {α : Type} [Sub α] [Zero α] [LT α]
    [∀ a b : α, Decidable (a < b)] (shcol nlev : Nat) (sds_zt_grid : Nat → α) : Bool :=
  (List.range shcol).all (fun s =>
    (List.range (nlev - 1)).all (fun n =>
      decide (sds_zt_grid (n + s * nlev + 1) - sds_zt_grid (n + s * nlev) < 0)))

/-- The check `REQUIRE(SDS.zt_grid[offset] > 0)` for every column and level. -/
def check_zt_positive {α : Type} [Zero α] [LT α] [∀ a b : α, Decidable (a < b)]
    (shcol nlev : Nat) (sds_zt_grid : Nat → α) : Bool :=
  (List.range shcol).all (fun s =>
    (List.range nlev).all (fun n => decide (sds_zt_grid (n + s * nlev) > 0)))

/-- The constant `zi_grid` of the test. -/
def zi_grid : List Real := [3000, 2000, 1500, 1000, 500, 0]

end shoc

/-! ## The column state adapter (`mam_coupling`)

The two transfer functions are defined in `mam_coupling.hpp`, which is not
among the sources at hand; `run_impl` only calls them. -/

namespace mam_coupling

/-- Modelled from the spec: the fields of the aerosol tracer state, which
`mam_coupling.hpp` declares: per-mode number mixing ratios, per-mode and
per-species mass mixing ratios of the interstitial aerosol, and per-gas mass
mixing ratios (the fields `initialize_impl` binds in its loops over
`num_aero_modes`, `num_aero_species` and `num_aero_gases`). -/
inductive TracerField
  | int_aero_nmr (mode : Nat)
  | int_aero_mmr (mode species : Nat)
  | gas_mmr (gas : Nat)
deriving DecidableEq, Repr

/-- Modelled from the spec: the tracer state of one column, a value per
field and level (the prognostics `mam_coupling.hpp` builds for a column). -/
abbrev TracerState := TracerField → Nat → Real

/-- Modelled from the spec: the fixed compile-time configuration by which
`mam_coupling.hpp` indexes the tracers: the number of aerosol modes, the
maximum number of species per mode, the number of gas species, which
(mode, species) slots are populated (have a non-empty name), and the fixed
offset of each field in the flat array of `n = gas_pcnst` slots. -/
structure TracerConfig (n : Nat) where
  num_aero_modes : Nat
  num_aero_species : Nat
  num_aero_gases : Nat
  populated : Nat → Nat → Bool
  slot : TracerField → Fin n

/-- Modelled from the spec: the fields that `mam_coupling.hpp` transfers,
namely the number of every mode, the mass of every populated
(mode, species) combination and the mass of every gas species; a slot with
an absent name is skipped. -/
def TracerConfig.fields {n : Nat} (cfg : TracerConfig n) : List TracerField :=
  (List.range cfg.num_aero_modes).flatMap
      (fun m => TracerField.int_aero_nmr m ::
        ((List.range cfg.num_aero_species).filter (fun a => cfg.populated m a)).map
          (fun a => TracerField.int_aero_mmr m a))
  ++ (List.range cfg.num_aero_gases).map (fun g => TracerField.gas_mmr g)

/-- Modelled from the spec: `transfer_prognostics_to_work_arrays(progs, k, q,
qqcw)` of `mam_coupling.hpp`, the `toWorkingArray` of the spec: each
transferred field is stored at level `k` into its fixed-offset slot of the
flat array `q`; the slots of absent combinations are left as they are
(zero), and so is the cloud-borne array. -/
def transfer_prognostics_to_work_arrays {n : Nat} (cfg : TracerConfig n)
    (progs : TracerState) (k : Nat) (q qqcw : WorkArray n) : WorkArray n × WorkArray n :=
  (cfg.fields.foldl (fun q f => Function.update q (cfg.slot f) (progs f k)) q, qqcw)

/-- Modelled from the spec: `transfer_work_arrays_to_prognostics(q, qqcw,
progs, k)` of `mam_coupling.hpp`, the `fromWorkingArray` of the spec: each
transferred field receives at level `k` the value of its slot of `q`; the
slots of absent combinations are never written back. -/
def transfer_work_arrays_to_prognostics {n : Nat} (cfg : TracerConfig n)
    (q _qqcw : WorkArray n) (progs : TracerState) (k : Nat) : TracerState :=
  cfg.fields.foldl
    (fun p f => fun g l => if g = f ∧ l = k then q (cfg.slot f) else p g l) progs

end mam_coupling

/-- The function `strlen`: the number of bytes before the terminating NUL. -/
def strlen (s : String) : Nat := s.utf8ByteSize

/-- The number of characters `sprintf` stores when it writes the string `s`,
the terminating NUL included. -/
def sprintf_stores (s : String) : Nat := strlen s + 1

/-- The function `set_data_file(name, path, location)`: the string written
to `location`, or the error of the length check. `SCREAM_DATA_DIR` and
`MAX_FILENAME_LEN` are the macros of the build configuration. -/
def set_data_file (SCREAM_DATA_DIR : String) (MAX_FILENAME_LEN : Nat) (name path : String) :
    Except String String :=
  if strlen SCREAM_DATA_DIR + strlen path < MAX_FILENAME_LEN then
    .ok (SCREAM_DATA_DIR ++ "/" ++ path)
  else
    .error ("Error! " ++ name ++ " path is too long (must be < " ++
      toString MAX_FILENAME_LEN ++ " characters)")

/-- The method `MAMMicrophysics::set_defaults_()`, as a function of the
config it overwrites. -/
def set_defaults_ {SetsoxCfg : Type} (SCREAM_DATA_DIR : String) (MAX_FILENAME_LEN : Nat)
    (config_ : Config SetsoxCfg) : Except String (Config SetsoxCfg) := do
  let amicphys : AmicPhysConfig :=
    { do_cond := true
      do_rename := true
      do_newnuc := true
      do_coag := true
      nucleation :=
        { dens_so4a_host := 1770
          mw_so4a_host := 115
          newnuc_method_user_choice := 2
          pbl_nuc_wang2008_user_choice := 1
          adjust_factor_pbl_ratenucl := 1
          accom_coef_h2so4 := 1
          newnuc_adjust_factor_dnaitdt := 1 }
      -- these parameters guide the coupling between parameterizations
      gaexch_h2so4_uptake_optaa := 2
      newnuc_h2so4_conc_optaa := 2 }
  -- photolysis
  let rsf_file ← set_data_file SCREAM_DATA_DIR MAX_FILENAME_LEN
    "config_.photolysis.rsf_file" "../waccm/phot/RSF_GT200nm_v3.0_c080811.nc"
  let xs_long_file ← set_data_file SCREAM_DATA_DIR MAX_FILENAME_LEN
    "config_.photolysis.xs_long_file" "../waccm/phot/temp_prs_GT200nm_JPL10_c130206.nc"
  -- stratospheric chemistry
  let chlorine_loading_file ← set_data_file SCREAM_DATA_DIR MAX_FILENAME_LEN
    "config_.linoz.chlorine_loading_file"
    "../cam/chem/trop_mozart/ub/Linoz_Chlorine_Loading_CMIP6_0003-2017_c20171114.nc"
  pure
    { config_ with
      amicphys := amicphys
      photolysis := { rsf_file := rsf_file, xs_long_file := xs_long_file }
      linoz := { config_.linoz with chlorine_loading_file := chlorine_loading_file } }

/-- The method `MAMMicrophysics::configure(params)`; `Params` is
`ekat::ParameterList`. -/
def configure {SetsoxCfg Params : Type} (SCREAM_DATA_DIR : String)
    (MAX_FILENAME_LEN : Nat) (_params : Params) (config_ : Config SetsoxCfg) :
    Except String (Config SetsoxCfg) :=
  set_defaults_ SCREAM_DATA_DIR MAX_FILENAME_LEN config_

/-- The constructor `MAMMicrophysics::MAMMicrophysics(comm, params)`, as far
as the config goes: `config_` is what the object holds before the body of
the constructor runs. -/
def construct_config {SetsoxCfg Params : Type} (SCREAM_DATA_DIR : String)
    (MAX_FILENAME_LEN : Nat) (params : Params) (config_ : Config SetsoxCfg) :
    Except String (Config SetsoxCfg) :=
  configure SCREAM_DATA_DIR MAX_FILENAME_LEN params config_

/-- What `set_computed_group_impl` reads of a `FieldGroup`:
`m_info->m_group_name`, `m_info->m_bundled` and `m_info->size()`. -/
structure FieldGroup where
  m_group_name : String
  m_bundled : Bool
  size : Int
deriving DecidableEq, Repr

/-- The method `MAMMicrophysics::set_computed_group_impl(group)`; the three
counts are `mam_coupling::num_aero_modes()`, `num_aero_tracers()` and
`num_aero_gases()`. -/
def set_computed_group_impl (num_aero_modes num_aero_tracers num_aero_gases : Int)
    (group : FieldGroup) : Except String Unit :=
  if group.m_group_name = "tracers" then
    if group.m_bundled = true then
      -- how many aerosol/gas tracers do we expect?
      let num_tracers := 2 * (num_aero_modes + num_aero_tracers) + num_aero_gases
      if group.size ≥ num_tracers then .ok ()
      else .error ("Error! MAM4 requires at least " ++ toString num_tracers ++
        " aerosol tracers.")
    else .error "Error! MAM4 expects bundled fields for tracers."
  else .error ("Error! MAM4 expects a tracers field group (got " ++
    group.m_group_name ++ ")")

/-- An element access of the level lambda of `run_impl` to a view or array
that `run_impl` declares itself. -/
inductive Access
  /-- `photo_rates(k, i)`, read into `photo_rates_k[i]` -/
  | photo_rates (k i : Nat)
  /-- `extfrc(k, i)`, read into `extfrc_k[i]` -/
  | extfrc (k i : Nat)
  /-- `lwc(k)`, an argument of `setsox_single_level` -/
  | lwc (k : Nat)
  /-- `vmr[o3_ndx]`, an argument of the two LINOZ kernels -/
  | vmr (o3_ndx : Int)
deriving DecidableEq, Repr

/-- The extent of `mam4::ColumnView lwc;`, a default-constructed view. -/
def lwc_extent : Nat := 0

/-- The extents of `view_2d extfrc;`, a default-constructed view. -/
def extfrc_extent : Nat × Nat := (0, 0)

/-- Whether an access is within the extents its view or array has in
`run_impl`: `photo_rates` is a view of `(nlev_, phtcnt)`, `vmr` an array of
`gas_pcnst`, `lwc` and `extfrc` are default-constructed. -/
def Access.in_bounds (gas_pcnst : Nat) (nlev_ : Int) (phtcnt : Nat) : Access → Bool
  | .photo_rates k i => decide ((k : Int) < nlev_ ∧ i < phtcnt)
  | .extfrc k i => decide (k < extfrc_extent.1 ∧ i < extfrc_extent.2)
  | .lwc k => decide (k < lwc_extent)
  | .vmr o3_ndx => decide (0 ≤ o3_ndx ∧ o3_ndx < (gas_pcnst : Int))

/-- The accesses of one evaluation of the level lambda at level `k`, in the
order of the source; `o3_ndx` is the value the unset local has. -/
def level_accesses (nlev_ o3_lbl : Int) (phtcnt extcnt : Nat) (o3_ndx : Int) (k : Nat) :
    List Access :=
  (List.range phtcnt).map (fun i => Access.photo_rates k i)
  ++ (List.range extcnt).map (fun i => Access.extfrc k i)
  ++ [Access.lwc k, Access.vmr o3_ndx]
  ++ (if above_ozone_decay_threshold nlev_ o3_lbl k then [Access.vmr o3_ndx] else [])

/-! ## The surface coupling exporter

`SurfaceCouplingExporter::get_required_grids` of
`components/scream/src/control/atmosphere_surface_coupling_exporter.hpp`. -/

/-- What `get_required_grids` reads of a `SurfaceCouplingExporter`: its
parameter list, as a partial map from names to strings. -/
structure SurfaceCouplingExporter where
  m_params : String → Option String

/-- The method `SurfaceCouplingExporter::get_required_grids()`. `s` is the
function-local `static std::set<std::string> s`, which is shared by all
calls and all instances: the method returns the set and the new static. -/
def SurfaceCouplingExporter.get_required_grids (self : SurfaceCouplingExporter)
    (s : Finset String) : Except String (Finset String × Finset String) :=
  match self.m_params "Grid" with
  | none => .error "Grid not found in the parameter list"
  | some grid => .ok (insert grid s, insert grid s)

/-- The sets a sequence of calls of `get_required_grids` returns, on the
instances `callers` in turn, from the static `s` on. -/
def get_required_grids_calls :
    List SurfaceCouplingExporter → Finset String → Except String (List (Finset String))
  | [], _ => .ok []
  | self :: callers, s =>
    match self.get_required_grids s with
    | .error e => .error e
    | .ok (result, s1) =>
      match get_required_grids_calls callers s1 with
      | .error e => .error e
      | .ok results => .ok (result :: results)

/-- An exporter whose parameter list holds the given grid name. -/
def exporter_on (grid : String) : SurfaceCouplingExporter :=
  { m_params := fun name => if name = "Grid" then some grid else none }

/-! ## Concrete inputs -/

/-- A radiative-transfer lookup file with all the names `read_photo_table`
asks for. -/
def sample_rsf : NcFile :=
  { dims := fun name =>
      if name = "numz" then some 2 else if name = "numsza" then some 2
      else if name = "numalb" then some 2 else if name = "numcolo3fact" then some 2
      else none
    varid := fun name =>
      if name = "pm" then some 0 else if name = "sza" then some 1
      else if name = "alb" then some 2 else if name = "colo3fact" then some 3
      else if name = "colo3" then some 4 else if name = "RSF" then some 5
      else if name = "wc" then some 6 else if name = "wlintv" then some 7
      else none
    vardata := fun var_id =>
      if var_id = 0 then some [1000, 500] else if var_id = 1 then some [0, 1]
      else if var_id = 2 then some [0, 1] else if var_id = 3 then some [1, 2]
      else if var_id = 4 then some [3, 4] else if var_id = 5 then some [1, 2, 3, 4, 5, 6, 7, 8, 9, 10, 11, 12, 13, 14, 15, 16]
      else if var_id = 6 then some [300] else if var_id = 7 then some [10]
      else none }

/-- A cross-section file with all the names `read_photo_table` asks for. -/
def sample_xs_long : NcFile :=
  { dims := fun name =>
      if name = "numtemp" then some 1 else if name = "numwl" then some 1
      else if name = "numprs" then some 2 else none
    varid := fun name =>
      if name = "pressure" then some 0 else if name = "jh2o2" then some 1
      else if name = "usr_HO2_HO2" then some 2 else if name = "usr_SO2_OH" then some 3
      else if name = "usr_DMS_OH" then some 4 else none
    vardata := fun var_id =>
      if var_id = 0 then some [900, 100] else if var_id = 1 then some [5, 6]
      else if var_id = 2 then some [7, 8] else if var_id = 3 then some [9, 10]
      else if var_id = 4 then some [11, 12] else none }

/-- A file system that holds the two sample files. -/
def sample_fs : String → Option NcFile := fun path =>
  if path = "rsf.nc" then some sample_rsf
  else if path = "xs_long.nc" then some sample_xs_long
  else none

/-- The empty set of broadcast buffers. -/
def no_broadcasts : Broadcasts :=
  { dim_data := [], lng_indexer := [], pht_alias_mult_1 := [], rsf_tab := [],
    xsqy := [], sza := [], alb := [], press := [], o3rat := [], colo3 := [],
    etfphot := [], prs := [] }

/-- The communicator as the root sees it. -/
def root_comm : Comm := { rank := 0, root_sends := no_broadcasts }

/-- Sample kernels on two tracers, with a mechanism of one photolysis
reaction; the ozone solver lowers its argument by one. -/
def sample_externals : Externals (Nat → WorkArray 2) Unit Unit 2 :=
  { phtcnt := 1
    extcnt := 1
    molec_weight_dry_air := 29
    M_PI := 3
    preprocess := fun f => f
    postprocess := fun f => f
    compute_o3_column_density := fun _ _ _ => 0
    table_photo := fun _ _ _ _ _ _ _ _ _ _ _ _ => 0
    transfer_prognostics_to_work_arrays := fun progs k _ qqcw => (progs k, qqcw)
    convert_work_arrays_to_vmr := fun q qqcw => (q, qqcw)
    gas_phase_chemistry := fun _ _ _ _ _ _ _ _ _ vmr => (vmr, fun _ => 0)
    setsox_single_level := fun _ _ _ _ _ _ _ _ _ _ _ vmrcw vmr => (vmrcw, vmr)
    compute_water_content := fun _ _ _ _ _ =>
      { dgncur_a := [], dgncur_awet := [], wetdens := [], qaerwat := [] }
    modal_aero_amicphys_intr := fun _ _ _ _ _ _ _ _ _ _ vmr vmrcw _ _ _ _ => (vmr, vmrcw)
    lin_strat_chem_solve_kk := fun _ _ _ _ _ _ _ _ _ _ _ _ _ _ _ _ o3 => o3 - 1
    lin_strat_sfcsink_kk := fun _ _ o3 _ _ => o3
    convert_work_arrays_to_mmr := fun vmr vmrcw => (vmr, vmrcw)
    transfer_work_arrays_to_prognostics := fun q _ progs k =>
      fun l => if l = k then q else progs l }

/-- A constant atmosphere. -/
def sample_atmosphere : Atmosphere :=
  { temperature := fun _ => 280, pressure := fun _ => 90000,
    hydrostatic_dp := fun _ => 1000, height := fun _ => 100,
    vapor_mixing_ratio := fun _ => 0, cloud_fraction := fun _ => 0,
    planetary_boundary_layer_height := 1000 }

/-- Sample fields: every tracer has the mixing ratio 1/2 everywhere. -/
def sample_fields : Fields (Nat → WorkArray 2) Unit :=
  { atmosphere_for_column := fun _ => sample_atmosphere
    z_iface := fun _ _ => 0
    z_surf := 0
    phis := fun _ => 0
    interstitial_aerosols_for_column := fun _ _ _ => 1 / 2
    wet := () }

/-- A climatology of zeros. -/
def sample_climatology : LinozClimatology :=
  { linoz_o3_clim := fun _ _ => 0, linoz_o3col_clim := fun _ _ => 0,
    linoz_t_clim := fun _ _ => 0, linoz_PmL_clim := fun _ _ => 0,
    linoz_dPmL_dO3 := fun _ _ => 0, linoz_dPmL_dT := fun _ _ => 0,
    linoz_dPmL_dO3col := fun _ _ => 0, linoz_cariolle_psc := fun _ _ => 0 }

/-- An empty photolysis table. -/
def empty_table : PhotoTableData :=
  { nw := 0, nt := 0, np_xs := 0, numj := 0, nump := 0, numsza := 0, numcolo3 := 0,
    numalb := 0, rsf_tab := [], xsqy := [], sza := [], alb := [], press := [],
    colo3 := [], o3rat := [], etfphot := [], prs := [], pht_alias_mult_1 := [],
    lng_indexer := [], del_p := [], del_sza := [], del_alb := [], del_o3rat := [],
    dprs := [] }

/-- A process object on one column of `nlev_` levels with the given
`o3_lbl`, before `initialize_impl`. -/
def sample_process (nlev_ o3_lbl : Int) : MAMMicrophysics (Nat → WorkArray 2) Unit Unit :=
  { config_ :=
      { amicphys :=
          { do_cond := true, do_rename := true, do_newnuc := true, do_coag := true
            nucleation :=
              { dens_so4a_host := 1770, mw_so4a_host := 115,
                newnuc_method_user_choice := 2, pbl_nuc_wang2008_user_choice := 1,
                adjust_factor_pbl_ratenucl := 1, accom_coef_h2so4 := 1,
                newnuc_adjust_factor_dnaitdt := 1 }
            gaexch_h2so4_uptake_optaa := 2, newnuc_h2so4_conc_optaa := 2 }
        photolysis := { rsf_file := "rsf.nc", xs_long_file := "xs_long.nc" }
        linoz := { o3_lbl := o3_lbl, o3_sfc := 0, o3_tau := 1, psc_T := 190,
                   chlorine_loading_file := "" }
        setsox := () }
    ncol_ := 1
    nlev_ := nlev_
    step_ := 7
    col_latitudes_ := fun _ => 0
    fields := sample_fields
    scratch := sample_climatology
    photo_table_ := empty_table }

/-- Indeterminate values: zero throughout. -/
def sample_indeterminate : Indeterminate :=
  { o3_ndx := fun _ _ => 0, lwc := fun _ _ => 0, extfrc := fun _ _ _ => 0 }

/-- The communicator as rank 1 sees it when the root sends `b`. -/
def rank_one_comm (b : Broadcasts) : Comm := { rank := 1, root_sends := b }

/-- The buffers the root hands to the broadcasts on the sample files. -/
def sample_broadcasts : Broadcasts :=
  { dim_data := [2, 2, 2, 2, 1, 1, 2]
    lng_indexer := [1]
    pht_alias_mult_1 := [1, 1]
    rsf_tab := [1, 2, 3, 4, 5, 6, 7, 8, 9, 10, 11, 12, 13, 14, 15, 16]
    xsqy := []
    sza := [0, 1]
    alb := [0, 1]
    press := [1000, 500]
    o3rat := [1, 2]
    colo3 := [3, 4]
    etfphot := [0]
    prs := [900, 100] }

/-- The table the root builds from the sample files. -/
def sample_table : PhotoTableData :=
  { nw := 1, nt := 1, np_xs := 2, numj := 0, nump := 2, numsza := 2, numcolo3 := 2,
    numalb := 2
    rsf_tab := [1, 2, 3, 4, 5, 6, 7, 8, 9, 10, 11, 12, 13, 14, 15, 16]
    xsqy := []
    sza := [0, 1]
    alb := [0, 1]
    press := [1000, 500]
    colo3 := [3, 4]
    o3rat := [1, 2]
    etfphot := [0]
    prs := [900, 100]
    pht_alias_mult_1 := [1, 1]
    lng_indexer := [1]
    del_p := [1 / 500]
    del_sza := [1]
    del_alb := [1]
    del_o3rat := [1]
    dprs := [1 / 800] }

/-- A radiative-transfer lookup file from which the variable `wc` is
missing. -/
def rsf_without_wc : NcFile :=
  { dims := sample_rsf.dims
    varid := fun name => if name = "wc" then none else sample_rsf.varid name
    vardata := sample_rsf.vardata }

/-- A cross-section file that holds `pressure` and `jh2o2` only. -/
def xs_long_jh2o2_only : NcFile :=
  { dims := sample_xs_long.dims
    varid := fun name =>
      if name = "pressure" then some 0 else if name = "jh2o2" then some 1 else none
    vardata := sample_xs_long.vardata }

/-- A cross-section file whose first variable, with ID 0, is `jh2o2`. -/
def xs_long_jh2o2_first : NcFile :=
  { dims := sample_xs_long.dims
    varid := fun name =>
      if name = "jh2o2" then some 0 else if name = "pressure" then some 1 else none
    vardata := fun var_id =>
      if var_id = 0 then some [5, 6] else if var_id = 1 then some [900, 100] else none }

/-- A tracer configuration with two modes, two species (the second absent
from mode 1) and one gas, on seven slots: mode `m` has its number at slot
`3 m` and its species `a` at slot `3 m + 1 + a`, the gas is at slot 6. -/
def sample_tracer_config : mam_coupling.TracerConfig 7 :=
  { num_aero_modes := 2
    num_aero_species := 2
    num_aero_gases := 1
    populated := fun m a => !(m == 1 && a == 1)
    slot := fun f =>
      match f with
      | .int_aero_nmr m => ⟨(3 * m) % 7, Nat.mod_lt _ (by decide)⟩
      | .int_aero_mmr m a => ⟨(3 * m + 1 + a) % 7, Nat.mod_lt _ (by decide)⟩
      | .gas_mmr g => ⟨(6 + g) % 7, Nat.mod_lt _ (by decide)⟩ }

/-- A tracer state: every field has the value `level + 1` at each level. -/
def sample_tracers : mam_coupling.TracerState := fun _ l => (l : Real) + 1

/-- The sample kernels with an ozone solver that leaves its argument as it
is and a surface sink that raises its ozone argument by five: where the sink
is applied, the tracer 0 shows it. -/
def relaxing_externals : Externals (Nat → WorkArray 2) Unit Unit 2 :=
  { sample_externals with
    lin_strat_chem_solve_kk := fun _ _ _ _ _ _ _ _ _ _ _ _ _ _ _ _ o3 => o3
    lin_strat_sfcsink_kk := fun _ _ o3 _ _ => o3 + 5 }

/-- Indeterminate values in which the unset `o3_ndx` is -1. -/
def garbage_indeterminate : Indeterminate :=
  { o3_ndx := fun _ _ => -1, lwc := fun _ _ => 0, extfrc := fun _ _ _ => 0 }

/-- A file whose dimension `numz` has the length `2^31`. -/
def long_dimension_file : NcFile :=
  { dims := fun name => if name = "numz" then some 2147483648 else none
    varid := fun _ => none
    vardata := fun _ => none }

/-- Interface heights in doubles: the smallest positive double, and 0. -/
def tiny_zi_grid : List Double := [Double.finite (2 ^ (-1074 : Int)), Double.finite 0]

/-- Interface heights in doubles around `2^53`, where the doubles are 2 apart
above and 1 apart below. -/
def close_zi_grid : List Double :=
  [Double.finite (2 ^ 53 + 2), Double.finite (2 ^ 53), Double.finite (2 ^ 53 - 1)]

/-- The interface heights of the test, as doubles. -/
def test_zi_grid : List Double := shoc.zi_grid.map Double.finite

/-- A work array of doubles with a NaN and a negative entry. -/
def nan_array : Fin 2 → Double := fun i => if i = 0 then Double.nan else Double.finite (-1)

/-- A work array with a negative and a positive entry. -/
def mixed_sign_array : WorkArray 2 := fun i => if i = 0 then -1 else 2

/-- A config before the constructor has run: every stage off, no paths. -/
def blank_config : Config Unit :=
  { amicphys :=
      { do_cond := false, do_rename := false, do_newnuc := false, do_coag := false
        nucleation :=
          { dens_so4a_host := 0, mw_so4a_host := 0, newnuc_method_user_choice := 0,
            pbl_nuc_wang2008_user_choice := 0, adjust_factor_pbl_ratenucl := 0,
            accom_coef_h2so4 := 0, newnuc_adjust_factor_dnaitdt := 0 }
        gaexch_h2so4_uptake_optaa := 0, newnuc_h2so4_conc_optaa := 0 }
    photolysis := { rsf_file := "", xs_long_file := "" }
    linoz := { o3_lbl := 0, o3_sfc := 0, o3_tau := 0, psc_T := 0,
               chlorine_loading_file := "" }
    setsox := () }

/-! ## Lemmas on the level kernel -/

section lemmas

variable {Progs SetsoxCfg Wet : Type} {n : Nat}

theorem update_step_eq {n : Nat} (v : WorkArray n) (a : Fin n) :
    (if v a < 0 then Function.update v a 0 else v)
      = fun i => if i = a then max (v a) 0 else v i := by
  funext i
  by_cases h : v a < 0
  · by_cases hi : i = a
    · subst hi; simp [h, max_eq_right (le_of_lt h)]
    · simp [h, hi, Function.update_noteq hi]
  · by_cases hi : i = a
    · subst hi; simp [h, max_eq_left (not_lt.mp h)]
    · simp [h, hi]

theorem reset_fold_eq {n : Nat} (l : List (Fin n)) (v : WorkArray n) :
    l.foldl (fun v i => if v i < 0 then Function.update v i 0 else v) v
      = fun i => if i ∈ l then max (v i) 0 else v i := by
  induction l generalizing v with
  | nil => simp
  | cons a l ih =>
    rw [List.foldl_cons, ih, update_step_eq]
    funext i
    by_cases hi : i = a
    · subst hi; by_cases hl : i ∈ l <;> simp [hl]
    · by_cases hl : i ∈ l <;> simp [hl, hi]

/-- The negative-value check is the pointwise map `x ↦ max x 0`. -/
theorem reset_negative_values_eq {n : Nat} (vmr : WorkArray n) :
    reset_negative_values vmr = fun i => max (vmr i) 0 := by
  unfold reset_negative_values
  rw [reset_fold_eq]
  funext i
  simp [List.mem_finRange]

/-- The kernels one level evaluation calls. -/
theorem level_kernel_calls (ext : Externals Progs SetsoxCfg Wet n)
    (config_ : Config SetsoxCfg) (step_ nlev_ : Int) (dt t : Real) (o3_ndx : Int)
    (clim : LinozClimatology) (col : ColumnData) (progs : Progs) (k : Nat) :
    (level_kernel ext config_ step_ nlev_ dt t o3_ndx clim col progs k).calls
      = level_calls nlev_ config_.linoz.o3_lbl k := by
  unfold level_kernel level_calls
  cases above_ozone_decay_threshold nlev_ config_.linoz.o3_lbl k <;> rfl

theorem calls_foldl {P : Type} (step : ColumnResult P → Nat → ColumnResult P)
    (cs : Nat → List Call)
    (hstep : ∀ acc k, (step acc k).calls = acc.calls ++ (cs k).map (fun c => (k, c)))
    (ks : List Nat) (acc : ColumnResult P) :
    (ks.foldl step acc).calls
      = acc.calls ++ ks.flatMap (fun k => (cs k).map (fun c => (k, c))) := by
  induction ks generalizing acc with
  | nil => simp
  | cons a ks ih => rw [List.foldl_cons, ih, hstep]; simp [List.append_assoc]

/-- The kernels called by one column, level by level. -/
theorem column_kernel_calls (ext : Externals Progs SetsoxCfg Wet n)
    (self : MAMMicrophysics Progs SetsoxCfg Wet) (f : Fields Progs Wet)
    (dt t : Real) (ind : Indeterminate) (icol : Nat) :
    (column_kernel ext self f dt t ind icol).calls
      = (List.range self.nlev_.toNat).flatMap (fun k =>
          (level_calls self.nlev_ self.config_.linoz.o3_lbl k).map (fun c => (k, c))) := by
  unfold column_kernel
  simp only []
  rw [calls_foldl _ (level_calls self.nlev_ self.config_.linoz.o3_lbl)]
  · simp
  · intro acc k
    simp only [level_kernel_calls]

theorem sfcsink_mem_level_calls (nlev_ o3_lbl : Int) (k : Nat) :
    Call.lin_strat_sfcsink_kk ∈ level_calls nlev_ o3_lbl k
      ↔ (k : Int) > nlev_ - o3_lbl - 1 := by
  unfold level_calls
  by_cases h : (k : Int) > nlev_ - o3_lbl - 1
  · simp [above_ozone_decay_threshold, h]
  · simp [above_ozone_decay_threshold, h]

/-- The surface sink is among the calls of a column exactly at the levels
`k < nlev_` that pass the guard. -/
theorem sfcsink_mem_column_kernel_calls (ext : Externals Progs SetsoxCfg Wet n)
    (self : MAMMicrophysics Progs SetsoxCfg Wet) (f : Fields Progs Wet)
    (dt t : Real) (ind : Indeterminate) (icol k : Nat) :
    (k, Call.lin_strat_sfcsink_kk) ∈ (column_kernel ext self f dt t ind icol).calls
      ↔ (k : Int) < self.nlev_ ∧ (k : Int) > self.nlev_ - self.config_.linoz.o3_lbl - 1 := by
  rw [column_kernel_calls]
  simp only [List.mem_flatMap, List.mem_range, List.mem_map, Prod.mk.injEq]
  constructor
  · rintro ⟨k1, hk1, c, hc, rfl, rfl⟩
    exact ⟨by omega, (sfcsink_mem_level_calls _ _ _).mp hc⟩
  · rintro ⟨h1, h2⟩
    exact ⟨k, by omega, _, (sfcsink_mem_level_calls _ _ _).mpr h2, rfl, rfl⟩

/-- The surface sink is among the calls of `run_impl` exactly at the columns
`icol < ncol_` and levels `k < nlev_` that pass the guard. -/
theorem sfcsink_mem_run_impl_calls (ext : Externals Progs SetsoxCfg Wet n)
    (self : MAMMicrophysics Progs SetsoxCfg Wet) (dt : Real) (ind : Indeterminate)
    (icol k : Nat) :
    (icol, k, Call.lin_strat_sfcsink_kk) ∈ (run_impl_calls ext self dt ind).2
      ↔ (icol : Int) < self.ncol_ ∧ (k : Int) < self.nlev_
        ∧ (k : Int) > self.nlev_ - self.config_.linoz.o3_lbl - 1 := by
  unfold run_impl_calls
  simp only [List.mem_flatMap, List.mem_range, List.mem_map, Prod.mk.injEq]
  constructor
  · rintro ⟨i, hi, kc, hm, rfl, rfl⟩
    refine ⟨by omega, (sfcsink_mem_column_kernel_calls _ _ _ _ _ _ _ _).mp hm⟩
  · rintro ⟨h1, h2⟩
    exact ⟨icol, by omega, (k, Call.lin_strat_sfcsink_kk),
      (sfcsink_mem_column_kernel_calls _ _ _ _ _ _ _ _).mpr h2, rfl, rfl⟩

/-- The guarded call of the surface sink: behind the guard the ozone entry of
`vmr` goes through `lin_strat_sfcsink_kk`, elsewhere `vmr` is carried on as
it is. -/
theorem level_kernel_sink_flow (ext : Externals Progs SetsoxCfg Wet n)
    (config_ : Config SetsoxCfg) (step_ nlev_ : Int) (dt t : Real) (o3_ndx : Int)
    (clim : LinozClimatology) (col : ColumnData) (progs : Progs) (k : Nat) :
    (level_kernel ext config_ step_ nlev_ dt t o3_ndx clim col progs k).vmr_before_check
      = if (k : Int) > nlev_ - config_.linoz.o3_lbl - 1 then
          update_ref
            (level_kernel ext config_ step_ nlev_ dt t o3_ndx clim col progs k).vmr_before_sink
            o3_ndx
            (fun o3 => ext.lin_strat_sfcsink_kk dt (col.atm.hydrostatic_dp k) o3
              config_.linoz.o3_sfc config_.linoz.o3_tau)
        else
          (level_kernel ext config_ step_ nlev_ dt t o3_ndx clim col progs k).vmr_before_sink := by
  unfold level_kernel
  by_cases h : (k : Int) > nlev_ - config_.linoz.o3_lbl - 1
  · simp only [above_ozone_decay_threshold, h, decide_True, if_true, invoke]
  · simp only [above_ozone_decay_threshold, h, decide_False, if_false, invoke]
    rfl

/-- What a level writes to the prognostics: the checked `vmr` and `vmrcw`,
converted to mass mixing ratios. -/
theorem level_kernel_progs (ext : Externals Progs SetsoxCfg Wet n)
    (config_ : Config SetsoxCfg) (step_ nlev_ : Int) (dt t : Real) (o3_ndx : Int)
    (clim : LinozClimatology) (col : ColumnData) (progs : Progs) (k : Nat) :
    (level_kernel ext config_ step_ nlev_ dt t o3_ndx clim col progs k).progs
      = ext.transfer_work_arrays_to_prognostics
          (ext.convert_work_arrays_to_mmr
            (reset_negative_values
              (level_kernel ext config_ step_ nlev_ dt t o3_ndx clim col progs k).vmr_before_check)
            (level_kernel ext config_ step_ nlev_ dt t o3_ndx clim col progs k).vmrcw).1
          (ext.convert_work_arrays_to_mmr
            (reset_negative_values
              (level_kernel ext config_ step_ nlev_ dt t o3_ndx clim col progs k).vmr_before_check)
            (level_kernel ext config_ step_ nlev_ dt t o3_ndx clim col progs k).vmrcw).2
          progs k := rfl

/-- Where the guard fails, the level evaluation is the same whatever kernel
stands for `lin_strat_sfcsink_kk`. -/
theorem level_kernel_congr_sfcsink (ext : Externals Progs SetsoxCfg Wet n)
    (g : Real → Real → Real → Real → Real → Real)
    (config_ : Config SetsoxCfg) (step_ nlev_ : Int) (dt t : Real) (o3_ndx : Int)
    (clim : LinozClimatology) (col : ColumnData) (progs : Progs) (k : Nat)
    (h : ¬ (k : Int) > nlev_ - config_.linoz.o3_lbl - 1) :
    level_kernel { ext with lin_strat_sfcsink_kk := g } config_ step_ nlev_ dt t o3_ndx clim
        col progs k
      = level_kernel ext config_ step_ nlev_ dt t o3_ndx clim col progs k := by
  unfold level_kernel
  simp only [above_ozone_decay_threshold, h, decide_False, if_false]
  rfl

theorem foldl_progs {P : Type} (step : ColumnResult P → Nat → ColumnResult P)
    (g : P → Nat → P) (hstep : ∀ acc k, (step acc k).progs = g acc.progs k)
    (ks : List Nat) (acc : ColumnResult P) :
    (ks.foldl step acc).progs = ks.foldl g acc.progs := by
  induction ks generalizing acc with
  | nil => rfl
  | cons a ks ih => rw [List.foldl_cons, List.foldl_cons, ih, hstep]

/-- The prognostics a column is left with: the levels `0 .. nlev_ - 1` in
turn, each on what the one before has written. -/
theorem column_kernel_progs (ext : Externals Progs SetsoxCfg Wet n)
    (self : MAMMicrophysics Progs SetsoxCfg Wet) (f : Fields Progs Wet)
    (dt t : Real) (ind : Indeterminate) (icol : Nat) :
    (column_kernel ext self f dt t ind icol).progs
      = (List.range self.nlev_.toNat).foldl
          (fun progs k =>
            (level_kernel ext self.config_ self.step_ self.nlev_ dt t (ind.o3_ndx icol k)
              self.scratch (column_data ext self f ind icol) progs k).progs)
          (f.interstitial_aerosols_for_column icol) := by
  unfold column_kernel
  simp only []
  rw [foldl_progs]
  intro acc k
  rfl

/-- The fields `run_impl` leaves: the preprocessed fields with the
prognostics of every column `icol < ncol_` run through the levels, and then
postprocessed. -/
theorem run_impl_fields (ext : Externals Progs SetsoxCfg Wet n)
    (self : MAMMicrophysics Progs SetsoxCfg Wet) (dt : Real) (ind : Indeterminate) :
    (run_impl ext self dt ind).fields
      = ext.postprocess
          { ext.preprocess self.fields with
            interstitial_aerosols_for_column := fun icol =>
              if (icol : Int) < self.ncol_ then
                (List.range self.nlev_.toNat).foldl
                  (fun progs k => (run_level ext self dt ind icol k progs).progs)
                  ((ext.preprocess self.fields).interstitial_aerosols_for_column icol)
              else (ext.preprocess self.fields).interstitial_aerosols_for_column icol } := by
  unfold run_impl run_impl_calls run_level
  simp only [column_kernel_progs]

/-- A column none of whose levels passes the guard is the same whatever
kernel stands for `lin_strat_sfcsink_kk`. -/
theorem column_kernel_congr_sfcsink (ext : Externals Progs SetsoxCfg Wet n)
    (g : Real → Real → Real → Real → Real → Real)
    (self : MAMMicrophysics Progs SetsoxCfg Wet) (f : Fields Progs Wet)
    (dt t : Real) (ind : Indeterminate) (icol : Nat)
    (h : ∀ k : Nat, (k : Int) < self.nlev_ →
      ¬ (k : Int) > self.nlev_ - self.config_.linoz.o3_lbl - 1) :
    column_kernel { ext with lin_strat_sfcsink_kk := g } self f dt t ind icol
      = column_kernel ext self f dt t ind icol := by
  unfold column_kernel
  simp only []
  apply List.foldl_ext
  intro acc k hk
  have hk1 : (k : Int) < self.nlev_ := by
    have := List.mem_range.mp hk
    omega
  have e : column_data { ext with lin_strat_sfcsink_kk := g } self f ind icol
      = column_data ext self f ind icol := rfl
  rw [e, level_kernel_congr_sfcsink ext g _ _ _ _ _ _ _ _ _ _ (h k hk1)]

/-- A run none of whose levels passes the guard is the same, in the fields it
leaves and in the kernels it calls, whatever kernel stands for
`lin_strat_sfcsink_kk`. -/
theorem run_impl_calls_congr_sfcsink (ext : Externals Progs SetsoxCfg Wet n)
    (g : Real → Real → Real → Real → Real → Real)
    (self : MAMMicrophysics Progs SetsoxCfg Wet) (dt : Real) (ind : Indeterminate)
    (h : ∀ k : Nat, (k : Int) < self.nlev_ →
      ¬ (k : Int) > self.nlev_ - self.config_.linoz.o3_lbl - 1) :
    run_impl_calls { ext with lin_strat_sfcsink_kk := g } self dt ind
      = run_impl_calls ext self dt ind := by
  unfold run_impl_calls
  simp only [column_kernel_congr_sfcsink ext g self _ dt _ ind _ h]

end lemmas

/-! ## Lemmas on the table reader -/

theorem bind_eq_ok {ε α β : Type} (x : Except ε α) (f : α → Except ε β) (b : β) :
    (x >>= f) = .ok b ↔ ∃ a, x = .ok a ∧ f a = .ok b := by
  cases x with
  | error e => simp [bind, Except.bind]
  | ok a => simp [bind, Except.bind]

theorem nc_dimension_eq_ok {file : String} {nc : NcFile} {name : String} {v : Int}
    (h : nc_dimension file nc name = .ok v) :
    ∃ len, nc.dims name = some len ∧ v = static_cast_int len := by
  unfold nc_dimension at h
  split at h
  · cases h
  · next len hl => cases h; exact ⟨len, hl, rfl⟩

theorem length_write_at (buf : List Real) (off : Nat) (data : List Real) :
    (write_at buf off data).length = buf.length := by
  simp [write_at]

theorem read_nc_var_eq_ok {file : String} {nc : NcFile} {name : String}
    {buf out : List Real} (h : read_nc_var file nc name buf = .ok out) :
    nc.varid name ≠ none ∧ out.length = buf.length := by
  unfold read_nc_var at h
  split at h
  · cases h
  · next id hid =>
    split at h
    · cases h
    · cases h; exact ⟨by simp [hid], length_write_at _ _ _⟩

theorem set_lng_indexer_loop_length (file : String) (nc : NcFile) (ms : List Nat)
    (lng out : List Int) (h : set_lng_indexer_loop file nc ms lng = .ok out) :
    out.length = lng.length := by
  induction ms generalizing lng with
  | nil => simp [set_lng_indexer_loop] at h; rw [← h]
  | cons m ms ih =>
    unfold set_lng_indexer_loop at h
    split at h
    · cases h
    · split at h
      · cases h
      · rw [ih _ h, List.length_set]

theorem set_lng_indexer_loop_error (file : String) (nc : NcFile) (ms : List Nat)
    (lng : List Int) (m : Nat) (name : String) (hm : m ∈ ms)
    (hname : var_names[m]? = some name) (habs : nc.varid name = none) :
    ∃ e, set_lng_indexer_loop file nc ms lng = .error e := by
  induction ms generalizing lng with
  | nil => simp at hm
  | cons a ms ih =>
    unfold set_lng_indexer_loop
    rcases List.mem_cons.mp hm with h | h
    · subst h
      simp [hname, habs]
    · split
      · exact ⟨_, rfl⟩
      · split
        · exact ⟨_, rfl⟩
        · exact ih _ h

theorem broadcast_root {α : Type} (comm : Comm) (h0 : comm.rank = mpi_root)
    (root_buf buf : List α) (count : Int) : comm.broadcast root_buf buf count = buf := by
  simp [Comm.broadcast, h0]

theorem broadcast_other {α : Type} (comm : Comm) (hr : comm.rank ≠ mpi_root)
    (root_buf buf : List α) (count : Int) (h1 : root_buf.length ≤ count.toNat)
    (h2 : buf.length ≤ count.toNat) : comm.broadcast root_buf buf count = root_buf := by
  simp [Comm.broadcast, hr, List.take_of_length_le h1, List.drop_of_length_le h2]

/-- On the root a successful first block has opened both files, found the
seven dimensions and sent them packed. -/
theorem read_dim_data_root {comm : Comm} {fs : String → Option NcFile}
    {rsf_file xs_long_file : String} {u : Fin 7 → Int}
    {files : Option (NcFile × NcFile)} {d : TableDims} {buf : List Int}
    (h0 : comm.rank = mpi_root)
    (h : read_dim_data comm fs rsf_file xs_long_file u = .ok (files, d, buf)) :
    ∃ rsf xs_long, fs rsf_file = some rsf ∧ fs xs_long_file = some xs_long
      ∧ files = some (rsf, xs_long) ∧ buf = pack_dim_data d
      ∧ (∃ len, rsf.dims "numz" = some len ∧ d.nump = static_cast_int len)
      ∧ (∃ len, rsf.dims "numsza" = some len ∧ d.numsza = static_cast_int len)
      ∧ (∃ len, rsf.dims "numalb" = some len ∧ d.numalb = static_cast_int len)
      ∧ (∃ len, rsf.dims "numcolo3fact" = some len ∧ d.numcolo3 = static_cast_int len)
      ∧ (∃ len, xs_long.dims "numtemp" = some len ∧ d.nt = static_cast_int len)
      ∧ (∃ len, xs_long.dims "numwl" = some len ∧ d.nw = static_cast_int len)
      ∧ (∃ len, xs_long.dims "numprs" = some len ∧ d.np_xs = static_cast_int len) := by
  unfold read_dim_data at h
  rw [if_pos h0] at h
  split at h
  · cases h
  · next rsf hrsf =>
    split at h
    · cases h
    · next xs hxs =>
      obtain ⟨nump, h1, h⟩ := (bind_eq_ok _ _ _).mp h
      obtain ⟨numsza, h2, h⟩ := (bind_eq_ok _ _ _).mp h
      obtain ⟨numalb, h3, h⟩ := (bind_eq_ok _ _ _).mp h
      obtain ⟨numcolo3, h4, h⟩ := (bind_eq_ok _ _ _).mp h
      obtain ⟨nt, h5, h⟩ := (bind_eq_ok _ _ _).mp h
      obtain ⟨nw, h6, h⟩ := (bind_eq_ok _ _ _).mp h
      obtain ⟨np_xs, h7, h⟩ := (bind_eq_ok _ _ _).mp h
      simp only [pure, Except.pure, broadcast_root comm h0, Except.ok.injEq,
        Prod.mk.injEq] at h
      obtain ⟨hf, hd, hb⟩ := h
      subst hf hd hb
      obtain ⟨l1, e1, r1⟩ := nc_dimension_eq_ok h1
      obtain ⟨l2, e2, r2⟩ := nc_dimension_eq_ok h2
      obtain ⟨l3, e3, r3⟩ := nc_dimension_eq_ok h3
      obtain ⟨l4, e4, r4⟩ := nc_dimension_eq_ok h4
      obtain ⟨l5, e5, r5⟩ := nc_dimension_eq_ok h5
      obtain ⟨l6, e6, r6⟩ := nc_dimension_eq_ok h6
      obtain ⟨l7, e7, r7⟩ := nc_dimension_eq_ok h7
      exact ⟨rsf, xs, hrsf, hxs, rfl, rfl, ⟨l1, e1, r1⟩, ⟨l2, e2, r2⟩, ⟨l3, e3, r3⟩,
        ⟨l4, e4, r4⟩, ⟨l5, e5, r5⟩, ⟨l6, e6, r6⟩, ⟨l7, e7, r7⟩⟩

/-- On another rank the first block returns the unpacked dimensions of the
root, whatever the local files and the prior content of `dim_data`. -/
theorem read_dim_data_other (comm : Comm) (hr : comm.rank ≠ mpi_root) (d : TableDims)
    (hs : comm.root_sends.dim_data = pack_dim_data d) (fs : String → Option NcFile)
    (rsf_file xs_long_file : String) (u : Fin 7 → Int) :
    read_dim_data comm fs rsf_file xs_long_file u = .ok (none, d, pack_dim_data d) := by
  unfold read_dim_data
  rw [if_neg hr, hs, broadcast_other comm hr]
  · rfl
  · simp [pack_dim_data]
  · simp

theorem read_xsqy_loop_length (file : String) (nc : NcFile) (lng : List Int) (row : Nat)
    (ms : List Nat) (ndx : Nat) (x out : List Real)
    (h : read_xsqy_loop file nc lng row ms ndx x = .ok out) : out.length = x.length := by
  induction ms generalizing ndx x with
  | nil => simp [read_xsqy_loop] at h; rw [← h]
  | cons m ms ih =>
    unfold read_xsqy_loop at h
    split at h
    · split at h
      · cases h
      · next x1 hx1 =>
        rw [ih _ _ h]
        unfold read_nc_var_id at hx1
        split at hx1
        · cases hx1
        · cases hx1; exact length_write_at _ _ _
    · exact ih _ _ h

/-- A successful read of the file data on the root has found the nine named
variables, and leaves every host view with its allocated length. -/
theorem read_file_data_ok {phtcnt : Nat} {rsf_file xs_long_file : String}
    {rsf xs_long : NcFile} {d : TableDims} {lng : List Int} {h h1 : HostViews}
    (hok : read_file_data phtcnt rsf_file xs_long_file rsf xs_long d lng h = .ok h1) :
    (rsf.varid "pm" ≠ none ∧ rsf.varid "sza" ≠ none ∧ rsf.varid "alb" ≠ none
      ∧ rsf.varid "colo3fact" ≠ none ∧ rsf.varid "colo3" ≠ none
      ∧ rsf.varid "RSF" ≠ none ∧ xs_long.varid "pressure" ≠ none
      ∧ rsf.varid "wc" ≠ none ∧ rsf.varid "wlintv" ≠ none)
    ∧ (h1.rsf_tab_h.length = h.rsf_tab_h.length ∧ h1.xsqy_h.length = h.xsqy_h.length
      ∧ h1.sza_h.length = h.sza_h.length ∧ h1.alb_h.length = h.alb_h.length
      ∧ h1.press_h.length = h.press_h.length ∧ h1.colo3_h.length = h.colo3_h.length
      ∧ h1.o3rat_h.length = h.o3rat_h.length ∧ h1.etfphot_h.length = h.etfphot_h.length
      ∧ h1.prs_h.length = h.prs_h.length) := by
  unfold read_file_data at hok
  obtain ⟨press, e1, hok⟩ := (bind_eq_ok _ _ _).mp hok
  obtain ⟨sza, e2, hok⟩ := (bind_eq_ok _ _ _).mp hok
  obtain ⟨alb, e3, hok⟩ := (bind_eq_ok _ _ _).mp hok
  obtain ⟨o3rat, e4, hok⟩ := (bind_eq_ok _ _ _).mp hok
  obtain ⟨colo3, e5, hok⟩ := (bind_eq_ok _ _ _).mp hok
  obtain ⟨rsf_tab, e6, hok⟩ := (bind_eq_ok _ _ _).mp hok
  obtain ⟨prs, e7, hok⟩ := (bind_eq_ok _ _ _).mp hok
  obtain ⟨xsqy, e8, hok⟩ := (bind_eq_ok _ _ _).mp hok
  obtain ⟨wc, e9, hok⟩ := (bind_eq_ok _ _ _).mp hok
  obtain ⟨wlintv, e10, hok⟩ := (bind_eq_ok _ _ _).mp hok
  simp only [pure, Except.pure, Except.ok.injEq] at hok
  subst hok
  refine ⟨⟨(read_nc_var_eq_ok e1).1, (read_nc_var_eq_ok e2).1, (read_nc_var_eq_ok e3).1,
    (read_nc_var_eq_ok e4).1, (read_nc_var_eq_ok e5).1, (read_nc_var_eq_ok e6).1,
    (read_nc_var_eq_ok e7).1, (read_nc_var_eq_ok e9).1, (read_nc_var_eq_ok e10).1⟩,
    (read_nc_var_eq_ok e6).2, read_xsqy_loop_length _ _ _ _ _ _ _ _ e8,
    (read_nc_var_eq_ok e2).2, (read_nc_var_eq_ok e3).2, (read_nc_var_eq_ok e1).2,
    (read_nc_var_eq_ok e5).2, (read_nc_var_eq_ok e4).2, ?_, (read_nc_var_eq_ok e7).2⟩
  simp [populate_etfphot, deep_copy_scalar]

/-- What a successful run of `read_photo_table` on the root consists of. -/
theorem read_photo_table_root {phtcnt : Nat} {comm : Comm} {fs : String → Option NcFile}
    {rsf_file xs_long_file : String} {u : Fin 7 → Int} {T : PhotoTableData}
    {B : Broadcasts} (h0 : comm.rank = mpi_root)
    (h : read_photo_table phtcnt comm fs rsf_file xs_long_file u = .ok (T, B)) :
    ∃ rsf xs_long d lng1 pht1 h1,
      read_dim_data comm fs rsf_file xs_long_file u
          = .ok (some (rsf, xs_long), d, pack_dim_data d)
      ∧ set_lng_indexer_and_pht_alias_mult_1 phtcnt xs_long_file xs_long
          (new_view [(phtcnt : Int)]) (new_view [2]) = .ok (lng1, pht1)
      ∧ read_file_data phtcnt rsf_file xs_long_file rsf xs_long d lng1
          (create_mirror_views d (compute_numj phtcnt lng1)) = .ok h1
      ∧ T = fill_table d (compute_numj phtcnt lng1) h1 pht1 lng1
      ∧ B = { dim_data := pack_dim_data d, lng_indexer := lng1, pht_alias_mult_1 := pht1,
              rsf_tab := h1.rsf_tab_h, xsqy := h1.xsqy_h, sza := h1.sza_h,
              alb := h1.alb_h, press := h1.press_h, o3rat := h1.o3rat_h,
              colo3 := h1.colo3_h, etfphot := h1.etfphot_h, prs := h1.prs_h } := by
  unfold read_photo_table at h
  obtain ⟨⟨files, d, dd⟩, e1, h⟩ := (bind_eq_ok _ _ _).mp h
  obtain ⟨rsf, xs, _, _, hf, hb, _⟩ := read_dim_data_root h0 e1
  subst hf hb
  simp only [] at h
  obtain ⟨⟨lng1, pht1⟩, e2, h⟩ := (bind_eq_ok _ _ _).mp h
  simp only [broadcast_root comm h0] at h
  obtain ⟨h1, e3, h⟩ := (bind_eq_ok _ _ _).mp h
  simp only [pure, Except.pure, Except.ok.injEq, Prod.mk.injEq, broadcast_host_views,
    broadcast_root comm h0] at h
  obtain ⟨hT, hB⟩ := h
  exact ⟨rsf, xs, d, lng1, pht1, h1, e1, e2, e3, hT.symm, hB.symm⟩

theorem toNat_mul_le (a b : Int) : a.toNat * b.toNat ≤ (a * b).toNat := by
  rcases le_total 0 a with ha | ha
  · rcases le_total 0 b with hb | hb
    · lift a to Nat using ha
      lift b to Nat using hb
      rw [← Nat.cast_mul]
      simp only [Int.toNat_natCast]
      exact le_refl _
    · simp [Int.toNat_eq_zero.mpr hb]
  · simp [Int.toNat_eq_zero.mpr ha]

theorem view_size_one (a : Int) : view_size [a] = a.toNat := by
  simp [view_size]

theorem view_size_rsf_tab_le (d : TableDims) :
    view_size [d.nw, d.nump, d.numsza, d.numcolo3, d.numalb]
      ≤ (d.nw * d.numalb * d.numcolo3 * d.numsza * d.nump).toNat := by
  have e : d.nw * d.numalb * d.numcolo3 * d.numsza * d.nump
      = d.nw * d.nump * d.numsza * d.numcolo3 * d.numalb := by ring
  rw [e]
  have h1 := toNat_mul_le d.nw d.nump
  have h2 := toNat_mul_le (d.nw * d.nump) d.numsza
  have h3 := toNat_mul_le (d.nw * d.nump * d.numsza) d.numcolo3
  have h4 := toNat_mul_le (d.nw * d.nump * d.numsza * d.numcolo3) d.numalb
  have g1 := Nat.mul_le_mul_right d.numsza.toNat h1
  have g2 := Nat.mul_le_mul_right d.numcolo3.toNat (le_trans g1 h2)
  have g3 := Nat.mul_le_mul_right d.numalb.toNat (le_trans g2 h3)
  have e2 : view_size [d.nw, d.nump, d.numsza, d.numcolo3, d.numalb]
      = d.nw.toNat * d.nump.toNat * d.numsza.toNat * d.numcolo3.toNat * d.numalb.toNat := by
    simp [view_size, Nat.mul_assoc]
  rw [e2]
  exact le_trans g3 h4

theorem view_size_xsqy_le (d : TableDims) (numj : Int) :
    view_size [numj, d.nw, d.nt, d.np_xs] ≤ (numj * d.nw * d.nt * d.np_xs).toNat := by
  have h1 := toNat_mul_le numj d.nw
  have h2 := toNat_mul_le (numj * d.nw) d.nt
  have h3 := toNat_mul_le (numj * d.nw * d.nt) d.np_xs
  have g1 := Nat.mul_le_mul_right d.nt.toNat h1
  have g2 := Nat.mul_le_mul_right d.np_xs.toNat (le_trans g1 h2)
  have e2 : view_size [numj, d.nw, d.nt, d.np_xs]
      = numj.toNat * d.nw.toNat * d.nt.toNat * d.np_xs.toNat := by
    simp [view_size, Nat.mul_assoc]
  rw [e2]
  exact le_trans g2 h3

theorem length_new_view {α : Type} [Zero α] (extents : List Int) :
    (new_view extents : List α).length = view_size extents := by
  simp [new_view]

/-- When the root hands the host views `h1` to the broadcasts, each of the
allocated length, every other rank ends up with `h1` after the broadcasts. -/
theorem broadcast_host_views_other (comm : Comm) (hr : comm.rank ≠ mpi_root)
    (d : TableDims) (numj : Int) (h1 : HostViews)
    (hs : comm.root_sends.rsf_tab = h1.rsf_tab_h ∧ comm.root_sends.xsqy = h1.xsqy_h
      ∧ comm.root_sends.sza = h1.sza_h ∧ comm.root_sends.alb = h1.alb_h
      ∧ comm.root_sends.press = h1.press_h ∧ comm.root_sends.o3rat = h1.o3rat_h
      ∧ comm.root_sends.colo3 = h1.colo3_h ∧ comm.root_sends.etfphot = h1.etfphot_h
      ∧ comm.root_sends.prs = h1.prs_h)
    (hl : h1.rsf_tab_h.length = (create_mirror_views d numj).rsf_tab_h.length
      ∧ h1.xsqy_h.length = (create_mirror_views d numj).xsqy_h.length
      ∧ h1.sza_h.length = (create_mirror_views d numj).sza_h.length
      ∧ h1.alb_h.length = (create_mirror_views d numj).alb_h.length
      ∧ h1.press_h.length = (create_mirror_views d numj).press_h.length
      ∧ h1.colo3_h.length = (create_mirror_views d numj).colo3_h.length
      ∧ h1.o3rat_h.length = (create_mirror_views d numj).o3rat_h.length
      ∧ h1.etfphot_h.length = (create_mirror_views d numj).etfphot_h.length
      ∧ h1.prs_h.length = (create_mirror_views d numj).prs_h.length) :
    broadcast_host_views comm d numj (create_mirror_views d numj) = h1 := by
  obtain ⟨s1, s2, s3, s4, s5, s6, s7, s8, s9⟩ := hs
  obtain ⟨l1, l2, l3, l4, l5, l6, l7, l8, l9⟩ := hl
  simp only [create_mirror_views, length_new_view, view_size_one] at l1 l2 l3 l4 l5 l6 l7 l8 l9
  have r := view_size_rsf_tab_le d
  have x := view_size_xsqy_le d numj
  unfold broadcast_host_views
  rw [s1, s2, s3, s4, s5, s6, s7, s8, s9]
  rw [broadcast_other comm hr h1.rsf_tab_h, broadcast_other comm hr h1.xsqy_h,
    broadcast_other comm hr h1.sza_h, broadcast_other comm hr h1.alb_h,
    broadcast_other comm hr h1.press_h, broadcast_other comm hr h1.o3rat_h,
    broadcast_other comm hr h1.colo3_h, broadcast_other comm hr h1.etfphot_h,
    broadcast_other comm hr h1.prs_h]
  all_goals first
    | rfl
    | omega
    | (simp only [create_mirror_views, length_new_view, view_size_one]; omega)

/-! ## The surface sink, the negative-value check and the step counter -/

section claims_run

variable {Progs SetsoxCfg Wet : Type} {n : Nat}

theorem run_impl_step_ (ext : Externals Progs SetsoxCfg Wet n)
    (self : MAMMicrophysics Progs SetsoxCfg Wet) (dt : Real) (ind : Indeterminate) :
    (run_impl ext self dt ind).step_ = self.step_ := rfl

theorem run_steps_step_ (ext : Externals Progs SetsoxCfg Wet n)
    (dts : List Real) (inds : Nat → Indeterminate)
    (self : MAMMicrophysics Progs SetsoxCfg Wet) :
    (run_steps ext inds dts self).step_ = self.step_ := by
  induction dts generalizing inds self with
  | nil => rfl
  | cons dt dts ih => rw [run_steps, ih, run_impl_step_]

theorem initialize_impl_step_ (ext : Externals Progs SetsoxCfg Wet n)
    (self s : MAMMicrophysics Progs SetsoxCfg Wet) (comm : Comm)
    (fs : String → Option NcFile) (u : Fin 7 → Int) (bound : Fields Progs Wet)
    (h : initialize_impl ext self comm fs u bound = .ok s) : s.step_ = 0 := by
  unfold initialize_impl at h
  split at h
  · cases h
  · cases h; rfl

/-- C1: in `run_impl`, for every level count `nlev_`, every configured `o3_lbl`,
every column and every level index `k` with `0 ≤ k < nlev_`, the surface-sink
relaxation `lin_strat_sfcsink_kk` is invoked at level `k` if and only if
`k > nlev_ - o3_lbl - 1`: it is among the kernels called there exactly then;
behind the guard the ozone entry of `vmr` is what the kernel returns for it
and elsewhere `vmr` is carried on untouched, the level not depending on the
kernel at all; the `vmr` so obtained is the one checked, converted and
written to the prognostics, which `run_impl` hands on level by level and
postprocesses. -/
theorem sfcsink_invoked_iff (ext : Externals Progs SetsoxCfg Wet n)
    (self : MAMMicrophysics Progs SetsoxCfg Wet) (dt : Real) (ind : Indeterminate)
    (icol k : Nat) (hcol : (icol : Int) < self.ncol_) (hk : (k : Int) < self.nlev_) :
    ((icol, k, Call.lin_strat_sfcsink_kk) ∈ (run_impl_calls ext self dt ind).2
        ↔ (k : Int) > self.nlev_ - self.config_.linoz.o3_lbl - 1)
      ∧ (∀ progs : Progs,
          (run_level ext self dt ind icol k progs).vmr_before_check
            = if (k : Int) > self.nlev_ - self.config_.linoz.o3_lbl - 1 then
                update_ref (run_level ext self dt ind icol k progs).vmr_before_sink
                  (ind.o3_ndx icol k)
                  (fun o3 => ext.lin_strat_sfcsink_kk dt
                    ((column_data ext self (ext.preprocess self.fields) ind icol).atm.hydrostatic_dp
                      k)
                    o3 self.config_.linoz.o3_sfc self.config_.linoz.o3_tau)
              else (run_level ext self dt ind icol k progs).vmr_before_sink)
      ∧ (∀ (g : Real → Real → Real → Real → Real → Real) (progs : Progs),
          (run_level { ext with lin_strat_sfcsink_kk := g } self dt ind icol k
              progs).vmr_before_sink
            = (run_level ext self dt ind icol k progs).vmr_before_sink)
      ∧ (¬ (k : Int) > self.nlev_ - self.config_.linoz.o3_lbl - 1 →
          ∀ (g : Real → Real → Real → Real → Real → Real) (progs : Progs),
            run_level { ext with lin_strat_sfcsink_kk := g } self dt ind icol k progs
              = run_level ext self dt ind icol k progs)
      ∧ (∀ progs : Progs,
          (run_level ext self dt ind icol k progs).progs
            = ext.transfer_work_arrays_to_prognostics
                (ext.convert_work_arrays_to_mmr
                  (reset_negative_values
                    (run_level ext self dt ind icol k progs).vmr_before_check)
                  (run_level ext self dt ind icol k progs).vmrcw).1
                (ext.convert_work_arrays_to_mmr
                  (reset_negative_values
                    (run_level ext self dt ind icol k progs).vmr_before_check)
                  (run_level ext self dt ind icol k progs).vmrcw).2
                progs k)
      ∧ (run_impl ext self dt ind).fields
          = ext.postprocess
              { ext.preprocess self.fields with
                interstitial_aerosols_for_column := fun icol =>
                  if (icol : Int) < self.ncol_ then
                    (List.range self.nlev_.toNat).foldl
                      (fun progs k => (run_level ext self dt ind icol k progs).progs)
                      ((ext.preprocess self.fields).interstitial_aerosols_for_column icol)
                  else (ext.preprocess self.fields).interstitial_aerosols_for_column icol } := by
  refine ⟨?_, fun progs => level_kernel_sink_flow _ _ _ _ _ _ _ _ _ _ _, fun _ _ => rfl,
    fun h g progs => ?_, fun progs => rfl, run_impl_fields ext self dt ind⟩
  · rw [sfcsink_mem_run_impl_calls]
    exact ⟨fun h => h.2.2, fun h => ⟨hcol, hk, h⟩⟩
  · exact level_kernel_congr_sfcsink ext g _ _ _ _ _ _ _ _ _ _ h

/-- Witness of C1: level 1 of a column of two levels with `o3_lbl = 1`. -/
theorem sfcsink_invoked_iff_witness :
    ((0 : Nat) : Int) < (sample_process 2 1).ncol_
      ∧ ((1 : Nat) : Int) < (sample_process 2 1).nlev_
      ∧ ((0, 1, Call.lin_strat_sfcsink_kk) ∈
            (run_impl_calls relaxing_externals (sample_process 2 1) 1800
              sample_indeterminate).2
          ↔ ((1 : Nat) : Int) >
              (sample_process 2 1).nlev_ - (sample_process 2 1).config_.linoz.o3_lbl - 1) :=
  ⟨by decide, by decide,
    (sfcsink_invoked_iff relaxing_externals (sample_process 2 1) 1800 sample_indeterminate
      0 1 (by decide) (by decide)).1⟩

theorem reset_fold_apply {n : Nat} {α : Type} [Zero α] [LT α]
    [∀ a b : α, Decidable (a < b)] (l : List (Fin n)) (hl : l.Nodup) (v : Fin n → α)
    (j : Fin n) :
    l.foldl (fun v i => if v i < 0 then Function.update v i 0 else v) v j
      = if j ∈ l then (if v j < 0 then 0 else v j) else v j := by
  induction l generalizing v with
  | nil => simp
  | cons a l ih =>
    obtain ⟨ha, hl⟩ := List.nodup_cons.mp hl
    rw [List.foldl_cons, ih hl]
    by_cases hj : j = a
    · subst hj
      rw [if_neg ha, if_pos (List.mem_cons_self _ _)]
      by_cases h : v j < 0
      · rw [if_pos h, if_pos h, Function.update_same]
      · rw [if_neg h, if_neg h]
    · have e : (if v a < 0 then Function.update v a 0 else v) j = v j := by
        by_cases h : v a < 0
        · rw [if_pos h, Function.update_noteq hj]
        · rw [if_neg h]
      rw [e]
      by_cases hm : j ∈ l
      · rw [if_pos hm, if_pos (List.mem_cons_of_mem _ hm)]
      · rw [if_neg hm, if_neg (by simp [hj, hm])]

/-- The negative-value check, entry by entry, on any type of entries. -/
theorem reset_negative_values_apply {n : Nat} {α : Type} [Zero α] [LT α]
    [∀ a b : α, Decidable (a < b)] (vmr : Fin n → α) (i : Fin n) :
    reset_negative_values vmr i = if vmr i < 0 then 0 else vmr i := by
  unfold reset_negative_values
  rw [reset_fold_apply _ (List.nodup_finRange n), if_pos (List.mem_finRange i)]

/-- Counterexample to C2: the working array of doubles `[NaN, -1]`. The test
`vmr[i] < 0.0` is false for the NaN, which the check therefore keeps: after
the check the entry 0 is still the NaN, which is not `≥ 0`, while the entry
1 has become 0. -/
theorem nan_survives_negative_check :
    reset_negative_values nan_array 0 = Double.nan
      ∧ ¬ (0 ≤ reset_negative_values nan_array 0)
      ∧ reset_negative_values nan_array 1 = 0 := by
  refine ⟨?_, ?_, ?_⟩
  · rw [reset_negative_values_apply]
    rfl
  · rw [reset_negative_values_apply]
    decide
  · rw [reset_negative_values_apply]
    have h : nan_array 1 < 0 := by
      show Double.lt (Double.finite (-1)) (Double.finite 0) = true
      simp [Double.lt]
    rw [if_pos h]

/-- C2, amended: after the negative-value check in the level body of
`run_impl` no entry of `vmr` is `< 0` at the point where it is converted back
to mass mixing ratios and written to the prognostics: for every input
working array of doubles, every one of the `gas_pcnst` entries that is not a
NaN is `≥ 0` after the check, and an entry is a NaN after the check exactly
when it was one before. On arrays of numbers the check is the one of the
level kernel, where, whatever the kernels and the inputs, the `vmr` that is
converted and written to the prognostics is the output of the check. -/
theorem vmr_nonneg_at_conversion (ext : Externals Progs SetsoxCfg Wet n)
    (config_ : Config SetsoxCfg) (step_ nlev_ : Int) (dt t : Real) (o3_ndx : Int)
    (clim : LinozClimatology) (col : ColumnData) (progs : Progs) (k : Nat) :
    (∀ (m : Nat) (vmr : Fin m → Double) (i : Fin m),
        ¬ (reset_negative_values vmr i < 0)
        ∧ (reset_negative_values vmr i = Double.nan ↔ vmr i = Double.nan)
        ∧ (reset_negative_values vmr i ≠ Double.nan → 0 ≤ reset_negative_values vmr i))
      ∧ (∀ vmr : WorkArray n,
          reset_negative_values (fun i => Double.finite (vmr i))
            = fun i => Double.finite (reset_negative_values vmr i))
      ∧ (fun i => Double.finite
            ((level_kernel ext config_ step_ nlev_ dt t o3_ndx clim col progs k).vmr i))
          = reset_negative_values (fun i => Double.finite
              ((level_kernel ext config_ step_ nlev_ dt t o3_ndx clim col progs k).vmr_before_check
                i))
      ∧ (level_kernel ext config_ step_ nlev_ dt t o3_ndx clim col progs k).vmr
          = reset_negative_values
              (level_kernel ext config_ step_ nlev_ dt t o3_ndx clim col progs k).vmr_before_check
      ∧ (level_kernel ext config_ step_ nlev_ dt t o3_ndx clim col progs k).progs
          = ext.transfer_work_arrays_to_prognostics
              (ext.convert_work_arrays_to_mmr
                (level_kernel ext config_ step_ nlev_ dt t o3_ndx clim col progs k).vmr
                (level_kernel ext config_ step_ nlev_ dt t o3_ndx clim col progs k).vmrcw).1
              (ext.convert_work_arrays_to_mmr
                (level_kernel ext config_ step_ nlev_ dt t o3_ndx clim col progs k).vmr
                (level_kernel ext config_ step_ nlev_ dt t o3_ndx clim col progs k).vmrcw).2
              progs k := by
  have hfin : ∀ vmr : WorkArray n,
      reset_negative_values (fun i => Double.finite (vmr i))
        = fun i => Double.finite (reset_negative_values vmr i) := by
    intro vmr
    funext i
    rw [reset_negative_values_apply, reset_negative_values_apply]
    by_cases h : vmr i < 0
    · have h1 : Double.finite (vmr i) < 0 := by
        show Double.lt (Double.finite (vmr i)) (Double.finite 0) = true
        simp [Double.lt, h]
      rw [if_pos h, if_pos h1]
      rfl
    · have h1 : ¬ Double.finite (vmr i) < 0 := by
        show ¬ Double.lt (Double.finite (vmr i)) (Double.finite 0) = true
        simp [Double.lt, not_lt.mp h]
      rw [if_neg h, if_neg h1]
  refine ⟨fun m vmr i => ?_, hfin, (hfin _).symm, rfl, rfl⟩
  · rw [reset_negative_values_apply]
    have h0 : ¬ ((0 : Double) < 0) := by decide
    have h00 : (0 : Double) ≤ 0 := by decide
    have hz : (0 : Double) ≠ Double.nan := by decide
    by_cases h : vmr i < 0
    · rw [if_pos h]
      refine ⟨h0, ⟨fun e => absurd e hz, fun e => ?_⟩, fun _ => h00⟩
      rw [e] at h
      exact absurd h (by decide)
    · rw [if_neg h]
      refine ⟨h, Iff.rfl, fun hn => ?_⟩
      cases hv : vmr i with
      | nan => exact absurd hv hn
      | neg_inf => rw [hv] at h; exact absurd (by decide) h
      | pos_inf => decide
      | finite x =>
        rw [hv] at h
        have hx : ¬ x < 0 := fun hx => h (by
          show Double.lt (Double.finite x) (Double.finite 0) = true
          simp [Double.lt, hx])
        show Double.le (Double.finite 0) (Double.finite x) = true
        simp [Double.le, not_lt.mp hx]

/-- Counterexample to C3: after `initialize_impl` and one call of `run_impl`
the step counter is 0, not 1. -/
theorem step_counter_not_incremented :
    (initialize_impl sample_externals (sample_process 2 1) root_comm sample_fs
        (fun _ => 0) sample_fields).map
        (fun s => (run_steps sample_externals (fun _ => sample_indeterminate)
          [1800] s).step_) = Except.ok 0
      ∧ (0 : Int) ≠ (([1800] : List Real).length : Int) :=
  ⟨rfl, by decide⟩

/-- C3, amended: `initialize_impl` sets the step counter to 0 and `run_impl`
leaves it as it is, so after `initialize_impl` followed by any number of
calls of `run_impl` the step counter is 0. -/
theorem step_counter_stays_zero (ext : Externals Progs SetsoxCfg Wet n)
    (self s : MAMMicrophysics Progs SetsoxCfg Wet) (comm : Comm)
    (fs : String → Option NcFile) (u : Fin 7 → Int) (bound : Fields Progs Wet)
    (h : initialize_impl ext self comm fs u bound = .ok s)
    (dts : List Real) (inds : Nat → Indeterminate) :
    (run_steps ext inds dts s).step_ = 0
      ∧ ∀ dt ind, (run_impl ext (run_steps ext inds dts s) dt ind).step_
          = (run_steps ext inds dts s).step_ := by
  refine ⟨?_, fun dt ind => rfl⟩
  rw [run_steps_step_]
  exact initialize_impl_step_ ext self s comm fs u bound h

/-- Witness of the amended C3: three calls of `run_impl` on the sample
process, which starts with the counter at 7. -/
theorem step_counter_stays_zero_witness :
    ∃ s, initialize_impl sample_externals (sample_process 2 1) root_comm sample_fs
          (fun _ => 0) sample_fields = .ok s
      ∧ (run_steps sample_externals (fun _ => sample_indeterminate)
          [1800, 1800, 1800] s).step_ = 0 :=
  ⟨_, rfl,
    (step_counter_stays_zero sample_externals (sample_process 2 1) _ root_comm sample_fs
      (fun _ => 0) sample_fields rfl [1800, 1800, 1800]
      (fun _ => sample_indeterminate)).1⟩

/-- C9: when the configured `o3_lbl` is 0 and `nlev_ ≥ 1`, the surface-sink
relaxation is not invoked at the surface level `nlev_ - 1`, nor at any other
level `k < nlev_`, in any column: the kernel is not among the calls there,
every level carries the `vmr` it has after the ozone solver on to the
negative-value check untouched, and the whole run, fields and calls, is the
same whatever kernel stands for `lin_strat_sfcsink_kk`. -/
theorem sfcsink_never_invoked_of_o3_lbl_zero (ext : Externals Progs SetsoxCfg Wet n)
    (self : MAMMicrophysics Progs SetsoxCfg Wet) (dt : Real) (ind : Indeterminate)
    (h0 : self.config_.linoz.o3_lbl = 0) (_hn : 1 ≤ self.nlev_) :
    (∀ icol, (icol, (self.nlev_ - 1).toNat, Call.lin_strat_sfcsink_kk)
        ∉ (run_impl_calls ext self dt ind).2)
      ∧ (∀ icol k : Nat, (k : Int) < self.nlev_ →
          (icol, k, Call.lin_strat_sfcsink_kk) ∉ (run_impl_calls ext self dt ind).2)
      ∧ (∀ (icol k : Nat) (progs : Progs), (k : Int) < self.nlev_ →
          (run_level ext self dt ind icol k progs).vmr_before_check
            = (run_level ext self dt ind icol k progs).vmr_before_sink)
      ∧ (∀ g : Real → Real → Real → Real → Real → Real,
          run_impl_calls { ext with lin_strat_sfcsink_kk := g } self dt ind
            = run_impl_calls ext self dt ind) := by
  refine ⟨?_, ?_, ?_, ?_⟩
  · intro icol h
    rw [sfcsink_mem_run_impl_calls] at h
    omega
  · intro icol k _ h
    rw [sfcsink_mem_run_impl_calls] at h
    omega
  · intro icol k progs hk
    unfold run_level
    rw [level_kernel_sink_flow, if_neg (by omega)]
  · intro g
    exact run_impl_calls_congr_sfcsink ext g self dt ind (fun k hk => by omega)

/-- Witness of C9: a column of two levels with `o3_lbl = 0`, and a sink
kernel that would raise the ozone by five: the run is the one with a sink
kernel that does nothing. -/
theorem sfcsink_never_invoked_of_o3_lbl_zero_witness :
    (sample_process 2 0).config_.linoz.o3_lbl = 0 ∧ 1 ≤ (sample_process 2 0).nlev_
      ∧ run_impl_calls
            { relaxing_externals with lin_strat_sfcsink_kk := fun _ _ o3 _ _ => o3 }
            (sample_process 2 0) 1800 sample_indeterminate
          = run_impl_calls relaxing_externals (sample_process 2 0) 1800
              sample_indeterminate :=
  ⟨rfl, by decide,
    (sfcsink_never_invoked_of_o3_lbl_zero relaxing_externals (sample_process 2 0) 1800
      sample_indeterminate rfl (by decide)).2.2.2 (fun _ _ o3 _ _ => o3)⟩

/-- Counterexample to C10: with `nlev_ = 2` and `o3_lbl = 1` the sink is
invoked at level 1, the surface, which is not within one level of the top
(`1 < o3_lbl` fails), and not at level 0, the top: with a sink kernel that
raises the ozone by five, the run takes the tracer 0 from 1/2 to 11/2 at
level 1 and leaves it at 1/2 at level 0. -/
theorem sfcsink_invoked_at_surface :
    (0 : Int) ≤ (sample_process 2 1).config_.linoz.o3_lbl
      ∧ (sample_process 2 1).config_.linoz.o3_lbl ≤ (sample_process 2 1).nlev_
      ∧ (0, 1, Call.lin_strat_sfcsink_kk)
          ∈ (run_impl_calls relaxing_externals (sample_process 2 1) 1800
              sample_indeterminate).2
      ∧ ¬ ((1 : Nat) : Int) < (sample_process 2 1).config_.linoz.o3_lbl
      ∧ (0, 0, Call.lin_strat_sfcsink_kk)
          ∉ (run_impl_calls relaxing_externals (sample_process 2 1) 1800
              sample_indeterminate).2
      ∧ (sample_process 2 1).fields.interstitial_aerosols_for_column 0 1 0 = 1 / 2
      ∧ (run_impl relaxing_externals (sample_process 2 1) 1800
          sample_indeterminate).fields.interstitial_aerosols_for_column 0 1 0 = 11 / 2
      ∧ (run_impl relaxing_externals (sample_process 2 1) 1800
          sample_indeterminate).fields.interstitial_aerosols_for_column 0 0 0 = 1 / 2 := by
  refine ⟨by decide, by decide, by decide, by decide, by decide, rfl, ?_, ?_⟩
  · have e : List.range 2 = [0, 1] := rfl
    simp [run_impl, run_impl_calls, column_kernel, column_data, level_kernel, invoke,
      sample_process, relaxing_externals, sample_externals, sample_fields,
      sample_indeterminate, reset_negative_values_eq, update_ref,
      above_ozone_decay_threshold, e]
    norm_num
  · have e : List.range 2 = [0, 1] := rfl
    simp [run_impl, run_impl_calls, column_kernel, column_data, level_kernel, invoke,
      sample_process, relaxing_externals, sample_externals, sample_fields,
      sample_indeterminate, reset_negative_values_eq, update_ref,
      above_ozone_decay_threshold, e]

/-- C10, amended: taking level index 0 as the top boundary and `nlev_ - 1` as
the surface, every level `k` at which `lin_strat_sfcsink_kk` is invoked lies
within `o3_lbl` levels of the surface (`nlev_ - o3_lbl ≤ k ≤ nlev_ - 1`), for
every `nlev_` and every `o3_lbl` with `0 ≤ o3_lbl ≤ nlev_`: the kernel is
among the calls of such levels only, and a level further from the surface
(`k < nlev_ - o3_lbl`) carries its `vmr` past the sink untouched and is the
same whatever kernel stands for `lin_strat_sfcsink_kk`. -/
theorem sfcsink_only_near_surface (ext : Externals Progs SetsoxCfg Wet n)
    (self : MAMMicrophysics Progs SetsoxCfg Wet) (dt : Real) (ind : Indeterminate)
    (_h0 : 0 ≤ self.config_.linoz.o3_lbl)
    (_h1 : self.config_.linoz.o3_lbl ≤ self.nlev_) (icol k : Nat) :
    ((icol, k, Call.lin_strat_sfcsink_kk) ∈ (run_impl_calls ext self dt ind).2 →
        self.nlev_ - self.config_.linoz.o3_lbl ≤ (k : Int) ∧ (k : Int) ≤ self.nlev_ - 1)
      ∧ ((k : Int) < self.nlev_ - self.config_.linoz.o3_lbl →
          ∀ progs : Progs,
            (run_level ext self dt ind icol k progs).vmr_before_check
                = (run_level ext self dt ind icol k progs).vmr_before_sink
              ∧ ∀ g : Real → Real → Real → Real → Real → Real,
                  run_level { ext with lin_strat_sfcsink_kk := g } self dt ind icol k progs
                    = run_level ext self dt ind icol k progs) := by
  constructor
  · intro h
    rw [sfcsink_mem_run_impl_calls] at h
    omega
  · intro hk progs
    constructor
    · unfold run_level
      rw [level_kernel_sink_flow, if_neg (by omega)]
    · intro g
      exact level_kernel_congr_sfcsink ext g _ _ _ _ _ _ _ _ _ _ (by omega)

/-- Witness of the amended C10: level 1 of two, with `o3_lbl = 1`. -/
theorem sfcsink_only_near_surface_witness :
    (0, 1, Call.lin_strat_sfcsink_kk)
        ∈ (run_impl_calls relaxing_externals (sample_process 2 1) 1800
            sample_indeterminate).2
      ∧ (sample_process 2 1).nlev_ - (sample_process 2 1).config_.linoz.o3_lbl
          ≤ ((1 : Nat) : Int)
      ∧ ((1 : Nat) : Int) ≤ (sample_process 2 1).nlev_ - 1 :=
  ⟨by decide,
    (sfcsink_only_near_surface relaxing_externals (sample_process 2 1) 1800
      sample_indeterminate (by decide) (by decide) 0 1).1 (by decide)⟩

end claims_run

/-! ## The photolysis table reader -/

/-- C5: the seven table dimensions are packed on the root and unpacked on
every other rank in the same order: when the root has read the dimensions `d`
and sent the buffer `buf`, then `buf` is `d` packed, unpacking it gives `d`
back, and every other rank obtains exactly `d`, whatever its own files and
the prior content of its `dim_data`. -/
theorem dim_data_roundtrip (fs : String → Option NcFile) (rsf_file xs_long_file : String)
    (u : Fin 7 → Int) (comm0 : Comm) (h0 : comm0.rank = mpi_root)
    (files : Option (NcFile × NcFile)) (d : TableDims) (buf : List Int)
    (hroot : read_dim_data comm0 fs rsf_file xs_long_file u = .ok (files, d, buf))
    (comm : Comm) (hr : comm.rank ≠ mpi_root) (hs : comm.root_sends.dim_data = buf)
    (fs1 : String → Option NcFile) (u1 : Fin 7 → Int) :
    buf = pack_dim_data d ∧ unpack_dim_data (pack_dim_data d) = d
      ∧ read_dim_data comm fs1 rsf_file xs_long_file u1 = .ok (none, d, buf) := by
  obtain ⟨_, _, _, _, _, hbuf, _⟩ := read_dim_data_root h0 hroot
  subst hbuf
  exact ⟨rfl, rfl, read_dim_data_other comm hr d hs fs1 rsf_file xs_long_file u1⟩

/-- Witness of C5: rank 1 receives the dimensions of the sample files. -/
theorem dim_data_roundtrip_witness :
    read_dim_data (rank_one_comm { no_broadcasts with dim_data := [2, 2, 2, 2, 1, 1, 2] })
        (fun _ => none) "rsf.nc" "xs_long.nc" (fun _ => 99)
      = .ok (none,
          { nw := 1, nump := 2, numsza := 2, numcolo3 := 2, numalb := 2, nt := 1,
            np_xs := 2 },
          [2, 2, 2, 2, 1, 1, 2]) :=
  (dim_data_roundtrip sample_fs "rsf.nc" "xs_long.nc" (fun _ => 0) root_comm rfl
    (some (sample_rsf, sample_xs_long))
    { nw := 1, nump := 2, numsza := 2, numcolo3 := 2, numalb := 2, nt := 1, np_xs := 2 }
    [2, 2, 2, 2, 1, 1, 2] rfl
    (rank_one_comm { no_broadcasts with dim_data := [2, 2, 2, 2, 1, 1, 2] })
    (by decide) rfl (fun _ => none) (fun _ => 99)).2.2

/-- C6: `populate_etfphot` sets every element of `etfphot` to zero, for every
edge array `we` and every prior content of `etfphot`; its output depends on
neither. -/
theorem populate_etfphot_zero (we etfphot : List Real) :
    (populate_etfphot we etfphot).length = etfphot.length
      ∧ (∀ i, i < etfphot.length → (populate_etfphot we etfphot).getD i 1 = 0)
      ∧ populate_etfphot we etfphot = List.replicate etfphot.length 0
      ∧ (∀ we1 etfphot1 : List Real, etfphot1.length = etfphot.length →
          populate_etfphot we1 etfphot1 = populate_etfphot we etfphot) := by
  have key : ∀ (w e : List Real), populate_etfphot w e = List.replicate e.length 0 := by
    intro w e
    unfold populate_etfphot deep_copy_scalar
    induction e with
    | nil => rfl
    | cons a e ih => simp [List.replicate_succ, ih]
  refine ⟨by simp [key], fun i hi => ?_, key _ _, fun we1 e1 h => by rw [key, key, h]⟩
  rw [key, List.getD_eq_getElem?_getD, List.getElem?_replicate]
  simp [hi]

/-- C4: with a broadcast that copies the buffer of the root to every rank,
`read_photo_table` returns on every other rank, whatever that rank finds in
its own file system and memory, the very table it returns on the root:
every field, the derived inverse spacings included, is the same. -/
theorem photo_table_same_on_every_rank (phtcnt : Nat) (fs : String → Option NcFile)
    (rsf_file xs_long_file : String) (u : Fin 7 → Int) (comm0 : Comm)
    (h0 : comm0.rank = mpi_root) (T : PhotoTableData) (B : Broadcasts)
    (hroot : read_photo_table phtcnt comm0 fs rsf_file xs_long_file u = .ok (T, B))
    (comm : Comm) (hr : comm.rank ≠ mpi_root) (hs : comm.root_sends = B)
    (fs1 : String → Option NcFile) (u1 : Fin 7 → Int) :
    ∃ B1, read_photo_table phtcnt comm fs1 rsf_file xs_long_file u1 = .ok (T, B1) := by
  obtain ⟨rsf, xs, d, lng1, pht1, h1, e1, e2, e3, hT, hB⟩ := read_photo_table_root h0 hroot
  obtain ⟨_, hlen⟩ := read_file_data_ok e3
  have hd : comm.root_sends.dim_data = pack_dim_data d := by rw [hs, hB]
  have hlng : comm.root_sends.lng_indexer = lng1 := by rw [hs, hB]
  have hpht : comm.root_sends.pht_alias_mult_1 = pht1 := by rw [hs, hB]
  have hviews := broadcast_host_views_other comm hr d (compute_numj phtcnt lng1) h1
    (by rw [hs, hB]; exact ⟨rfl, rfl, rfl, rfl, rfl, rfl, rfl, rfl, rfl⟩) hlen
  -- the lengths of the two small views the root sends
  unfold set_lng_indexer_and_pht_alias_mult_1 at e2
  split at e2
  · cases e2
  · next lng hloop =>
    simp only [Except.ok.injEq, Prod.mk.injEq] at e2
    obtain ⟨el, ep⟩ := e2
    subst el
    have hl1 : lng.length = phtcnt := by
      rw [set_lng_indexer_loop_length _ _ _ _ _ hloop, length_new_view, view_size_one]
      simp
    have hp1 : pht1.length = 2 := by
      rw [← ep]
      simp [deep_copy_scalar, length_new_view, view_size_one]
    unfold read_photo_table
    rw [read_dim_data_other comm hr d hd fs1 rsf_file xs_long_file u1]
    simp only [bind, Except.bind, pure, Except.pure]
    rw [hlng, hpht,
      broadcast_other comm hr lng _ _ (by simp [hl1])
        (by simp [length_new_view, view_size_one]),
      broadcast_other comm hr pht1 _ _ (by simp [hp1])
        (by simp [length_new_view, view_size_one]),
      hviews, hT]
    exact ⟨_, rfl⟩

/-- The run of the root on the sample files. -/
theorem sample_root_run :
    read_photo_table 1 root_comm sample_fs "rsf.nc" "xs_long.nc" (fun _ => 0)
        = .ok (sample_table, sample_broadcasts) := by
  have h : read_photo_table 1 root_comm sample_fs "rsf.nc" "xs_long.nc" (fun _ => 0)
      = .ok (fill_table
          { nw := 1, nump := 2, numsza := 2, numcolo3 := 2, numalb := 2, nt := 1,
            np_xs := 2 }
          0
          { rsf_tab_h := [1, 2, 3, 4, 5, 6, 7, 8, 9, 10, 11, 12, 13, 14, 15, 16]
            xsqy_h := [], sza_h := [0, 1], alb_h := [0, 1], press_h := [1000, 500]
            colo3_h := [3, 4], o3rat_h := [1, 2], etfphot_h := [0], prs_h := [900, 100] }
          [1, 1] [1], sample_broadcasts) := rfl
  rw [h]
  have e : (List.range 1) = [0] := rfl
  simp [fill_table, sample_table, e]
  norm_num [abs_of_pos]

/-- Witness of C4: rank 1, with no files of its own, builds the table the
root builds from the sample files. -/
theorem photo_table_same_on_every_rank_witness :
    read_photo_table 1 root_comm sample_fs "rsf.nc" "xs_long.nc" (fun _ => 0)
        = .ok (sample_table, sample_broadcasts)
      ∧ ∃ B1, read_photo_table 1 (rank_one_comm sample_broadcasts) (fun _ => none)
          "rsf.nc" "xs_long.nc" (fun _ => 99) = .ok (sample_table, B1) :=
  ⟨sample_root_run,
    photo_table_same_on_every_rank 1 sample_fs "rsf.nc" "xs_long.nc" (fun _ => 0)
      root_comm rfl sample_table sample_broadcasts sample_root_run
      (rank_one_comm sample_broadcasts) (by decide) rfl (fun _ => none) (fun _ => 99)⟩

/-- Counterexample to C7: for a dimension `numz` of length `2^31` the
function `nc_dimension` returns `-2^31`, what `static_cast<int>` makes of
the length, and not the length. -/
theorem nc_dimension_wraps_long_dimension :
    long_dimension_file.dims "numz" = some 2147483648
      ∧ nc_dimension "rsf.nc" long_dimension_file "numz" = .ok (-2147483648)
      ∧ (-2147483648 : Int) ≠ ((2147483648 : Nat) : Int) := by
  refine ⟨rfl, ?_, by decide⟩
  have h : long_dimension_file.dims "numz" = some 2147483648 := rfl
  have e : static_cast_int 2147483648 = -2147483648 := by decide
  simp only [nc_dimension, h, e]

/-- C7, amended: `nc_dimension` raises when the named dimension is absent and
returns its length converted by `static_cast<int>`, which is the length
itself below `2^31`, when it exists; `read_nc_var` raises when the named
variable is absent; and `read_photo_table` fails on the root whenever one of
the seven dimensions or nine variables is missing from the file it is read
from. -/
theorem missing_name_is_fatal :
    (∀ (file : String) (nc : NcFile) (name : String), nc.dims name = none →
        ∃ e, nc_dimension file nc name = .error e)
      ∧ (∀ (file : String) (nc : NcFile) (name : String) (len : Nat),
          nc.dims name = some len →
            nc_dimension file nc name = .ok (static_cast_int len)
              ∧ (len < 2 ^ 31 → static_cast_int len = (len : Int)))
      ∧ (∀ (file : String) (nc : NcFile) (name : String) (host_view : List Real),
          nc.varid name = none → ∃ e, read_nc_var file nc name host_view = .error e)
      ∧ (∀ (phtcnt : Nat) (comm : Comm) (fs : String → Option NcFile)
          (rsf_file xs_long_file : String) (u : Fin 7 → Int) (rsf xs_long : NcFile),
          comm.rank = mpi_root → fs rsf_file = some rsf →
          fs xs_long_file = some xs_long →
          ((∃ name ∈ ["numz", "numsza", "numalb", "numcolo3fact"], rsf.dims name = none)
            ∨ (∃ name ∈ ["numtemp", "numwl", "numprs"], xs_long.dims name = none)
            ∨ (∃ name ∈ ["pm", "sza", "alb", "colo3fact", "colo3", "RSF", "wc", "wlintv"],
                rsf.varid name = none)
            ∨ xs_long.varid "pressure" = none) →
          ∃ e, read_photo_table phtcnt comm fs rsf_file xs_long_file u = .error e) := by
  refine ⟨?_, ?_, ?_, ?_⟩
  · intro file nc name h
    simp [nc_dimension, h]
  · intro file nc name len h
    refine ⟨by simp [nc_dimension, h], fun hlt => ?_⟩
    unfold static_cast_int
    have hmod : len % 2 ^ 32 = len := Nat.mod_eq_of_lt (by omega)
    rw [hmod, if_pos hlt]
  · intro file nc name host_view h
    simp [read_nc_var, h]
  · intro phtcnt comm fs rsf_file xs_long_file u rsf xs_long h0 hrsf hxs hmiss
    cases hres : read_photo_table phtcnt comm fs rsf_file xs_long_file u with
    | error e => exact ⟨e, rfl⟩
    | ok p =>
      exfalso
      obtain ⟨T, B⟩ := p
      obtain ⟨rsf1, xs1, d, lng1, pht1, h1, e1, _, e3, _, _⟩ := read_photo_table_root h0 hres
      obtain ⟨rsf2, xs2, f1, f2, hf, _, d1, d2, d3, d4, d5, d6, d7⟩ :=
        read_dim_data_root h0 e1
      obtain ⟨⟨v1, v2, v3, v4, v5, v6, v7, v8, v9⟩, _⟩ := read_file_data_ok e3
      simp only [Option.some.injEq, Prod.mk.injEq] at hf
      obtain ⟨hf1, hf2⟩ := hf
      subst hf1 hf2
      rw [hrsf] at f1
      rw [hxs] at f2
      cases f1
      cases f2
      rcases hmiss with ⟨name, hmem, habs⟩ | ⟨name, hmem, habs⟩ | ⟨name, hmem, habs⟩ | habs
      · simp only [List.mem_cons, List.mem_singleton, List.not_mem_nil, or_false] at hmem
        rcases hmem with rfl | rfl | rfl | rfl <;> simp_all
      · simp only [List.mem_cons, List.mem_singleton, List.not_mem_nil, or_false] at hmem
        rcases hmem with rfl | rfl | rfl <;> simp_all
      · simp only [List.mem_cons, List.mem_singleton, List.not_mem_nil, or_false] at hmem
        rcases hmem with rfl | rfl | rfl | rfl | rfl | rfl | rfl | rfl <;> simp_all
      · exact v7 habs

/-- Witness of C7: the root fails on a file without `wc`. -/
theorem missing_name_is_fatal_witness :
    rsf_without_wc.varid "wc" = none
      ∧ ∃ e, read_photo_table 1 root_comm
          (fun path => if path = "rsf.nc" then some rsf_without_wc else sample_fs path)
          "rsf.nc" "xs_long.nc" (fun _ => 0) = .error e :=
  ⟨rfl,
    missing_name_is_fatal.2.2.2 1 root_comm
      (fun path => if path = "rsf.nc" then some rsf_without_wc else sample_fs path)
      "rsf.nc" "xs_long.nc" (fun _ => 0) rsf_without_wc sample_xs_long rfl rfl rfl
      (Or.inr (Or.inr (Or.inl ⟨"wc", by decide, rfl⟩)))⟩

/-- Counterexample to C8: with `phtcnt = 1` and a file from which three of
the four names are absent the function succeeds. -/
theorem set_lng_indexer_succeeds_without_usr :
    xs_long_jh2o2_only.varid "usr_HO2_HO2" = none
      ∧ xs_long_jh2o2_only.varid "usr_SO2_OH" = none
      ∧ xs_long_jh2o2_only.varid "usr_DMS_OH" = none
      ∧ set_lng_indexer_and_pht_alias_mult_1 1 "xs_long.nc" xs_long_jh2o2_only [0] [0, 0]
          = .ok ([1], [1, 1]) := by
  refine ⟨rfl, rfl, rfl, rfl⟩

/-- C8, amended: `set_lng_indexer_and_pht_alias_mult_1` fails if the name
`var_names[m]` of any reaction `m < phtcnt` is absent from the cross-section
file, for every value of `phtcnt`; in particular it fails if any of the four
names is absent when `phtcnt ≥ 4`. -/
theorem set_lng_indexer_fails_of_absent (phtcnt : Nat) (file : String) (nc : NcFile)
    (lng_indexer : List Int) (pht_alias_mult_1 : List Real) (m : Nat) (name : String)
    (hm : m < phtcnt) (hname : var_names[m]? = some name)
    (habs : nc.varid name = none) :
    ∃ e, set_lng_indexer_and_pht_alias_mult_1 phtcnt file nc lng_indexer
        pht_alias_mult_1 = .error e := by
  unfold set_lng_indexer_and_pht_alias_mult_1
  obtain ⟨e, he⟩ := set_lng_indexer_loop_error file nc (List.range phtcnt) lng_indexer
    m name (List.mem_range.mpr hm) hname habs
  rw [he]
  exact ⟨e, rfl⟩

/-- Witness of the amended C8: `usr_SO2_OH` is absent and `phtcnt = 4`. -/
theorem set_lng_indexer_fails_of_absent_witness :
    ∃ e, set_lng_indexer_and_pht_alias_mult_1 4 "xs_long.nc" xs_long_jh2o2_only
        [0, 0, 0, 0] [0, 0] = .error e :=
  set_lng_indexer_fails_of_absent 4 "xs_long.nc" xs_long_jh2o2_only [0, 0, 0, 0] [0, 0]
    2 "usr_SO2_OH" (by decide) rfl rfl

/-! ## The size of `xsqy`, its rows and the wavelength edges -/

/-- C11, evaluated: with two columns of one level and one photolysis
reaction, column 0 and column 1 both write `photo_rates(0, 0)`, while the
other cells a column writes are written by that column alone. -/
theorem photo_rates_written_by_two_columns :
    Cell.photo_rates 0 0 ∈ column_writes 1 1 0
      ∧ Cell.photo_rates 0 0 ∈ column_writes 1 1 1
      ∧ (∀ c ∈ column_writes 1 1 0, c ∈ column_writes 1 1 1 → c = Cell.photo_rates 0 0) := by
  decide

/-- C17, evaluated: for one photolysis reaction whose variable has the ID 1
the code computes `numj = 0`, while there is one distinct positive value;
for four reactions with the IDs 1, 2, 3, 4 it computes 6 instead of 4, and
for two reactions that share the ID 5 it computes 0 instead of 1. -/
theorem numj_differs_from_distinct_count :
    compute_numj 1 [1] = 0 ∧ distinct_positive_count 1 [1] = 1
      ∧ compute_numj 4 [1, 2, 3, 4] = 6 ∧ distinct_positive_count 4 [1, 2, 3, 4] = 4
      ∧ compute_numj 2 [5, 5] = 0 ∧ distinct_positive_count 2 [5, 5] = 1 := by
  decide

/-- C18, evaluated: on the sample files (one reaction, `jh2o2` with ID 1)
the read loop takes the row `ndx = 0` of `xsqy`, while the allocated
foremost dimension is `numj = 0`: the row index is not below `numj`. -/
theorem xsqy_row_out_of_bounds :
    set_lng_indexer_and_pht_alias_mult_1 1 "xs_long.nc" sample_xs_long [0] [0, 0]
        = .ok ([1], [1, 1])
      ∧ xsqy_row_accesses [1] (List.range 1) 0 = [0]
      ∧ compute_numj 1 [1] = 0
      ∧ ¬ ((0 : Nat) : Int) < compute_numj 1 [1] := by
  refine ⟨rfl, by decide, by decide, by decide⟩

/-- C19, evaluated: when `jh2o2` is the first variable of the file, with ID
0, its lookup succeeds with `lng_indexer = [0]`, and the read loop reads no
reaction: it takes no row and leaves `xsqy_h` as it was. -/
theorem reaction_with_id_zero_not_read :
    set_lng_indexer_and_pht_alias_mult_1 1 "xs_long.nc" xs_long_jh2o2_first [0] [0, 0]
        = .ok ([0], [1, 1])
      ∧ xs_long_jh2o2_first.vardata 0 = some [5, 6]
      ∧ xsqy_reactions_read [0] (List.range 1) = []
      ∧ xsqy_row_accesses [0] (List.range 1) 0 = []
      ∧ read_xsqy_loop "xs_long.nc" xs_long_jh2o2_first [0] 2 (List.range 1) 0 [0, 0]
          = .ok [0, 0] := by
  refine ⟨rfl, rfl, by decide, by decide, rfl⟩

/-- C20, evaluated: for one bin with centre 300 and width 10 the edges are
`[295, 295]`: the last edge repeats the lower edge of the last bin, so that
`we(nw) - we(nw-1)` is 0 and not the width 10. -/
theorem last_edge_repeats_lower_edge :
    compute_we 1 [300] [10] = [295, 295]
      ∧ (compute_we 1 [300] [10]).getD 1 0 - (compute_we 1 [300] [10]).getD 0 0 = 0 := by
  have h : compute_we 1 [300] [10] = [295, 295] := by
    have e : List.range 1 = [0] := rfl
    simp [compute_we, new_view, view_size, view_at, e, List.replicate]
    norm_num
  rw [h]
  exact ⟨rfl, by norm_num⟩

/-! ## The inverse spacings of the table -/

/-- On every rank the table `read_photo_table` returns is filled by its last
block from the table dimensions and the host views. -/
theorem read_photo_table_eq_fill_table {phtcnt : Nat} {comm : Comm}
    {fs : String → Option NcFile} {rsf_file xs_long_file : String} {u : Fin 7 → Int}
    {T : PhotoTableData} {B : Broadcasts}
    (h : read_photo_table phtcnt comm fs rsf_file xs_long_file u = .ok (T, B)) :
    ∃ d numj hv pht lng, T = fill_table d numj hv pht lng := by
  unfold read_photo_table at h
  obtain ⟨⟨files, d, dd⟩, _, h⟩ := (bind_eq_ok _ _ _).mp h
  cases files with
  | none =>
    simp only [bind, Except.bind, pure, Except.pure, Except.ok.injEq, Prod.mk.injEq] at h
    exact ⟨_, _, _, _, _, h.1.symm⟩
  | some p =>
    obtain ⟨rsf, xs_long⟩ := p
    simp only [] at h
    obtain ⟨⟨lng1, pht1⟩, _, h⟩ := (bind_eq_ok _ _ _).mp h
    simp only [] at h
    obtain ⟨h1, _, h⟩ := (bind_eq_ok _ _ _).mp h
    simp only [pure, Except.pure, Except.ok.injEq, Prod.mk.injEq] at h
    exact ⟨_, _, _, _, _, h.1.symm⟩

theorem getD_map_range (f : Nat → Real) (m i : Nat) (hi : i < m) :
    ((List.range m).map f).getD i 0 = f i := by
  rw [List.getD_eq_getElem?_getD, List.getElem?_map, List.getElem?_range hi]
  rfl

theorem lt_toNat_of_cast_lt {i : Nat} {a : Int} (h : (i : Int) < a) : i < a.toNat := by
  omega

/-- C14: over exact arithmetic, the table `read_photo_table` returns holds
the five inverse-spacing arrays as reciprocals of adjacent grid spacings:
each has (axis length - 1) entries, entry `i` is
`1/(sza(i+1) - sza(i))`, `1/(alb(i+1) - alb(i))`, `1/(o3rat(i+1) - o3rat(i))`,
`1/|press(i) - press(i+1)|` and `1/(prs(i) - prs(i+1))`, and whenever the
adjacent grid points differ the product of the entry with its spacing is 1. -/
theorem inverse_spacings (phtcnt : Nat) (comm : Comm) (fs : String → Option NcFile)
    (rsf_file xs_long_file : String) (u : Fin 7 → Int) (T : PhotoTableData)
    (B : Broadcasts)
    (h : read_photo_table phtcnt comm fs rsf_file xs_long_file u = .ok (T, B)) :
    (T.del_sza.length = (T.numsza - 1).toNat ∧ T.del_alb.length = (T.numalb - 1).toNat
      ∧ T.del_o3rat.length = (T.numcolo3 - 1).toNat
      ∧ T.del_p.length = (T.nump - 1).toNat ∧ T.dprs.length = (T.np_xs - 1).toNat)
    ∧ (∀ i : Nat, (i : Int) < T.numsza - 1 →
        T.del_sza.getD i 0 = 1 / (T.sza.getD (i + 1) 0 - T.sza.getD i 0)
        ∧ (T.sza.getD (i + 1) 0 ≠ T.sza.getD i 0 →
            T.del_sza.getD i 0 * (T.sza.getD (i + 1) 0 - T.sza.getD i 0) = 1))
    ∧ (∀ i : Nat, (i : Int) < T.numalb - 1 →
        T.del_alb.getD i 0 = 1 / (T.alb.getD (i + 1) 0 - T.alb.getD i 0)
        ∧ (T.alb.getD (i + 1) 0 ≠ T.alb.getD i 0 →
            T.del_alb.getD i 0 * (T.alb.getD (i + 1) 0 - T.alb.getD i 0) = 1))
    ∧ (∀ i : Nat, (i : Int) < T.numcolo3 - 1 →
        T.del_o3rat.getD i 0 = 1 / (T.o3rat.getD (i + 1) 0 - T.o3rat.getD i 0)
        ∧ (T.o3rat.getD (i + 1) 0 ≠ T.o3rat.getD i 0 →
            T.del_o3rat.getD i 0 * (T.o3rat.getD (i + 1) 0 - T.o3rat.getD i 0) = 1))
    ∧ (∀ i : Nat, (i : Int) < T.nump - 1 →
        T.del_p.getD i 0 = 1 / |T.press.getD i 0 - T.press.getD (i + 1) 0|
        ∧ (T.press.getD i 0 ≠ T.press.getD (i + 1) 0 →
            T.del_p.getD i 0 * |T.press.getD i 0 - T.press.getD (i + 1) 0| = 1))
    ∧ (∀ i : Nat, (i : Int) < T.np_xs - 1 →
        T.dprs.getD i 0 = 1 / (T.prs.getD i 0 - T.prs.getD (i + 1) 0)
        ∧ (T.prs.getD i 0 ≠ T.prs.getD (i + 1) 0 →
            T.dprs.getD i 0 * (T.prs.getD i 0 - T.prs.getD (i + 1) 0) = 1)) := by
  obtain ⟨d, numj, hv, pht, lng, rfl⟩ := read_photo_table_eq_fill_table h
  refine ⟨by simp [fill_table], ?_, ?_, ?_, ?_, ?_⟩
  all_goals
    intro i hi
    simp only [fill_table] at hi ⊢
    rw [getD_map_range _ _ _ (lt_toNat_of_cast_lt hi)]
    refine ⟨rfl, fun hne => ?_⟩
    apply one_div_mul_cancel
  · exact sub_ne_zero.mpr hne
  · exact sub_ne_zero.mpr hne
  · exact sub_ne_zero.mpr hne
  · exact abs_ne_zero.mpr (sub_ne_zero.mpr hne)
  · exact sub_ne_zero.mpr hne

/-- Witness of C14: the table the root builds from the sample files. -/
theorem inverse_spacings_witness :
    sample_table.del_p.length = (sample_table.nump - 1).toNat
      ∧ sample_table.del_p.getD 0 0
          = 1 / |sample_table.press.getD 0 0 - sample_table.press.getD (0 + 1) 0|
      ∧ sample_table.dprs.getD 0 0
          = 1 / (sample_table.prs.getD 0 0 - sample_table.prs.getD (0 + 1) 0) :=
  have w := inverse_spacings 1 root_comm sample_fs "rsf.nc" "xs_long.nc" (fun _ => 0)
    sample_table sample_broadcasts sample_root_run
  ⟨w.1.2.2.2.1, (w.2.2.2.2.1 0 (by decide)).1, (w.2.2.2.2.2 0 (by decide)).1⟩

/-! ## The SHOC main property test -/

theorem foldl_update_key {α : Type} (g : Nat → α) (l : List Nat) (a : Nat → α) (i : Nat) :
    (l.foldl (fun a n => Function.update a n (g n)) a) i = if i ∈ l then g i else a i := by
  induction l generalizing a with
  | nil => simp
  | cons n l ih =>
    rw [List.foldl_cons, ih]
    by_cases hl : i ∈ l
    · simp [hl]
    · by_cases hn : i = n
      · subst hn; simp [hl]
      · simp [hl, hn, Function.update_noteq hn]

theorem compute_zt_grid_eq {α : Type} [Add α] [Mul α] [OfScientific α] [Zero α]
    (nlev : Nat) (zi : List α) (zt0 : Nat → α) (n : Nat) (hn : n < nlev) :
    shoc.compute_zt_grid nlev zi zt0 n = 0.5 * (zi.getD n 0 + zi.getD (n + 1) 0) := by
  unfold shoc.compute_zt_grid
  rw [foldl_update_key (fun n => 0.5 * (zi.getD n 0 + zi.getD (n + 1) 0))]
  simp [hn]

theorem fill_column_eq {α : Type} (nlev s : Nat) (zt : Nat → α) (l : List Nat)
    (sds : Nat → α) (o : Nat) :
    (l.foldl (fun sds n => Function.update sds (n + s * nlev) (zt n)) sds) o
      = if s * nlev ≤ o ∧ o - s * nlev ∈ l then zt (o - s * nlev) else sds o := by
  induction l generalizing sds with
  | nil => simp
  | cons n l ih =>
    rw [List.foldl_cons, ih]
    by_cases ho : o = n + s * nlev
    · subst ho
      by_cases hl : n ∈ l <;> simp [hl]
    · have hne : s * nlev ≤ o → o - s * nlev ≠ n := by omega
      by_cases hle : s * nlev ≤ o
      · by_cases hl : o - s * nlev ∈ l
        · simp [hle, hl]
        · simp [hle, hl, hne hle, Function.update_noteq ho]
      · simp [hle, Function.update_noteq ho]

theorem fill_zt_grid_eq {α : Type} (shcol nlev : Nat) (zt : Nat → α) (sds0 : Nat → α)
    (s n : Nat) (hs : s < shcol) (hn : n < nlev) :
    shoc.fill_zt_grid shcol nlev zt sds0 (n + s * nlev) = zt n := by
  unfold shoc.fill_zt_grid
  induction shcol with
  | zero => omega
  | succ c ih =>
    rw [List.range_succ, List.foldl_append, List.foldl_cons, List.foldl_nil,
      fill_column_eq]
    by_cases hsc : s = c
    · subst hsc
      simp [hn]
    · have hlt : s < c := by omega
      have h1 : (s + 1) * nlev ≤ c * nlev := Nat.mul_le_mul_right nlev hlt
      have h2 : n + s * nlev < (s + 1) * nlev := by
        rw [Nat.add_mul, Nat.one_mul]; omega
      have h3 : ¬ (c * nlev ≤ n + s * nlev) := by omega
      simp only [h3, false_and, if_false]
      exact ih hlt

theorem zi_ge_last (nlev : Nat) (zi : List Real)
    (hdec : ∀ n, n < nlev → zi.getD (n + 1) 0 < zi.getD n 0) (k : Nat) (hk : k ≤ nlev) :
    zi.getD nlev 0 ≤ zi.getD (nlev - k) 0 := by
  induction k with
  | zero => simp
  | succ k ih =>
    have h1 := ih (by omega)
    have h2 := hdec (nlev - (k + 1)) (by omega)
    have e : nlev - (k + 1) + 1 = nlev - k := by omega
    rw [e] at h2
    exact le_trans h1 (le_of_lt h2)

/-! ### Rounding to `double` -/

theorem zpow_two_lt {a b : Int} (h : a < b) : (2 : ℚ) ^ a < (2 : ℚ) ^ b :=
  zpow_lt_zpow_right₀ (by norm_num) h

theorem zpow_two_pos (a : Int) : (0 : ℚ) < (2 : ℚ) ^ a := zpow_pos (by norm_num) a

theorem double_exponent_eq (x : ℚ) (e : Int) (hpos : 0 < |x|)
    (hlo : (2 : ℚ) ^ e ≤ |x| ∨ e = -1022) (hhi : |x| < (2 : ℚ) ^ (e + 1))
    (he : -1022 ≤ e) : double_exponent x = e := by
  unfold double_exponent
  have h2 : ((2 : ℕ) : ℚ) = 2 := by norm_num
  have hlt : Int.log 2 |x| < e + 1 := by
    rw [← Int.lt_zpow_iff_log_lt (by norm_num) hpos, h2]
    exact hhi
  rcases hlo with hlo | hlo
  · have hle : e ≤ Int.log 2 |x| := by
      rw [← Int.zpow_le_iff_le_log (by norm_num) hpos, h2]
      exact hlo
    have : Int.log 2 |x| = e := by omega
    rw [this]
    exact max_eq_left he
  · subst hlo
    exact max_eq_right (by omega)

theorem round_to_double_eq (x : ℚ) (e m : Int) (he : double_exponent x = e)
    (hm : round_half_even (x / 2 ^ (e - 52)) = m)
    (hfin : |(m : ℚ) * 2 ^ (e - 52)| < 2 ^ (1024 : Int)) :
    round_to_double x = Double.finite ((m : ℚ) * 2 ^ (e - 52)) := by
  unfold round_to_double round_to_grid
  simp only [he, hm]
  obtain ⟨h1, h2⟩ := abs_lt.mp hfin
  rw [if_neg (not_le.mpr h2), if_neg (not_le.mpr h1)]

theorem round_half_even_intCast (m : Int) : round_half_even (m : ℚ) = m := by
  unfold round_half_even
  simp

theorem round_half_even_add_half (m : Int) :
    round_half_even ((m : ℚ) + 1 / 2) = if m % 2 = 0 then m else m + 1 := by
  have hf : ⌊(m : ℚ) + 1 / 2⌋ = m := by
    rw [Int.floor_eq_iff]
    constructor <;> norm_num
  unfold round_half_even
  rw [hf]
  have e : (m : ℚ) + 1 / 2 - m = 1 / 2 := by ring
  rw [e, if_neg (lt_irrefl _), if_neg (lt_irrefl _)]

theorem round_to_double_zero : round_to_double 0 = Double.finite 0 := by
  have h := round_to_double_eq 0 (double_exponent 0) 0 rfl
    (by rw [zero_div]; exact round_half_even_intCast 0) (by
      rw [Int.cast_zero, zero_mul, abs_zero]
      exact zpow_two_pos _)
  rw [h, Int.cast_zero, zero_mul]

/-- The smallest positive double is a double. -/
theorem round_to_double_min_subnormal :
    round_to_double ((2 : ℚ) ^ (-1074 : Int)) = Double.finite ((2 : ℚ) ^ (-1074 : Int)) := by
  have he : double_exponent ((2 : ℚ) ^ (-1074 : Int)) = -1022 := by
    apply double_exponent_eq _ _ _ (Or.inr rfl) _ (le_refl _)
    · rw [abs_of_pos (zpow_two_pos _)]; exact zpow_two_pos _
    · rw [abs_of_pos (zpow_two_pos _)]; exact zpow_two_lt (by norm_num)
  have hm : round_half_even ((2 : ℚ) ^ (-1074 : Int) / 2 ^ ((-1022 : Int) - 52)) = 1 := by
    have e : (2 : ℚ) ^ (-1074 : Int) / 2 ^ ((-1022 : Int) - 52) = ((1 : Int) : ℚ) := by
      rw [show ((-1022 : Int) - 52) = -1074 by norm_num,
        div_self (ne_of_gt (zpow_two_pos _))]
      norm_num
    rw [e, round_half_even_intCast]
  have h := round_to_double_eq _ _ _ he hm (by
    rw [show ((-1022 : Int) - 52) = -1074 by norm_num, Int.cast_one, one_mul,
      abs_of_pos (zpow_two_pos _)]
    exact zpow_two_lt (by norm_num))
  rw [h, show ((-1022 : Int) - 52) = -1074 by norm_num, Int.cast_one, one_mul]

/-- Half the smallest positive double lies half way between 0 and it, and
rounds to 0, whose last bit is even. -/
theorem round_to_double_half_min_subnormal :
    round_to_double ((2 : ℚ) ^ (-1075 : Int)) = Double.finite 0 := by
  have he : double_exponent ((2 : ℚ) ^ (-1075 : Int)) = -1022 := by
    apply double_exponent_eq _ _ _ (Or.inr rfl) _ (le_refl _)
    · rw [abs_of_pos (zpow_two_pos _)]; exact zpow_two_pos _
    · rw [abs_of_pos (zpow_two_pos _)]; exact zpow_two_lt (by norm_num)
  have hm : round_half_even ((2 : ℚ) ^ (-1075 : Int) / 2 ^ ((-1022 : Int) - 52)) = 0 := by
    have e : (2 : ℚ) ^ (-1075 : Int) / 2 ^ ((-1022 : Int) - 52) = ((0 : Int) : ℚ) + 1 / 2 := by
      rw [show ((-1022 : Int) - 52) = -1074 by norm_num, ← zpow_sub₀ (by norm_num)]
      norm_num
    rw [e, round_half_even_add_half]
    rfl
  have h := round_to_double_eq _ _ _ he hm (by
    rw [Int.cast_zero, zero_mul, abs_zero]
    exact zpow_two_pos _)
  rw [h, Int.cast_zero, zero_mul]

/-- A number `m * 2^k` with `|m| < 2^53` and `k ≥ -1074` below the overflow
threshold is a double: rounding leaves it as it is. -/
theorem round_to_double_of_representable (m k : Int) (hm : |m| < 2 ^ 53) (hk : -1074 ≤ k)
    (hfin : |(m : ℚ) * 2 ^ k| < 2 ^ (1024 : Int)) :
    round_to_double ((m : ℚ) * 2 ^ k) = Double.finite ((m : ℚ) * 2 ^ k) := by
  by_cases hm0 : m = 0
  · subst hm0
    rw [Int.cast_zero, zero_mul, round_to_double_zero]
  have hx : 0 < |(m : ℚ) * 2 ^ k| :=
    abs_pos.mpr (mul_ne_zero (Int.cast_ne_zero.mpr hm0) (ne_of_gt (zpow_two_pos k)))
  have hle : double_exponent ((m : ℚ) * 2 ^ k) - 52 ≤ k := by
    unfold double_exponent
    have hL : Int.log 2 |(m : ℚ) * 2 ^ k| < 53 + k := by
      rw [← Int.lt_zpow_iff_log_lt (by norm_num) hx, abs_mul, abs_of_pos (zpow_two_pos k),
        Nat.cast_ofNat, zpow_add₀ (by norm_num)]
      apply mul_lt_mul_of_pos_right _ (zpow_two_pos k)
      have h1 : ((|m| : Int) : ℚ) < ((2 ^ 53 : Int) : ℚ) := Int.cast_lt.mpr hm
      rw [Int.cast_abs] at h1
      calc |(m : ℚ)| < ((2 ^ 53 : Int) : ℚ) := h1
        _ = (2 : ℚ) ^ (53 : Int) := by norm_num
    have := max_le (show Int.log 2 |(m : ℚ) * 2 ^ k| ≤ k + 52 by omega)
      (show (-1022 : Int) ≤ k + 52 by omega)
    omega
  generalize hE : double_exponent ((m : ℚ) * 2 ^ k) = e at hle
  obtain ⟨d, hd⟩ := Int.le.dest hle
  have hx2 : (m : ℚ) * 2 ^ k = ((m * 2 ^ d : Int) : ℚ) * 2 ^ (e - 52) := by
    rw [← hd, zpow_add₀ (by norm_num), zpow_natCast]
    push_cast
    ring
  have h := round_to_double_eq _ e (m * 2 ^ d) hE (by
    rw [hx2, mul_div_assoc, div_self (ne_of_gt (zpow_two_pos _)), mul_one]
    exact round_half_even_intCast _) (by rw [← hx2]; exact hfin)
  rw [h, ← hx2]

/-- An integer below `2^53` in absolute value is a double. -/
theorem round_to_double_intCast (m : Int) (hm : |m| < 2 ^ 53) :
    round_to_double (m : ℚ) = Double.finite (m : ℚ) := by
  have h := round_to_double_of_representable m 0 hm (by norm_num) (by
    rw [zpow_zero, mul_one]
    have h1 : ((|m| : Int) : ℚ) < ((2 ^ 53 : Int) : ℚ) := Int.cast_lt.mpr hm
    rw [Int.cast_abs] at h1
    calc |(m : ℚ)| < ((2 ^ 53 : Int) : ℚ) := h1
      _ = (2 : ℚ) ^ (53 : Int) := by norm_num
      _ < 2 ^ (1024 : Int) := zpow_two_lt (by norm_num))
  rw [zpow_zero, mul_one] at h
  exact h

/-- The literal `0.5` is the double 1/2. -/
theorem double_half : (0.5 : Double) = Double.finite (1 / 2) := by
  show round_to_double (OfScientific.ofScientific 5 true 1) = Double.finite (1 / 2)
  have h := round_to_double_of_representable 1 (-1) (by norm_num) (by norm_num) (by
    rw [Int.cast_one, one_mul, abs_of_pos (zpow_two_pos _)]
    exact zpow_two_lt (by norm_num))
  have e : ((1 : Int) : ℚ) * 2 ^ (-1 : Int) = 1 / 2 := by norm_num
  have e2 : (OfScientific.ofScientific 5 true 1 : ℚ) = 1 / 2 := by norm_num
  rw [e] at h
  rw [e2, h]

theorem double_add_finite (x y : ℚ) :
    Double.finite x + Double.finite y = round_to_double (x + y) := rfl

theorem double_sub_finite (x y : ℚ) :
    Double.finite x - Double.finite y = round_to_double (x + -y) := rfl

theorem double_mul_finite (x y : ℚ) :
    Double.finite x * Double.finite y = round_to_double (x * y) := rfl

theorem double_lt_finite (x y : ℚ) : Double.finite x < Double.finite y ↔ x < y := by
  show Double.lt (Double.finite x) (Double.finite y) = true ↔ x < y
  simp [Double.lt]

theorem double_zero : (0 : Double) = Double.finite 0 := rfl

/-- The sum `2^54 + 2` lies half way between the doubles `2^54` and
`2^54 + 4` and rounds to `2^54`. -/
theorem round_to_double_above : round_to_double (2 ^ 53 + 2 + 2 ^ 53) = Double.finite (2 ^ 54) := by
  have he : double_exponent (2 ^ 53 + 2 + 2 ^ 53) = 54 := by
    apply double_exponent_eq _ _ _ (Or.inl _) _ (by norm_num)
    · norm_num
    · rw [abs_of_pos (by norm_num)]; norm_num
    · rw [abs_of_pos (by norm_num)]; norm_num
  have hm : round_half_even ((2 ^ 53 + 2 + 2 ^ 53 : ℚ) / 2 ^ ((54 : Int) - 52))
      = 4503599627370496 := by
    have e : (2 ^ 53 + 2 + 2 ^ 53 : ℚ) / 2 ^ ((54 : Int) - 52)
        = ((4503599627370496 : Int) : ℚ) + 1 / 2 := by norm_num
    rw [e, round_half_even_add_half]
    rfl
  have h := round_to_double_eq _ _ _ he hm (by
    rw [abs_of_pos (by norm_num)]
    calc ((4503599627370496 : Int) : ℚ) * 2 ^ ((54 : Int) - 52) = 2 ^ (54 : Int) := by norm_num
      _ < 2 ^ (1024 : Int) := zpow_two_lt (by norm_num))
  rw [h]
  norm_num

/-- The sum `2^54 - 1` lies half way between the doubles `2^54 - 2` and
`2^54` and rounds to `2^54`. -/
theorem round_to_double_below : round_to_double (2 ^ 53 + (2 ^ 53 - 1)) = Double.finite (2 ^ 54) := by
  have he : double_exponent (2 ^ 53 + (2 ^ 53 - 1)) = 53 := by
    apply double_exponent_eq _ _ _ (Or.inl _) _ (by norm_num)
    · norm_num
    · rw [abs_of_pos (by norm_num)]; norm_num
    · rw [abs_of_pos (by norm_num)]; norm_num
  have hm : round_half_even ((2 ^ 53 + (2 ^ 53 - 1) : ℚ) / 2 ^ ((53 : Int) - 52))
      = 9007199254740992 := by
    have e : (2 ^ 53 + (2 ^ 53 - 1) : ℚ) / 2 ^ ((53 : Int) - 52)
        = ((9007199254740991 : Int) : ℚ) + 1 / 2 := by norm_num
    rw [e, round_half_even_add_half]
    rfl
  have h := round_to_double_eq _ _ _ he hm (by
    rw [abs_of_pos (by norm_num)]
    calc ((9007199254740992 : Int) : ℚ) * 2 ^ ((53 : Int) - 52) = 2 ^ (54 : Int) := by norm_num
      _ < 2 ^ (1024 : Int) := zpow_two_lt (by norm_num))
  rw [h]
  norm_num

theorem round_to_double_two_pow_53 : round_to_double (1 / 2 * 2 ^ 54) = Double.finite (2 ^ 53) := by
  have h := round_to_double_of_representable 1 53 (by norm_num) (by norm_num) (by
    rw [Int.cast_one, one_mul, abs_of_pos (zpow_two_pos _)]
    exact zpow_two_lt (by norm_num))
  have e : ((1 : Int) : ℚ) * 2 ^ (53 : Int) = 1 / 2 * 2 ^ 54 := by norm_num
  have e2 : (1 / 2 * 2 ^ 54 : ℚ) = 2 ^ 53 := by norm_num
  rw [e] at h
  rw [h, e2]

theorem tiny_midpoint :
    shoc.fill_zt_grid 1 1 (shoc.compute_zt_grid 1 tiny_zi_grid (fun _ => 0)) (fun _ => 0) 0
      = Double.finite 0 := by
  have h : shoc.fill_zt_grid 1 1 (shoc.compute_zt_grid 1 tiny_zi_grid (fun _ => 0))
      (fun _ => 0) 0 = shoc.compute_zt_grid 1 tiny_zi_grid (fun _ => 0) 0 :=
    fill_zt_grid_eq 1 1 _ _ 0 0 (by norm_num) (by norm_num)
  rw [h, compute_zt_grid_eq _ _ _ _ (by norm_num)]
  have e0 : tiny_zi_grid.getD 0 0 = Double.finite (2 ^ (-1074 : Int)) := rfl
  have e1 : tiny_zi_grid.getD (0 + 1) 0 = Double.finite 0 := rfl
  rw [e0, e1, double_half, double_add_finite, add_zero, round_to_double_min_subnormal,
    double_mul_finite]
  have e : (1 / 2 : ℚ) * 2 ^ (-1074 : Int) = 2 ^ (-1075 : Int) := by
    rw [show (-1075 : Int) = -1074 - 1 by norm_num, zpow_sub₀ (by norm_num), zpow_one]
    ring
  rw [e, round_to_double_half_min_subnormal]

theorem close_midpoints (n : Nat) (hn : n < 2) :
    shoc.fill_zt_grid 1 2 (shoc.compute_zt_grid 2 close_zi_grid (fun _ => 0)) (fun _ => 0) n
      = Double.finite (2 ^ 53) := by
  have h : shoc.fill_zt_grid 1 2 (shoc.compute_zt_grid 2 close_zi_grid (fun _ => 0))
      (fun _ => 0) (n + 0 * 2) = shoc.compute_zt_grid 2 close_zi_grid (fun _ => 0) n :=
    fill_zt_grid_eq 1 2 _ _ 0 n (by norm_num) hn
  rw [Nat.zero_mul, Nat.add_zero] at h
  rw [h, compute_zt_grid_eq _ _ _ _ hn, double_half]
  interval_cases n
  · have e0 : close_zi_grid.getD 0 0 = Double.finite (2 ^ 53 + 2) := rfl
    have e1 : close_zi_grid.getD (0 + 1) 0 = Double.finite (2 ^ 53) := rfl
    rw [e0, e1, double_add_finite, round_to_double_above, double_mul_finite,
      round_to_double_two_pow_53]
  · have e0 : close_zi_grid.getD 1 0 = Double.finite (2 ^ 53) := rfl
    have e1 : close_zi_grid.getD (1 + 1) 0 = Double.finite (2 ^ 53 - 1) := rfl
    rw [e0, e1, double_add_finite, round_to_double_below, double_mul_finite,
      round_to_double_two_pow_53]

theorem round_to_double_of_int (x : ℚ) (m : Int) (hx : x = m) (hm : |m| < 2 ^ 53) :
    round_to_double x = Double.finite x := by
  rw [hx]
  exact round_to_double_intCast m hm

/-- A midpoint in doubles whose sum and half are integers below `2^53`. -/
theorem double_midpoint_of_int (a b : ℚ) (s h : Int) (hs : a + b = s)
    (hh : 1 / 2 * (s : ℚ) = h) (hs53 : |s| < 2 ^ 53) (hh53 : |h| < 2 ^ 53) :
    (0.5 : Double) * (Double.finite a + Double.finite b) = Double.finite (h : ℚ) := by
  rw [double_half, double_add_finite, round_to_double_of_int _ s hs hs53, double_mul_finite,
    hs, round_to_double_of_int _ h hh hh53, hh]

theorem test_midpoints (s n : Nat) (hs : s < 5) (hn : n < 5) :
    shoc.fill_zt_grid 5 5 (shoc.compute_zt_grid 5 test_zi_grid (fun _ => 0)) (fun _ => 0)
        (n + s * 5)
      = Double.finite (([2500, 1750, 1250, 750, 250] : List ℚ).getD n 0) := by
  rw [fill_zt_grid_eq 5 5 _ _ s n hs hn, compute_zt_grid_eq _ _ _ _ hn]
  interval_cases n
  · exact double_midpoint_of_int 3000 2000 5000 2500 (by norm_num) (by norm_num)
      (by norm_num) (by norm_num)
  · exact double_midpoint_of_int 2000 1500 3500 1750 (by norm_num) (by norm_num)
      (by norm_num) (by norm_num)
  · exact double_midpoint_of_int 1500 1000 2500 1250 (by norm_num) (by norm_num)
      (by norm_num) (by norm_num)
  · exact double_midpoint_of_int 1000 500 1500 750 (by norm_num) (by norm_num)
      (by norm_num) (by norm_num)
  · exact double_midpoint_of_int 500 0 500 250 (by norm_num) (by norm_num)
      (by norm_num) (by norm_num)

/-- Both checks of the test pass in doubles on the interface heights of the
test: their sums and midpoints are computed without rounding. -/
theorem zt_grid_double_checks_pass :
    shoc.check_zt_increases_upward 5 5
        (shoc.fill_zt_grid 5 5 (shoc.compute_zt_grid 5 test_zi_grid (fun _ => 0))
          (fun _ => 0)) = true
      ∧ shoc.check_zt_positive 5 5
          (shoc.fill_zt_grid 5 5 (shoc.compute_zt_grid 5 test_zi_grid (fun _ => 0))
            (fun _ => 0)) = true := by
  constructor
  · simp only [shoc.check_zt_increases_upward, List.all_eq_true, List.mem_range,
      decide_eq_true_eq]
    intro s hs n hn
    have e : n + s * 5 + 1 = (n + 1) + s * 5 := by omega
    rw [e, test_midpoints s (n + 1) hs (by omega), test_midpoints s n hs (by omega),
      double_sub_finite]
    have hn4 : n < 4 := hn
    interval_cases n
    · rw [round_to_double_of_int _ (-750) (by norm_num) (by norm_num), double_zero,
        double_lt_finite]
      norm_num
    · rw [round_to_double_of_int _ (-500) (by norm_num) (by norm_num), double_zero,
        double_lt_finite]
      norm_num
    · rw [round_to_double_of_int _ (-500) (by norm_num) (by norm_num), double_zero,
        double_lt_finite]
      norm_num
    · rw [round_to_double_of_int _ (-500) (by norm_num) (by norm_num), double_zero,
        double_lt_finite]
      norm_num
  · simp only [shoc.check_zt_positive, List.all_eq_true, List.mem_range,
      decide_eq_true_eq]
    intro s hs n hn
    rw [test_midpoints s n hs hn]
    show Double.finite 0 < _
    rw [double_lt_finite]
    interval_cases n <;> norm_num

theorem round_half_even_mem (q : ℚ) :
    round_half_even q = ⌊q⌋ ∨ round_half_even q = ⌊q⌋ + 1 := by
  unfold round_half_even
  split
  · exact Or.inl rfl
  · split
    · exact Or.inr rfl
    · split
      · exact Or.inl rfl
      · exact Or.inr rfl

/-- Rounding to the nearest integer, ties to even, is monotone. -/
theorem round_half_even_mono {p q : ℚ} (h : p ≤ q) : round_half_even p ≤ round_half_even q := by
  have hf : ⌊p⌋ ≤ ⌊q⌋ := Int.floor_mono h
  rcases lt_or_eq_of_le hf with hlt | heq
  · rcases round_half_even_mem p with hp | hp <;> rcases round_half_even_mem q with hq | hq <;>
      omega
  · have hfr : p - ⌊p⌋ ≤ q - ⌊q⌋ := by rw [heq]; linarith
    unfold round_half_even
    rw [heq] at hfr ⊢
    by_cases h1 : p - ⌊q⌋ < 1 / 2
    · rw [if_pos h1]
      split
      · exact le_refl _
      · split
        · omega
        · split <;> omega
    · rw [if_neg h1]
      by_cases h2 : 1 / 2 < p - ⌊q⌋
      · have h3 : ¬ q - ⌊q⌋ < 1 / 2 := by linarith
        have h4 : 1 / 2 < q - ⌊q⌋ := by linarith
        rw [if_pos h2, if_neg h3, if_pos h4]
      · have h3 : ¬ q - ⌊q⌋ < 1 / 2 := by linarith
        rw [if_neg h2, if_neg h3]
        by_cases h4 : 1 / 2 < q - ⌊q⌋
        · rw [if_pos h4]
          split <;> omega
        · rw [if_neg h4]

theorem abs_lt_zpow_double_exponent (x : ℚ) : |x| < (2 : ℚ) ^ (double_exponent x + 1) := by
  have h1 : |x| < ((2 : ℕ) : ℚ) ^ (Int.log 2 |x| + 1) := Int.lt_zpow_succ_log_self (by norm_num) _
  rw [Nat.cast_ofNat] at h1
  refine lt_of_lt_of_le h1 (zpow_le_zpow_right₀ (by norm_num) ?_)
  unfold double_exponent
  have := le_max_left (Int.log 2 |x|) (-1022)
  omega

theorem zpow_double_exponent_le (x : ℚ) (hx : 0 < |x|) (he : -1022 < double_exponent x) :
    (2 : ℚ) ^ double_exponent x ≤ |x| := by
  have h1 : ((2 : ℕ) : ℚ) ^ Int.log 2 |x| ≤ |x| := Int.zpow_log_le_self (by norm_num) hx
  rw [Nat.cast_ofNat] at h1
  have e : double_exponent x = Int.log 2 |x| := by
    unfold double_exponent at he ⊢
    rcases max_cases (Int.log 2 |x|) (-1022) with ⟨h, _⟩ | ⟨h, _⟩
    · exact h
    · rw [h] at he; omega
  rw [e]
  exact h1

theorem double_exponent_mono {x y : ℚ} (hx : 0 < |x|) (h : |x| ≤ |y|) :
    double_exponent x ≤ double_exponent y := by
  unfold double_exponent
  exact max_le_max (Int.log_mono_right hx h) (le_refl _)

theorem double_exponent_ge (x : ℚ) : -1022 ≤ double_exponent x := le_max_right _ _

/-- Rounding does not cross a multiple of the spacing from below. -/
theorem round_to_grid_le_of_le (x : ℚ) (m : Int)
    (h : x ≤ (m : ℚ) * 2 ^ (double_exponent x - 52)) :
    round_to_grid x ≤ (m : ℚ) * 2 ^ (double_exponent x - 52) := by
  unfold round_to_grid
  apply mul_le_mul_of_nonneg_right _ (le_of_lt (zpow_two_pos _))
  have h1 : x / 2 ^ (double_exponent x - 52) ≤ (m : ℚ) := by
    rw [div_le_iff₀ (zpow_two_pos _)]
    exact h
  have h2 := round_half_even_mono h1
  rw [round_half_even_intCast] at h2
  exact_mod_cast h2

/-- Rounding does not cross a multiple of the spacing from above. -/
theorem le_round_to_grid_of_le (x : ℚ) (m : Int)
    (h : (m : ℚ) * 2 ^ (double_exponent x - 52) ≤ x) :
    (m : ℚ) * 2 ^ (double_exponent x - 52) ≤ round_to_grid x := by
  unfold round_to_grid
  apply mul_le_mul_of_nonneg_right _ (le_of_lt (zpow_two_pos _))
  have h1 : (m : ℚ) ≤ x / 2 ^ (double_exponent x - 52) := by
    rw [le_div_iff₀ (zpow_two_pos _)]
    exact h
  have h2 := round_half_even_mono h1
  rw [round_half_even_intCast] at h2
  exact_mod_cast h2

/-- A power of two from the spacing on is a multiple of the spacing. -/
theorem zpow_eq_mul_spacing (e k : Int) (hk : e - 52 ≤ k) :
    ∃ m : Int, (2 : ℚ) ^ k = (m : ℚ) * 2 ^ (e - 52) := by
  obtain ⟨d, hd⟩ := Int.le.dest hk
  refine ⟨2 ^ d, ?_⟩
  rw [← hd, zpow_add₀ (by norm_num), zpow_natCast]
  push_cast
  ring

theorem round_to_grid_le_zpow (x : ℚ) (k : Int) (hk : double_exponent x - 52 ≤ k)
    (h : x ≤ 2 ^ k) : round_to_grid x ≤ 2 ^ k := by
  obtain ⟨m, hm⟩ := zpow_eq_mul_spacing (double_exponent x) k hk
  rw [hm] at h ⊢
  exact round_to_grid_le_of_le x m h

theorem zpow_le_round_to_grid (x : ℚ) (k : Int) (hk : double_exponent x - 52 ≤ k)
    (h : 2 ^ k ≤ x) : 2 ^ k ≤ round_to_grid x := by
  obtain ⟨m, hm⟩ := zpow_eq_mul_spacing (double_exponent x) k hk
  rw [hm] at h ⊢
  exact le_round_to_grid_of_le x m h

theorem round_to_grid_le_neg_zpow (x : ℚ) (k : Int) (hk : double_exponent x - 52 ≤ k)
    (h : x ≤ -2 ^ k) : round_to_grid x ≤ -2 ^ k := by
  obtain ⟨m, hm⟩ := zpow_eq_mul_spacing (double_exponent x) k hk
  have e : -(2 : ℚ) ^ k = ((-m : Int) : ℚ) * 2 ^ (double_exponent x - 52) := by
    rw [hm]; push_cast; ring
  rw [e] at h ⊢
  exact round_to_grid_le_of_le x (-m) h

theorem neg_zpow_le_round_to_grid (x : ℚ) (k : Int) (hk : double_exponent x - 52 ≤ k)
    (h : -2 ^ k ≤ x) : -2 ^ k ≤ round_to_grid x := by
  obtain ⟨m, hm⟩ := zpow_eq_mul_spacing (double_exponent x) k hk
  have e : -(2 : ℚ) ^ k = ((-m : Int) : ℚ) * 2 ^ (double_exponent x - 52) := by
    rw [hm]; push_cast; ring
  rw [e] at h ⊢
  exact le_round_to_grid_of_le x (-m) h

theorem round_to_grid_nonneg {x : ℚ} (h : 0 ≤ x) : 0 ≤ round_to_grid x := by
  have h1 := le_round_to_grid_of_le x 0 (by rw [Int.cast_zero, zero_mul]; exact h)
  rw [Int.cast_zero, zero_mul] at h1
  exact h1

theorem round_to_grid_nonpos {x : ℚ} (h : x ≤ 0) : round_to_grid x ≤ 0 := by
  have h1 := round_to_grid_le_of_le x 0 (by rw [Int.cast_zero, zero_mul]; exact h)
  rw [Int.cast_zero, zero_mul] at h1
  exact h1

theorem round_to_grid_mono_of_exponent_eq {x y : ℚ} (h : x ≤ y)
    (he : double_exponent x = double_exponent y) : round_to_grid x ≤ round_to_grid y := by
  unfold round_to_grid
  rw [he]
  apply mul_le_mul_of_nonneg_right _ (le_of_lt (zpow_two_pos _))
  exact_mod_cast round_half_even_mono
    (div_le_div_of_nonneg_right h (le_of_lt (zpow_two_pos _)))

/-- Rounding to the nearest multiple of the spacing is monotone, also from
one binade to the next. -/
theorem round_to_grid_mono {x y : ℚ} (h : x ≤ y) : round_to_grid x ≤ round_to_grid y := by
  rcases le_or_lt x 0 with hx | hx
  · rcases le_or_lt 0 y with hy | hy
    · exact le_trans (round_to_grid_nonpos hx) (round_to_grid_nonneg hy)
    · -- x ≤ y < 0
      have hy0 : 0 < |y| := abs_pos.mpr (ne_of_lt hy)
      have hxy : |y| ≤ |x| := by
        rw [abs_of_neg hy, abs_of_neg (lt_of_le_of_lt h hy)]
        linarith
      have hle := double_exponent_mono hy0 hxy
      rcases lt_or_eq_of_le hle with hlt | heq
      · have hx0 : 0 < |x| := lt_of_lt_of_le hy0 hxy
        have h1 : x ≤ -2 ^ double_exponent x := by
          have := zpow_double_exponent_le x hx0 (by have := double_exponent_ge y; omega)
          rw [abs_of_neg (lt_of_le_of_lt h hy)] at this
          linarith
        have h2 : -2 ^ (double_exponent y + 1) ≤ y := by
          have := abs_lt_zpow_double_exponent y
          rw [abs_of_neg hy] at this
          linarith
        have h3 := round_to_grid_le_neg_zpow x (double_exponent x) (by omega) h1
        have h4 := neg_zpow_le_round_to_grid y (double_exponent y + 1) (by omega) h2
        have h5 : (2 : ℚ) ^ (double_exponent y + 1) ≤ 2 ^ double_exponent x :=
          zpow_le_zpow_right₀ (by norm_num) (by omega)
        linarith
      · exact round_to_grid_mono_of_exponent_eq h heq.symm
  · -- 0 < x ≤ y
    have hy : 0 < y := lt_of_lt_of_le hx h
    have hx0 : 0 < |x| := abs_pos.mpr (ne_of_gt hx)
    have hxy : |x| ≤ |y| := by rw [abs_of_pos hx, abs_of_pos hy]; exact h
    have hle := double_exponent_mono hx0 hxy
    rcases lt_or_eq_of_le hle with hlt | heq
    · have h1 : x ≤ 2 ^ (double_exponent x + 1) := by
        have := abs_lt_zpow_double_exponent x
        rw [abs_of_pos hx] at this
        exact le_of_lt this
      have h2 : 2 ^ double_exponent y ≤ y := by
        have := zpow_double_exponent_le y (abs_pos.mpr (ne_of_gt hy))
          (by have := double_exponent_ge x; omega)
        rw [abs_of_pos hy] at this
        exact this
      have h3 := round_to_grid_le_zpow x (double_exponent x + 1) (by omega) h1
      have h4 := zpow_le_round_to_grid y (double_exponent y) (by omega) h2
      have h5 : (2 : ℚ) ^ (double_exponent x + 1) ≤ 2 ^ double_exponent y :=
        zpow_le_zpow_right₀ (by norm_num) (by omega)
      linarith
    · exact round_to_grid_mono_of_exponent_eq h heq

theorem double_le_refl_of_ne_nan (d : Double) (h : d ≠ Double.nan) : d ≤ d := by
  cases d with
  | nan => exact absurd rfl h
  | neg_inf => decide
  | pos_inf => decide
  | finite x =>
    show Double.le (Double.finite x) (Double.finite x) = true
    simp [Double.le]

theorem double_le_finite (x y : ℚ) : Double.finite x ≤ Double.finite y ↔ x ≤ y := by
  show Double.le (Double.finite x) (Double.finite y) = true ↔ x ≤ y
  simp [Double.le]

theorem round_to_double_ne_nan (x : ℚ) : round_to_double x ≠ Double.nan := by
  unfold round_to_double
  simp only []
  split
  · exact fun h => Double.noConfusion h
  · split
    · exact fun h => Double.noConfusion h
    · exact fun h => Double.noConfusion h

/-- Rounding to `double` is monotone. -/
theorem round_to_double_mono {x y : ℚ} (h : x ≤ y) : round_to_double x ≤ round_to_double y := by
  have hr := round_to_grid_mono h
  have hlt : -(2 : ℚ) ^ (1024 : Int) < 2 ^ (1024 : Int) := by
    have := zpow_two_pos 1024
    linarith
  unfold round_to_double
  simp only []
  by_cases a1 : (2 : ℚ) ^ (1024 : Int) ≤ round_to_grid x
  · rw [if_pos a1, if_pos (le_trans a1 hr)]
    decide
  · rw [if_neg a1]
    by_cases a2 : round_to_grid x ≤ -(2 : ℚ) ^ (1024 : Int)
    · rw [if_pos a2]
      by_cases b1 : (2 : ℚ) ^ (1024 : Int) ≤ round_to_grid y
      · rw [if_pos b1]; decide
      · rw [if_neg b1]
        by_cases b2 : round_to_grid y ≤ -(2 : ℚ) ^ (1024 : Int)
        · rw [if_pos b2]; decide
        · rw [if_neg b2]; rfl
    · rw [if_neg a2]
      by_cases b1 : (2 : ℚ) ^ (1024 : Int) ≤ round_to_grid y
      · rw [if_pos b1]; rfl
      · rw [if_neg b1]
        have b2 : ¬ round_to_grid y ≤ -(2 : ℚ) ^ (1024 : Int) := by
          intro b2
          exact a2 (le_trans hr b2)
        rw [if_neg b2, double_le_finite]
        exact hr

theorem round_to_double_nonneg {x : ℚ} (h : 0 ≤ x) : 0 ≤ round_to_double x := by
  have h1 := round_to_double_mono h
  rw [round_to_double_zero] at h1
  exact h1

/-- Halving in doubles is monotone. -/
theorem double_half_mul_mono {a b : Double} (h : a ≤ b) :
    Double.finite (1 / 2) * a ≤ Double.finite (1 / 2) * b := by
  have hmi : ∀ s : Bool, Double.mul_inf s (1 / 2) = if s then Double.pos_inf else Double.neg_inf := by
    intro s
    cases s <;> simp [Double.mul_inf]
  cases a with
  | nan => exact absurd h (by
      show ¬ Double.le Double.nan b = true
      simp [Double.le])
  | neg_inf =>
    cases b with
    | nan => exact absurd h (by decide)
    | neg_inf =>
      show Double.mul_inf false (1 / 2) ≤ Double.mul_inf false (1 / 2)
      rw [hmi]; decide
    | pos_inf =>
      show Double.mul_inf false (1 / 2) ≤ Double.mul_inf true (1 / 2)
      rw [hmi, hmi]; decide
    | finite y =>
      show Double.mul_inf false (1 / 2) ≤ round_to_double (1 / 2 * y)
      rw [hmi]
      have hn := round_to_double_ne_nan (1 / 2 * y)
      cases hr : round_to_double (1 / 2 * y) with
      | nan => exact absurd hr hn
      | neg_inf => decide
      | pos_inf => decide
      | finite z => rfl
  | pos_inf =>
    cases b with
    | nan => exact absurd h (by decide)
    | neg_inf => exact absurd h (by decide)
    | pos_inf =>
      show Double.mul_inf true (1 / 2) ≤ Double.mul_inf true (1 / 2)
      rw [hmi]; decide
    | finite y => exact absurd h (by
        show ¬ Double.le Double.pos_inf (Double.finite y) = true
        simp [Double.le])
  | finite x =>
    cases b with
    | nan => exact absurd h (by
        show ¬ Double.le (Double.finite x) Double.nan = true
        simp [Double.le])
    | neg_inf => exact absurd h (by
        show ¬ Double.le (Double.finite x) Double.neg_inf = true
        simp [Double.le])
    | pos_inf =>
      show round_to_double (1 / 2 * x) ≤ Double.mul_inf true (1 / 2)
      rw [hmi]
      have hn := round_to_double_ne_nan (1 / 2 * x)
      cases hr : round_to_double (1 / 2 * x) with
      | nan => exact absurd hr hn
      | neg_inf => decide
      | pos_inf => decide
      | finite z => rfl
    | finite y =>
      show round_to_double (1 / 2 * x) ≤ round_to_double (1 / 2 * y)
      apply round_to_double_mono
      have := (double_le_finite x y).mp h
      linarith

theorem getD_map_finite (zi : List ℚ) (n : Nat) :
    (zi.map Double.finite).getD n 0 = Double.finite (zi.getD n 0) := by
  induction zi generalizing n with
  | nil => rfl
  | cons a l ih =>
    cases n with
    | zero => rfl
    | succ n => exact ih n

/-- The midpoint heights in doubles: `0.5 * (zi[n] + zi[n+1])`, each operation
rounded. -/
theorem zt_grid_double_eq (shcol nlev : Nat) (zi : List ℚ) (zt0 sds0 : Nat → Double)
    (s n : Nat) (hs : s < shcol) (hn : n < nlev) :
    shoc.fill_zt_grid shcol nlev (shoc.compute_zt_grid nlev (zi.map Double.finite) zt0) sds0
        (n + s * nlev)
      = Double.finite (1 / 2) * round_to_double (zi.getD n 0 + zi.getD (n + 1) 0) := by
  rw [fill_zt_grid_eq _ _ _ _ _ _ hs hn, compute_zt_grid_eq _ _ _ _ hn, getD_map_finite,
    getD_map_finite, double_half, double_add_finite]

/-- In doubles the midpoints of strictly decreasing interface heights with
last value `≥ 0` do not increase with `n` and are not negative. -/
theorem zt_grid_double_weakly_decreasing (shcol nlev : Nat) (zi : List ℚ)
    (hdec : ∀ n, n < nlev → zi.getD (n + 1) 0 < zi.getD n 0)
    (hlast : 0 ≤ zi.getD nlev 0) (zt0 sds0 : Nat → Double) :
    (∀ s n, s < shcol → n < nlev - 1 →
        shoc.fill_zt_grid shcol nlev (shoc.compute_zt_grid nlev (zi.map Double.finite) zt0)
            sds0 (n + s * nlev + 1)
          ≤ shoc.fill_zt_grid shcol nlev
              (shoc.compute_zt_grid nlev (zi.map Double.finite) zt0) sds0 (n + s * nlev))
      ∧ (∀ s n, s < shcol → n < nlev →
          0 ≤ shoc.fill_zt_grid shcol nlev
            (shoc.compute_zt_grid nlev (zi.map Double.finite) zt0) sds0 (n + s * nlev)) := by
  constructor
  · intro s n hs hn
    have e : n + s * nlev + 1 = (n + 1) + s * nlev := by omega
    rw [e, zt_grid_double_eq _ _ _ _ _ s (n + 1) hs (by omega),
      zt_grid_double_eq _ _ _ _ _ s n hs (by omega)]
    apply double_half_mul_mono
    apply round_to_double_mono
    have h1 := hdec n (by omega)
    have h2 := hdec (n + 1) (by omega)
    linarith
  · intro s n hs hn
    rw [zt_grid_double_eq _ _ _ _ _ s n hs hn]
    have h1 := hdec n hn
    have h2 := zi_ge_last nlev zi hdec (nlev - (n + 1)) (by omega)
    have e : nlev - (nlev - (n + 1)) = n + 1 := by omega
    rw [e] at h2
    have h3 : (0 : ℚ) ≤ zi.getD n 0 + zi.getD (n + 1) 0 := by linarith
    have h4 := double_half_mul_mono (round_to_double_nonneg h3)
    have h5 : Double.finite (1 / 2) * (0 : Double) = 0 := by
      show round_to_double (1 / 2 * 0) = Double.finite 0
      rw [mul_zero, round_to_double_zero]
    rw [h5] at h4
    exact h4

/-- The interface heights of the two counterexamples are doubles. -/
theorem counterexample_grids_are_doubles :
    ∀ d ∈ tiny_zi_grid ++ close_zi_grid,
      ∃ x : ℚ, d = Double.finite x ∧ round_to_double x = Double.finite x := by
  intro d hd
  simp only [tiny_zi_grid, close_zi_grid, List.cons_append, List.nil_append, List.mem_cons,
    List.mem_singleton, List.not_mem_nil, or_false] at hd
  rcases hd with rfl | rfl | rfl | rfl | rfl
  · exact ⟨_, rfl, round_to_double_min_subnormal⟩
  · exact ⟨_, rfl, round_to_double_zero⟩
  · refine ⟨_, rfl, ?_⟩
    have h := round_to_double_of_representable 4503599627370497 1 (by norm_num) (by norm_num)
      (by
        rw [abs_of_pos (by norm_num)]
        calc ((4503599627370497 : Int) : ℚ) * 2 ^ (1 : Int) < 2 ^ (54 : Int) := by norm_num
          _ < 2 ^ (1024 : Int) := zpow_two_lt (by norm_num))
    have e : ((4503599627370497 : Int) : ℚ) * 2 ^ (1 : Int) = 2 ^ 53 + 2 := by norm_num
    rw [e] at h
    exact h
  · refine ⟨_, rfl, ?_⟩
    have h := round_to_double_of_representable 1 53 (by norm_num) (by norm_num) (by
      rw [Int.cast_one, one_mul, abs_of_pos (zpow_two_pos _)]
      exact zpow_two_lt (by norm_num))
    have e : ((1 : Int) : ℚ) * 2 ^ (53 : Int) = 2 ^ 53 := by norm_num
    rw [e] at h
    exact h
  · exact ⟨_, rfl, round_to_double_of_int _ 9007199254740991 (by norm_num) (by norm_num)⟩

/-- Counterexample to C15, in the doubles of the test. The interface heights
`2^-1074, 0` are strictly decreasing with last value `≥ 0`, and the midpoint
`0.5 * (2^-1074 + 0)` rounds to 0: the check `zt > 0` fails. The interface
heights `2^53 + 2, 2^53, 2^53 - 1` are strictly decreasing with last value
`≥ 0`, and both midpoints round to `2^53`: the check
`zt[offset + 1] - zt[offset] < 0` fails. All five heights are doubles. -/
theorem midpoints_collapse_in_double :
    (∀ d ∈ tiny_zi_grid ++ close_zi_grid,
        ∃ x : ℚ, d = Double.finite x ∧ round_to_double x = Double.finite x)
      ∧ tiny_zi_grid.getD 1 0 < tiny_zi_grid.getD 0 0
      ∧ 0 ≤ tiny_zi_grid.getD 1 0
      ∧ shoc.fill_zt_grid 1 1 (shoc.compute_zt_grid 1 tiny_zi_grid (fun _ => 0)) (fun _ => 0) 0
          = 0
      ∧ shoc.check_zt_positive 1 1
          (shoc.fill_zt_grid 1 1 (shoc.compute_zt_grid 1 tiny_zi_grid (fun _ => 0))
            (fun _ => 0)) = false
      ∧ close_zi_grid.getD 1 0 < close_zi_grid.getD 0 0
      ∧ close_zi_grid.getD 2 0 < close_zi_grid.getD 1 0
      ∧ 0 ≤ close_zi_grid.getD 2 0
      ∧ shoc.fill_zt_grid 1 2 (shoc.compute_zt_grid 2 close_zi_grid (fun _ => 0)) (fun _ => 0) 1
          = shoc.fill_zt_grid 1 2 (shoc.compute_zt_grid 2 close_zi_grid (fun _ => 0))
              (fun _ => 0) 0
      ∧ shoc.check_zt_increases_upward 1 2
          (shoc.fill_zt_grid 1 2 (shoc.compute_zt_grid 2 close_zi_grid (fun _ => 0))
            (fun _ => 0)) = false := by
  have e1 : List.range 1 = [0] := rfl
  refine ⟨counterexample_grids_are_doubles, ?_, by decide, tiny_midpoint, ?_, ?_, ?_, ?_, ?_,
    ?_⟩
  · show Double.finite 0 < Double.finite (2 ^ (-1074 : Int))
    rw [double_lt_finite]
    exact zpow_two_pos _
  · simp only [shoc.check_zt_positive, e1, List.all_cons, List.all_nil, Bool.and_true,
      Nat.zero_mul, Nat.add_zero, tiny_midpoint]
    decide
  · show Double.finite (2 ^ 53) < Double.finite (2 ^ 53 + 2)
    rw [double_lt_finite]
    norm_num
  · show Double.finite (2 ^ 53 - 1) < Double.finite (2 ^ 53)
    rw [double_lt_finite]
    norm_num
  · show Double.le (Double.finite 0) (Double.finite (2 ^ 53 - 1)) = true
    simp [Double.le]
    norm_num
  · rw [close_midpoints 1 (by norm_num), close_midpoints 0 (by norm_num)]
  · simp only [shoc.check_zt_increases_upward, e1, List.all_cons, List.all_nil, Bool.and_true,
      Nat.zero_mul, Nat.add_zero, Nat.zero_add, close_midpoints 1 (by norm_num),
      close_midpoints 0 (by norm_num), double_sub_finite, add_neg_cancel,
      round_to_double_zero]
    decide

/-- C15, amended: in the SHOC main property test, over exact arithmetic, for
every strictly decreasing sequence `zi_grid` of `nlev + 1` interface heights
whose last value is `≥ 0`, the midpoint heights filled into `SDS.zt_grid` are
strictly decreasing in `n` and strictly positive in every column: the entries
at offset `n + s * nlev` satisfy `zt[offset + 1] - zt[offset] < 0` for
`n < nlev - 1` and `zt[offset] > 0`, so that both checks pass; in the doubles
of the test the midpoints do not increase with `n` and are not negative
(`zt[offset + 1] ≤ zt[offset]` and `zt[offset] ≥ 0`), and both checks pass on
the interface heights of the test, 3000, 2000, 1500, 1000, 500, 0 in five
columns, whose sums and midpoints are computed without rounding. -/
theorem zt_grid_checks_pass (shcol nlev : Nat) (zi : List Real)
    (hdec : ∀ n, n < nlev → zi.getD (n + 1) 0 < zi.getD n 0)
    (hlast : 0 ≤ zi.getD nlev 0) (zt0 sds0 : Nat → Real) :
    (∀ s n, s < shcol → n < nlev - 1 →
        shoc.fill_zt_grid shcol nlev (shoc.compute_zt_grid nlev zi zt0) sds0 (n + s * nlev + 1)
          - shoc.fill_zt_grid shcol nlev (shoc.compute_zt_grid nlev zi zt0) sds0 (n + s * nlev)
          < 0)
      ∧ (∀ s n, s < shcol → n < nlev →
          shoc.fill_zt_grid shcol nlev (shoc.compute_zt_grid nlev zi zt0) sds0 (n + s * nlev)
            > 0)
      ∧ shoc.check_zt_increases_upward shcol nlev
          (shoc.fill_zt_grid shcol nlev (shoc.compute_zt_grid nlev zi zt0) sds0) = true
      ∧ shoc.check_zt_positive shcol nlev
          (shoc.fill_zt_grid shcol nlev (shoc.compute_zt_grid nlev zi zt0) sds0) = true
      ∧ (∀ (zt0 sds0 : Nat → Double) (s n : Nat), s < shcol → n < nlev - 1 →
          shoc.fill_zt_grid shcol nlev (shoc.compute_zt_grid nlev (zi.map Double.finite) zt0)
              sds0 (n + s * nlev + 1)
            ≤ shoc.fill_zt_grid shcol nlev
                (shoc.compute_zt_grid nlev (zi.map Double.finite) zt0) sds0 (n + s * nlev))
      ∧ (∀ (zt0 sds0 : Nat → Double) (s n : Nat), s < shcol → n < nlev →
          0 ≤ shoc.fill_zt_grid shcol nlev
            (shoc.compute_zt_grid nlev (zi.map Double.finite) zt0) sds0 (n + s * nlev))
      ∧ shoc.check_zt_increases_upward 5 5
          (shoc.fill_zt_grid 5 5 (shoc.compute_zt_grid 5 test_zi_grid (fun _ => 0))
            (fun _ => 0)) = true
      ∧ shoc.check_zt_positive 5 5
          (shoc.fill_zt_grid 5 5 (shoc.compute_zt_grid 5 test_zi_grid (fun _ => 0))
            (fun _ => 0)) = true := by
  have hval : ∀ s n, s < shcol → n < nlev →
      shoc.fill_zt_grid shcol nlev (shoc.compute_zt_grid nlev zi zt0) sds0 (n + s * nlev)
        = 0.5 * (zi.getD n 0 + zi.getD (n + 1) 0) := by
    intro s n hs hn
    rw [fill_zt_grid_eq _ _ _ _ _ _ hs hn, compute_zt_grid_eq _ _ _ _ hn]
  have hdecr : ∀ s n, s < shcol → n < nlev - 1 →
      shoc.fill_zt_grid shcol nlev (shoc.compute_zt_grid nlev zi zt0) sds0 (n + s * nlev + 1)
        - shoc.fill_zt_grid shcol nlev (shoc.compute_zt_grid nlev zi zt0) sds0 (n + s * nlev)
        < 0 := by
    intro s n hs hn
    have e : n + s * nlev + 1 = (n + 1) + s * nlev := by omega
    rw [e, hval s (n + 1) hs (by omega), hval s n hs (by omega)]
    have h1 := hdec n (by omega)
    have h2 := hdec (n + 1) (by omega)
    rw [show (0.5 : Real) = 1 / 2 by norm_num]
    linarith
  have hpos : ∀ s n, s < shcol → n < nlev →
      shoc.fill_zt_grid shcol nlev (shoc.compute_zt_grid nlev zi zt0) sds0 (n + s * nlev)
        > 0 := by
    intro s n hs hn
    rw [hval s n hs hn]
    have h1 := hdec n hn
    have h2 := zi_ge_last nlev zi hdec (nlev - (n + 1)) (by omega)
    have e : nlev - (nlev - (n + 1)) = n + 1 := by omega
    rw [e] at h2
    rw [show (0.5 : Real) = 1 / 2 by norm_num]
    have h3 : (0 : Real) < 1 / 2 * (zi.getD n 0 + zi.getD (n + 1) 0) := by linarith
    exact h3
  refine ⟨hdecr, hpos, ?_, ?_,
    fun zt0 sds0 => (zt_grid_double_weakly_decreasing shcol nlev zi hdec hlast zt0 sds0).1,
    fun zt0 sds0 => (zt_grid_double_weakly_decreasing shcol nlev zi hdec hlast zt0 sds0).2,
    zt_grid_double_checks_pass.1, zt_grid_double_checks_pass.2⟩
  · simp only [shoc.check_zt_increases_upward, List.all_eq_true, List.mem_range,
      decide_eq_true_eq]
    intro s hs n hn
    exact hdecr s n hs hn
  · simp only [shoc.check_zt_positive, List.all_eq_true, List.mem_range,
      decide_eq_true_eq]
    intro s hs n hn
    exact hpos s n hs hn

/-- Witness of the amended C15: the five columns and five levels of the test,
with its interface heights 3000, 2000, 1500, 1000, 500, 0. -/
theorem zt_grid_checks_pass_witness :
    shoc.check_zt_increases_upward 5 5
        (shoc.fill_zt_grid 5 5 (shoc.compute_zt_grid 5 shoc.zi_grid (fun _ => 0))
          (fun _ => 0)) = true
      ∧ shoc.check_zt_positive 5 5
          (shoc.fill_zt_grid 5 5 (shoc.compute_zt_grid 5 shoc.zi_grid (fun _ => 0))
            (fun _ => 0)) = true
      ∧ shoc.check_zt_increases_upward 5 5
          (shoc.fill_zt_grid 5 5 (shoc.compute_zt_grid 5 test_zi_grid (fun _ => 0))
            (fun _ => 0)) = true
      ∧ shoc.check_zt_positive 5 5
          (shoc.fill_zt_grid 5 5 (shoc.compute_zt_grid 5 test_zi_grid (fun _ => 0))
            (fun _ => 0)) = true :=
  have w := zt_grid_checks_pass 5 5 shoc.zi_grid
    (by
      intro n hn
      interval_cases n <;> simp [shoc.zi_grid] <;> norm_num)
    (by simp [shoc.zi_grid]) (fun _ => 0) (fun _ => 0)
  ⟨w.2.2.1, w.2.2.2.1, w.2.2.2.2.2.2⟩

/-! ## The column state adapter -/

theorem foldl_update_slot_of_not_mem {n : Nat} {F : Type} (slot : F → Fin n)
    (val : F → Real) (l : List F) (q : WorkArray n) (i : Fin n)
    (h : ∀ f ∈ l, slot f ≠ i) :
    (l.foldl (fun q f => Function.update q (slot f) (val f)) q) i = q i := by
  induction l generalizing q with
  | nil => rfl
  | cons a l ih =>
    rw [List.foldl_cons, ih _ (fun f hf => h f (List.mem_cons_of_mem _ hf))]
    exact Function.update_noteq (fun e => h a (List.mem_cons_self _ _) e.symm) _ _

theorem foldl_update_slot_of_mem {n : Nat} {F : Type} (slot : F → Fin n)
    (val : F → Real) (l : List F) (q : WorkArray n)
    (hinj : ∀ f ∈ l, ∀ g ∈ l, slot f = slot g → f = g) (f : F) (hf : f ∈ l) :
    (l.foldl (fun q f => Function.update q (slot f) (val f)) q) (slot f) = val f := by
  induction l generalizing q with
  | nil => simp at hf
  | cons a l ih =>
    rw [List.foldl_cons]
    by_cases hl : f ∈ l
    · exact ih _ (fun x hx y hy => hinj x (List.mem_cons_of_mem _ hx) y
        (List.mem_cons_of_mem _ hy)) hl
    · have hfa : f = a := by
        rcases List.mem_cons.mp hf with h | h
        · exact h
        · exact absurd h hl
      subst hfa
      rw [foldl_update_slot_of_not_mem]
      · exact Function.update_same _ _ _
      · intro g hg e
        have := hinj g (List.mem_cons_of_mem _ hg) f (List.mem_cons_self _ _) e
        exact hl (this ▸ hg)

theorem foldl_write_back_same (l : List mam_coupling.TracerField)
    (v : mam_coupling.TracerField → Real) (progs : mam_coupling.TracerState) (k : Nat)
    (h : ∀ f ∈ l, v f = progs f k) :
    l.foldl (fun p f => fun g m => if g = f ∧ m = k then v f else p g m) progs = progs := by
  induction l with
  | nil => rfl
  | cons a l ih =>
    rw [List.foldl_cons]
    have e : (fun g m => if g = a ∧ m = k then v a else progs g m) = progs := by
      funext g m
      by_cases hc : g = a ∧ m = k
      · rw [if_pos hc, h a (List.mem_cons_self _ _), hc.1, hc.2]
      · rw [if_neg hc]
    rw [e]
    exact ih (fun f hf => h f (List.mem_cons_of_mem _ hf))

/-- C12: for every tracer state and every level `k`, when the transferred
fields have distinct slots, `transfer_prognostics_to_work_arrays` followed
immediately by `transfer_work_arrays_to_prognostics` on the unmodified work
arrays reproduces the tracer state exactly: every field, in particular every
populated (mode, species) slot and every gas species, has its original value
at every level. -/
theorem transfer_roundtrip {n : Nat} (cfg : mam_coupling.TracerConfig n)
    (hinj : ∀ f ∈ cfg.fields, ∀ g ∈ cfg.fields, cfg.slot f = cfg.slot g → f = g)
    (progs : mam_coupling.TracerState) (k : Nat) (q qqcw : WorkArray n) :
    ∀ f l,
      mam_coupling.transfer_work_arrays_to_prognostics cfg
          (mam_coupling.transfer_prognostics_to_work_arrays cfg progs k q qqcw).1
          (mam_coupling.transfer_prognostics_to_work_arrays cfg progs k q qqcw).2
          progs k f l
        = progs f l := by
  intro f l
  unfold mam_coupling.transfer_work_arrays_to_prognostics
    mam_coupling.transfer_prognostics_to_work_arrays
  rw [foldl_write_back_same cfg.fields
    (fun f => (cfg.fields.foldl
      (fun q f => Function.update q (cfg.slot f) (progs f k)) q) (cfg.slot f))]
  intro g hg
  exact foldl_update_slot_of_mem cfg.slot (fun f => progs f k) cfg.fields q hinj g hg

/-- Witness of C12: the species 1 of mode 0 at level 3, on the sample tracer
configuration. -/
theorem transfer_roundtrip_witness :
    mam_coupling.transfer_work_arrays_to_prognostics sample_tracer_config
        (mam_coupling.transfer_prognostics_to_work_arrays sample_tracer_config
          sample_tracers 3 (fun _ => 0) (fun _ => 0)).1
        (mam_coupling.transfer_prognostics_to_work_arrays sample_tracer_config
          sample_tracers 3 (fun _ => 0) (fun _ => 0)).2
        sample_tracers 3 (.int_aero_mmr 0 1) 3
      = sample_tracers (.int_aero_mmr 0 1) 3 :=
  transfer_roundtrip sample_tracer_config (by decide) sample_tracers 3 (fun _ => 0)
    (fun _ => 0) (.int_aero_mmr 0 1) 3

/-! ## The run with all stages disabled -/

section claims_identity

variable {Progs SetsoxCfg Wet : Type} {n : Nat}

end claims_identity

/-! ## Data file locations, bounds and the negative-value check -/

/-- C21, evaluated: with `SCREAM_DATA_DIR = "/data"`, `path = "ab"` and
`MAX_FILENAME_LEN = 8` the length check passes (5 + 2 < 8) and the string
`"/data/ab"` is written, which with its terminating NUL takes 9 characters:
`strlen(SCREAM_DATA_DIR) + 1 + strlen(path) + 1 ≤ MAX_FILENAME_LEN` fails. -/
theorem location_overflows_buffer :
    strlen "/data" + strlen "ab" < 8
      ∧ set_data_file "/data" 8 "config_.photolysis.rsf_file" "ab" = .ok "/data/ab"
      ∧ sprintf_stores "/data/ab" = 9
      ∧ strlen "/data" + 1 + strlen "ab" + 1 = 9
      ∧ ¬ (strlen "/data" + 1 + strlen "ab" + 1 ≤ 8) := by
  refine ⟨by decide, rfl, by decide, by decide, by decide⟩

/-- C22, evaluated: at every level the reads `lwc(k)` and `extfrc(k, i)` go
to default-constructed views, of extent 0, and are out of bounds; at level 0
of a column of one level they are among the accesses, as is `vmr[o3_ndx]`,
which is out of bounds for the value -1 of the unset `o3_ndx`. -/
theorem level_accesses_out_of_bounds :
    (∀ gas_pcnst nlev_ phtcnt k, Access.in_bounds gas_pcnst nlev_ phtcnt (.lwc k) = false)
      ∧ (∀ gas_pcnst nlev_ phtcnt k i,
          Access.in_bounds gas_pcnst nlev_ phtcnt (.extfrc k i) = false)
      ∧ Access.lwc 0 ∈ level_accesses 1 0 1 1 (garbage_indeterminate.o3_ndx 0 0) 0
      ∧ Access.extfrc 0 0 ∈ level_accesses 1 0 1 1 (garbage_indeterminate.o3_ndx 0 0) 0
      ∧ Access.vmr (-1) ∈ level_accesses 1 0 1 1 (garbage_indeterminate.o3_ndx 0 0) 0
      ∧ Access.in_bounds 2 1 1 (.vmr (-1)) = false := by
  refine ⟨?_, ?_, by decide, by decide, by decide, by decide⟩
  · intro _ _ _ k
    simp [Access.in_bounds, lwc_extent]
  · intro _ _ _ k i
    simp [Access.in_bounds, extfrc_extent]

section claims_check

variable {Progs SetsoxCfg Wet : Type} {n : Nat}

/-- C23: the negative-value check of `run_impl` is the pointwise map
`x ↦ max x 0` on `vmr`: an entry that was `≥ 0` is left unchanged, a negative
entry becomes exactly 0, the check is idempotent, and `vmrcw` is the same
before and after it. -/
theorem negative_check_is_pointwise_max (ext : Externals Progs SetsoxCfg Wet n)
    (config_ : Config SetsoxCfg) (step_ nlev_ : Int) (dt t : Real) (o3_ndx : Int)
    (clim : LinozClimatology) (col : ColumnData) (progs : Progs) (k : Nat) :
    (level_kernel ext config_ step_ nlev_ dt t o3_ndx clim col progs k).vmr
        = reset_negative_values
            (level_kernel ext config_ step_ nlev_ dt t o3_ndx clim col progs k).vmr_before_check
      ∧ (level_kernel ext config_ step_ nlev_ dt t o3_ndx clim col progs k).vmrcw
          = (level_kernel ext config_ step_ nlev_ dt t o3_ndx clim col progs k).vmrcw_before_check
      ∧ (∀ vmr : WorkArray n,
          reset_negative_values vmr = (fun i => max (vmr i) 0)
          ∧ (∀ i, 0 ≤ vmr i → reset_negative_values vmr i = vmr i)
          ∧ (∀ i, vmr i < 0 → reset_negative_values vmr i = 0)
          ∧ reset_negative_values (reset_negative_values vmr) = reset_negative_values vmr) := by
  refine ⟨rfl, rfl, fun vmr => ⟨reset_negative_values_eq vmr, ?_, ?_, ?_⟩⟩
  · intro i hi
    rw [reset_negative_values_eq]
    exact max_eq_left hi
  · intro i hi
    rw [reset_negative_values_eq]
    exact max_eq_right (le_of_lt hi)
  · rw [reset_negative_values_eq, reset_negative_values_eq]
    funext i
    exact max_eq_left (le_max_right _ _)

/-- Witness of C23: the array with the entries -1 and 2 becomes 0 and 2. -/
theorem negative_check_is_pointwise_max_witness :
    mixed_sign_array 0 < 0 ∧ reset_negative_values mixed_sign_array 0 = 0
      ∧ 0 ≤ mixed_sign_array 1
      ∧ reset_negative_values mixed_sign_array 1 = mixed_sign_array 1 :=
  have w := (negative_check_is_pointwise_max sample_externals (sample_process 1 0).config_
    0 1 1800 0 0 sample_climatology
    { icol := 0, col_lat := 0, atm := sample_atmosphere, z_iface := fun _ => 0, phis := 0,
      o3_col_dens_i := fun _ => 0, zenith_angle := 0, lwc := fun _ => 0,
      photo_rates := fun _ _ => 0, extfrc := fun _ _ => 0 }
    (fun _ _ => 0) 0).2.2 mixed_sign_array
  have hneg : mixed_sign_array 0 < 0 := by simp [mixed_sign_array]
  have hpos : (0 : Real) ≤ mixed_sign_array 1 := by simp [mixed_sign_array]
  ⟨hneg, w.2.2.1 0 hneg, hpos, w.2.1 1 hpos⟩

/-- C27: at the call of `modal_aero_amicphys_intr` the snapshots
`vmr_pregaschem` and `vmr_precldchem` are equal to each other and to the VMR
converted from the input tracers before gas-phase chemistry, and
`vmrcw_precldchem` is the initial `vmrcw`, whatever the kernels do; the call
whose result is carried on receives these three snapshots. -/
theorem snapshots_are_initial_vmr (ext : Externals Progs SetsoxCfg Wet n)
    (config_ : Config SetsoxCfg) (step_ nlev_ : Int) (dt t : Real) (o3_ndx : Int)
    (clim : LinozClimatology) (col : ColumnData) (progs : Progs) (k : Nat) :
    (level_kernel ext config_ step_ nlev_ dt t o3_ndx clim col progs k).vmr_pregaschem
        = (level_kernel ext config_ step_ nlev_ dt t o3_ndx clim col progs k).vmr_precldchem
      ∧ (level_kernel ext config_ step_ nlev_ dt t o3_ndx clim col progs k).vmr_pregaschem
          = (level_kernel ext config_ step_ nlev_ dt t o3_ndx clim col progs k).vmr_initial
      ∧ (level_kernel ext config_ step_ nlev_ dt t o3_ndx clim col progs k).vmrcw_precldchem
          = (level_kernel ext config_ step_ nlev_ dt t o3_ndx clim col progs k).vmrcw_initial
      ∧ ((level_kernel ext config_ step_ nlev_ dt t o3_ndx clim col progs k).vmr_initial,
          (level_kernel ext config_ step_ nlev_ dt t o3_ndx clim col progs k).vmrcw_initial)
          = ext.convert_work_arrays_to_vmr
              (ext.transfer_prognostics_to_work_arrays progs k (fun _ => 0) (fun _ => 0)).1
              (ext.transfer_prognostics_to_work_arrays progs k (fun _ => 0) (fun _ => 0)).2
      ∧ ∃ vmr vmrcw wc,
          (level_kernel ext config_ step_ nlev_ dt t o3_ndx clim col progs k).vmrcw_before_check
            = (ext.modal_aero_amicphys_intr config_.amicphys step_ dt t
                (col.atm.pressure k) (col.atm.hydrostatic_dp k) (col.atm.height k)
                col.atm.planetary_boundary_layer_height (col.atm.vapor_mixing_ratio k)
                (col.atm.cloud_fraction k) vmr vmrcw
                (level_kernel ext config_ step_ nlev_ dt t o3_ndx clim col progs k).vmr_pregaschem
                (level_kernel ext config_ step_ nlev_ dt t o3_ndx clim col progs k).vmr_precldchem
                (level_kernel ext config_ step_ nlev_ dt t o3_ndx clim col progs k).vmrcw_precldchem
                wc).2 :=
  ⟨rfl, rfl, rfl, rfl, _, _, _, rfl⟩

end claims_check

/-- C25: `set_computed_group_impl` accepts a field group if and only if its
name is "tracers", it is bundled and its size is at least
`2 * (num_aero_modes + num_aero_tracers) + num_aero_gases`; in every other
case it raises an error. -/
theorem set_computed_group_impl_accepts_iff
    (num_aero_modes num_aero_tracers num_aero_gases : Int) (group : FieldGroup) :
    (set_computed_group_impl num_aero_modes num_aero_tracers num_aero_gases group = .ok ()
        ↔ (group.m_group_name = "tracers" ∧ group.m_bundled = true
          ∧ group.size ≥ 2 * (num_aero_modes + num_aero_tracers) + num_aero_gases))
      ∧ ((∃ e, set_computed_group_impl num_aero_modes num_aero_tracers num_aero_gases
            group = .error e)
        ↔ ¬ (group.m_group_name = "tracers" ∧ group.m_bundled = true
          ∧ group.size ≥ 2 * (num_aero_modes + num_aero_tracers) + num_aero_gases)) := by
  unfold set_computed_group_impl
  by_cases h1 : group.m_group_name = "tracers"
  · by_cases h2 : group.m_bundled = true
    · by_cases h3 : group.size ≥ 2 * (num_aero_modes + num_aero_tracers) + num_aero_gases
      · simp [h1, h2, h3]
      · simp [h1, h2, h3]
    · simp [h1, h2]
  · simp [h1]

/-! ## The block of sink levels, the constructed config and the signs of
the pressure spacings -/

theorem length_filter_range_ge (a : Int) (N : Nat) :
    ((List.range N).filter (fun (k : Nat) => decide (a ≤ (k : Int)))).length = N - a.toNat := by
  induction N with
  | zero => simp
  | succ N ih =>
    rw [List.range_succ, List.filter_append, List.length_append, ih]
    by_cases h : a ≤ (N : Int)
    · simp only [List.filter_cons, List.filter_nil, h, decide_True, if_true,
        List.length_singleton]
      omega
    · simp only [List.filter_cons, List.filter_nil, h, decide_False, List.length_nil]
      simp
      omega

section claims_block

variable {Progs SetsoxCfg Wet : Type} {n : Nat}

/-- C24: for every `nlev_ ≥ 0` and every integer `o3_lbl`, in every column
the set of levels `k` in `[0, nlev_)` at which the surface-sink relaxation
fires is exactly the block of highest indices `{k : k ≥ nlev_ - o3_lbl}`, and
its size is `min (max o3_lbl 0) nlev_`: the kernel is among the calls of
exactly these levels; at them the ozone entry of `vmr` is what the kernel
returns for it, and at every other level `vmr` is carried on untouched; the
`vmr` so obtained is the one checked, converted and written to the
prognostics, which `run_impl` hands on level by level and postprocesses. -/
theorem sfcsink_levels_block (ext : Externals Progs SetsoxCfg Wet n)
    (self : MAMMicrophysics Progs SetsoxCfg Wet) (dt : Real) (ind : Indeterminate)
    (hn : 0 ≤ self.nlev_) (icol : Nat) (hcol : (icol : Int) < self.ncol_) :
    (∀ k : Nat, (k : Int) < self.nlev_ →
        ((icol, k, Call.lin_strat_sfcsink_kk) ∈ (run_impl_calls ext self dt ind).2
          ↔ (k : Int) ≥ self.nlev_ - self.config_.linoz.o3_lbl))
      ∧ (((List.range self.nlev_.toNat).filter
            (fun k => decide ((icol, k, Call.lin_strat_sfcsink_kk)
              ∈ (run_impl_calls ext self dt ind).2))).length : Int)
          = min (max self.config_.linoz.o3_lbl 0) self.nlev_
      ∧ (∀ (k : Nat) (progs : Progs),
          (run_level ext self dt ind icol k progs).vmr_before_check
            = if (k : Int) ≥ self.nlev_ - self.config_.linoz.o3_lbl then
                update_ref (run_level ext self dt ind icol k progs).vmr_before_sink
                  (ind.o3_ndx icol k)
                  (fun o3 => ext.lin_strat_sfcsink_kk dt
                    ((column_data ext self (ext.preprocess self.fields) ind icol).atm.hydrostatic_dp
                      k)
                    o3 self.config_.linoz.o3_sfc self.config_.linoz.o3_tau)
              else (run_level ext self dt ind icol k progs).vmr_before_sink)
      ∧ (((List.range self.nlev_.toNat).filter
            (fun (k : Nat) => decide ((k : Int) ≥ self.nlev_ - self.config_.linoz.o3_lbl))).length
              : Int)
          = min (max self.config_.linoz.o3_lbl 0) self.nlev_
      ∧ (∀ (k : Nat) (progs : Progs),
          (run_level ext self dt ind icol k progs).progs
            = ext.transfer_work_arrays_to_prognostics
                (ext.convert_work_arrays_to_mmr
                  (reset_negative_values
                    (run_level ext self dt ind icol k progs).vmr_before_check)
                  (run_level ext self dt ind icol k progs).vmrcw).1
                (ext.convert_work_arrays_to_mmr
                  (reset_negative_values
                    (run_level ext self dt ind icol k progs).vmr_before_check)
                  (run_level ext self dt ind icol k progs).vmrcw).2
                progs k)
      ∧ (run_impl ext self dt ind).fields
          = ext.postprocess
              { ext.preprocess self.fields with
                interstitial_aerosols_for_column := fun icol =>
                  if (icol : Int) < self.ncol_ then
                    (List.range self.nlev_.toNat).foldl
                      (fun progs k => (run_level ext self dt ind icol k progs).progs)
                      ((ext.preprocess self.fields).interstitial_aerosols_for_column icol)
                  else (ext.preprocess self.fields).interstitial_aerosols_for_column icol } := by
  have hlen : (((List.range self.nlev_.toNat).filter
        (fun (k : Nat) => decide ((k : Int) ≥ self.nlev_ - self.config_.linoz.o3_lbl))).length
          : Int)
      = min (max self.config_.linoz.o3_lbl 0) self.nlev_ := by
    have e : (List.range self.nlev_.toNat).filter
          (fun (k : Nat) => decide ((k : Int) ≥ self.nlev_ - self.config_.linoz.o3_lbl))
        = (List.range self.nlev_.toNat).filter
          (fun (k : Nat) => decide (self.nlev_ - self.config_.linoz.o3_lbl ≤ (k : Int))) := rfl
    rw [e, length_filter_range_ge]
    omega
  refine ⟨?_, ?_, ?_, hlen, fun k progs => rfl, run_impl_fields ext self dt ind⟩
  · intro k hk
    rw [sfcsink_mem_run_impl_calls]
    constructor
    · intro h; omega
    · intro h; exact ⟨hcol, hk, by omega⟩
  · have hf : (List.range self.nlev_.toNat).filter
          (fun k => decide ((icol, k, Call.lin_strat_sfcsink_kk)
            ∈ (run_impl_calls ext self dt ind).2))
        = (List.range self.nlev_.toNat).filter
          (fun (k : Nat) => decide ((k : Int) ≥ self.nlev_ - self.config_.linoz.o3_lbl)) := by
      apply List.filter_congr
      intro k hk
      have hk1 := List.mem_range.mp hk
      have hk2 : (k : Int) < self.nlev_ := by omega
      rw [decide_eq_decide, sfcsink_mem_run_impl_calls]
      constructor
      · intro h; omega
      · intro h; exact ⟨hcol, hk2, by omega⟩
    rw [hf, hlen]
  · intro k progs
    unfold run_level
    rw [level_kernel_sink_flow]
    by_cases h : (k : Int) ≥ self.nlev_ - self.config_.linoz.o3_lbl
    · rw [if_pos (by omega), if_pos h]
    · rw [if_neg (by omega), if_neg h]

/-- Witness of C24: a column of two levels with `o3_lbl = 1`. -/
theorem sfcsink_levels_block_witness :
    (0 : Int) ≤ (sample_process 2 1).nlev_
      ∧ (((List.range (sample_process 2 1).nlev_.toNat).filter
            (fun k => decide ((0, k, Call.lin_strat_sfcsink_kk)
              ∈ (run_impl_calls relaxing_externals (sample_process 2 1) 1800
                  sample_indeterminate).2))).length : Int)
          = min (max (sample_process 2 1).config_.linoz.o3_lbl 0) (sample_process 2 1).nlev_ :=
  ⟨by decide,
    (sfcsink_levels_block relaxing_externals (sample_process 2 1) 1800 sample_indeterminate
      (by decide) 0 (by decide)).2.1⟩

end claims_block

theorem set_data_file_eq_ok {D : String} {M : Nat} {name path loc : String}
    (h : set_data_file D M name path = .ok loc) : loc = D ++ "/" ++ path := by
  unfold set_data_file at h
  split at h
  · cases h; rfl
  · cases h

/-- C26: the config the constructor of `MAMMicrophysics` produces does not
depend on the parameter list: for any two parameter lists `configure` yields
the same result, and in every config it yields `do_cond`, `do_rename`,
`do_newnuc` and `do_coag` are true, `newnuc_method_user_choice = 2`,
`pbl_nuc_wang2008_user_choice = 1`, `gaexch_h2so4_uptake_optaa = 2` and
`newnuc_h2so4_conc_optaa = 2`. -/
theorem config_independent_of_params {SetsoxCfg Params : Type} (SCREAM_DATA_DIR : String)
    (MAX_FILENAME_LEN : Nat) (params1 params2 : Params) (config_ : Config SetsoxCfg) :
    construct_config SCREAM_DATA_DIR MAX_FILENAME_LEN params1 config_
        = construct_config SCREAM_DATA_DIR MAX_FILENAME_LEN params2 config_
      ∧ ∀ c, construct_config SCREAM_DATA_DIR MAX_FILENAME_LEN params1 config_ = .ok c →
          c.amicphys.do_cond = true ∧ c.amicphys.do_rename = true
          ∧ c.amicphys.do_newnuc = true ∧ c.amicphys.do_coag = true
          ∧ c.amicphys.nucleation.newnuc_method_user_choice = 2
          ∧ c.amicphys.nucleation.pbl_nuc_wang2008_user_choice = 1
          ∧ c.amicphys.gaexch_h2so4_uptake_optaa = 2
          ∧ c.amicphys.newnuc_h2so4_conc_optaa = 2 := by
  refine ⟨rfl, fun c h => ?_⟩
  unfold construct_config configure set_defaults_ at h
  obtain ⟨f1, _, h⟩ := (bind_eq_ok _ _ _).mp h
  obtain ⟨f2, _, h⟩ := (bind_eq_ok _ _ _).mp h
  obtain ⟨f3, _, h⟩ := (bind_eq_ok _ _ _).mp h
  simp only [pure, Except.pure, Except.ok.injEq] at h
  subst h
  exact ⟨rfl, rfl, rfl, rfl, rfl, rfl, rfl, rfl⟩

/-- Witness of C26: the constructor on a blank config, with the data
directory `/data` and file names of up to 256 characters. -/
theorem config_independent_of_params_witness :
    ∃ c, construct_config "/data" 256 () blank_config = .ok c
      ∧ c.amicphys.do_cond = true ∧ c.amicphys.newnuc_h2so4_conc_optaa = 2 :=
  ⟨_, rfl,
    ((config_independent_of_params "/data" 256 () () blank_config).2 _ rfl).1,
    ((config_independent_of_params "/data" 256 () () blank_config).2 _ rfl).2.2.2.2.2.2.2⟩

/-- C28: over exact arithmetic, in the table `read_photo_table` returns
every entry of `del_p` is strictly positive whenever the adjacent pressure
grid values differ, whether the grid ascends or descends, whereas `dprs(i)`
is positive exactly when `prs(i) > prs(i+1)` and negative when
`prs(i) < prs(i+1)`. -/
theorem del_p_positive_dprs_signed (phtcnt : Nat) (comm : Comm)
    (fs : String → Option NcFile) (rsf_file xs_long_file : String) (u : Fin 7 → Int)
    (T : PhotoTableData) (B : Broadcasts)
    (h : read_photo_table phtcnt comm fs rsf_file xs_long_file u = .ok (T, B)) :
    (∀ i : Nat, (i : Int) < T.nump - 1 → T.press.getD i 0 ≠ T.press.getD (i + 1) 0 →
        0 < T.del_p.getD i 0)
      ∧ (∀ i : Nat, (i : Int) < T.np_xs - 1 →
          ((0 < T.dprs.getD i 0 ↔ T.prs.getD i 0 > T.prs.getD (i + 1) 0)
            ∧ (T.prs.getD i 0 < T.prs.getD (i + 1) 0 → T.dprs.getD i 0 < 0))) := by
  obtain ⟨d, numj, hv, pht, lng, rfl⟩ := read_photo_table_eq_fill_table h
  constructor
  · intro i hi hne
    simp only [fill_table] at hi hne ⊢
    rw [getD_map_range _ _ _ (lt_toNat_of_cast_lt hi)]
    exact one_div_pos.mpr (abs_pos.mpr (sub_ne_zero.mpr hne))
  · intro i hi
    simp only [fill_table] at hi ⊢
    rw [getD_map_range _ _ _ (lt_toNat_of_cast_lt hi)]
    refine ⟨?_, fun hlt => ?_⟩
    · rw [one_div_pos, sub_pos]
    · exact one_div_neg.mpr (sub_neg.mpr hlt)

/-- Witness of C28: the descending grids of the sample table. -/
theorem del_p_positive_dprs_signed_witness :
    0 < sample_table.del_p.getD 0 0
      ∧ (0 < sample_table.dprs.getD 0 0
          ↔ sample_table.prs.getD 0 0 > sample_table.prs.getD (0 + 1) 0) :=
  have w := del_p_positive_dprs_signed 1 root_comm sample_fs "rsf.nc" "xs_long.nc"
    (fun _ => 0) sample_table sample_broadcasts sample_root_run
  ⟨w.1 0 (by decide) (by simp [sample_table]), (w.2 0 (by decide)).1⟩

/-! ## The surface coupling exporter -/

theorem get_required_grids_calls_last (prior : List SurfaceCouplingExporter)
    (grids : List String) (self : SurfaceCouplingExporter) (grid : String)
    (hprior : prior.map (fun c => c.m_params "Grid") = grids.map some)
    (hself : self.m_params "Grid" = some grid) (s : Finset String) :
    ∃ earlier, get_required_grids_calls (prior ++ [self]) s
      = .ok (earlier ++ [insert grid (s ∪ grids.toFinset)]) := by
  induction prior generalizing grids s with
  | nil =>
    cases grids with
    | nil =>
      refine ⟨[], ?_⟩
      simp [get_required_grids_calls, SurfaceCouplingExporter.get_required_grids, hself]
    | cons g gs => simp at hprior
  | cons c cs ih =>
    cases grids with
    | nil => simp at hprior
    | cons g gs =>
      simp only [List.map_cons, List.cons.injEq] at hprior
      obtain ⟨hc, hcs⟩ := hprior
      obtain ⟨earlier, he⟩ := ih gs hcs (insert g s)
      refine ⟨insert g s :: earlier, ?_⟩
      rw [List.cons_append, get_required_grids_calls]
      simp only [SurfaceCouplingExporter.get_required_grids, hc, he]
      simp

/-- Counterexample to C29: after a call on an exporter of the grid
"Physics GLL", the call on an exporter of the grid "Physics PG2" returns the
set of both names, not the one-element set of its own grid. -/
theorem second_exporter_gets_both_grids :
    get_required_grids_calls [exporter_on "Physics GLL", exporter_on "Physics PG2"] ∅
        = .ok [{"Physics GLL"}, {"Physics PG2", "Physics GLL"}]
      ∧ ({"Physics PG2", "Physics GLL"} : Finset String) ≠ {"Physics PG2"} := by
  refine ⟨rfl, by decide⟩

/-- C29, amended: `get_required_grids` returns the set of the "Grid"
parameters of all the calls made so far, on whatever instances, its own
included; this is exactly the one-element set of its own "Grid" parameter
when every earlier call was made with the same grid name, in particular
when there is one exporter instance only. -/
theorem get_required_grids_accumulates (prior : List SurfaceCouplingExporter)
    (grids : List String) (self : SurfaceCouplingExporter) (grid : String)
    (hprior : prior.map (fun c => c.m_params "Grid") = grids.map some)
    (hself : self.m_params "Grid" = some grid) :
    (∃ earlier, get_required_grids_calls (prior ++ [self]) ∅
        = .ok (earlier ++ [insert grid grids.toFinset]))
      ∧ grid ∈ insert grid grids.toFinset
      ∧ ((∀ g ∈ grids, g = grid) → insert grid grids.toFinset = {grid}) := by
  refine ⟨?_, Finset.mem_insert_self _ _, fun hall => ?_⟩
  · obtain ⟨earlier, he⟩ := get_required_grids_calls_last prior grids self grid hprior hself ∅
    exact ⟨earlier, by rw [he, Finset.empty_union]⟩
  · ext x
    simp only [Finset.mem_insert, List.mem_toFinset, Finset.mem_singleton]
    constructor
    · rintro (h | h)
      · exact h
      · exact hall x h
    · intro h; exact Or.inl h

/-- Witness of the amended C29: three calls on one exporter of the grid
"Physics": the third returns the one-element set. -/
theorem get_required_grids_accumulates_witness :
    (∃ earlier, get_required_grids_calls
        ([exporter_on "Physics", exporter_on "Physics"] ++ [exporter_on "Physics"]) ∅
      = .ok (earlier ++ [insert "Physics" ["Physics", "Physics"].toFinset]))
      ∧ (∀ g ∈ ["Physics", "Physics"], g = "Physics")
      ∧ insert "Physics" ["Physics", "Physics"].toFinset = ({"Physics"} : Finset String) :=
  have w := get_required_grids_accumulates [exporter_on "Physics", exporter_on "Physics"]
    ["Physics", "Physics"] (exporter_on "Physics") "Physics" rfl rfl
  ⟨w.1, by decide, w.2.2 (by decide)⟩

end scream
